import Mathlib

/-! # Mini-Trello backend: invitations, membership, notifications, cache

A shallow embedding of the invitation / membership / notification code of the
backend (`models/Board.js`, `models/Invitation.js`, `models/Notification.js`,
`models/User.js`, `controllers/boardController.js`,
`controllers/notificationController.js`, `socket/socketServer.js`) and of its
response cache (`middleware/cache.js`, with `middleware/auth.js` and the
mounting order of `app.js`).

Modelling conventions.

* The document store is a record of collections; every collection is the list
  of its children in key order.  `push()` draws the next key from a counter and
  the new child is appended.  A store call fails in one case only: `set()` and
  `update()` throw when the value written has an `undefined` property or array
  element.  All other exceptions are the ones the JavaScript code throws itself.
* A JavaScript value that may be `null`/`undefined` is an `Option`; the store
  drops absent fields.  Where the difference between `null` and `undefined`
  matters (the properties of an invitation request body) the value is a
  `JsString`.  Truthiness of a string is non-emptiness.
* The store keeps no empty array: a board whose member list is empty is read
  back without a `members` property, and `board.members.includes(...)` then
  throws a `TypeError`.
* Timestamps (`createdAt`, `updatedAt`, `joinedAt`) are not modelled.
* A function that may throw after it has written returns the exception
  together with the store it leaves behind.
* Socket emissions and outgoing mail are appended to logs inside the state.
* Handlers take the route parameters, the request body and the authenticated
  user id (`req.user.uid`) and return the response with the resulting state.
* A socket connection is a record of its id, its user and the rooms it is in;
  an emission is delivered to the sockets that are in its room.
-/

namespace MiniTrello

/-! ## JavaScript helpers -/

/-- Truthiness of a possibly absent string. -/
def truthy : Option String → Bool
  | some s => s != ""
  | none => false

/-- The expression `a || b` on possibly absent strings. -/
def jsOr (a b : Option String) : Option String :=
  if truthy a then a else b

/-- A string-valued property of a request body, or of an object built from
one: `undefined` (the property is missing), `null`, or a string. -/
inductive JsString where
  | undefined
  | null
  | str (value : String)
deriving DecidableEq, Repr

/-- The value as the store keeps it and as the checks read it: the string, if
it is one. -/
def JsString.toOption : JsString → Option String
  | .str value => some value
  | _ => none

/-- Truthiness of a body property. -/
def JsString.truthy (v : JsString) : Bool :=
  MiniTrello.truthy v.toOption

/-- The expression `a || b` on body properties. -/
def JsString.or (a b : JsString) : JsString :=
  if a.truthy then a else b

/-- What a template literal prints for a possibly absent string. -/
def render : Option String → String
  | some s => s
  | none => "undefined"

/-! ## Data model -/

/-- A child of `users`. -/
structure User where
  email : Option String
  displayName : Option String
deriving DecidableEq, Repr

/-- A child of `boards`. -/
structure Board where
  name : String
  ownerId : String
  members : List String
deriving DecidableEq, Repr

/-- A child of `invitations`. -/
structure Invitation where
  boardId : String
  boardOwnerId : String
  memberId : Option String
  memberEmail : Option String
  status : String
deriving DecidableEq, Repr

/-- The free-form `data` payload of a notification, restricted to the fields
the controllers read or write. -/
structure NotificationData where
  invitationId : Option Nat
  inviteId : Option Nat
  boardName : Option String
  senderName : Option String
  status : Option String
  taskTitle : Option String
deriving DecidableEq, Repr

/-- The empty payload `{}`. -/
def NotificationData.empty : NotificationData :=
  ⟨none, none, none, none, none, none⟩

/-- A child of `notifications`. -/
structure Notification where
  type : String
  title : String
  message : String
  data : NotificationData
  recipientId : Option String
  senderId : Option String
  boardId : Option String
  cardId : Option String
  taskId : Option String
  read : Bool
deriving DecidableEq, Repr

/-- The argument object of `Notification.create`; `read` and `userId` stand for
properties a caller may put on it although `create` does not copy them. -/
structure NotificationInput where
  type : String
  title : String
  message : String
  data : Option NotificationData
  recipientId : Option String
  senderId : Option String
  boardId : Option String
  cardId : Option String
  taskId : Option String
  read : Option Bool
  userId : Option String
deriving DecidableEq, Repr

/-- The payload of a socket event. -/
inductive Payload where
  | notification (id : Nat) (record : Notification)
  | boardData (boardId : String) (board : Board)
  | memberJoined (boardId : String) (newMemberId : String)
  | memberRemoved (boardId : String) (removedMemberId : String)
      (removedBy : Option String) (leftVoluntarily : Bool)
  | removedFromBoard (boardId : String) (boardName : String) (removedBy : String)
  | notificationUpdated (notificationId : Nat) (record : Option Notification)
  | notificationDeleted (notificationId : Nat)
deriving DecidableEq, Repr

/-- One `io.to(room).emit(event, payload)`. -/
structure Emission where
  room : String
  event : String
  payload : Payload
deriving DecidableEq, Repr

/-- One call of `sendInvitationEmail(email, boardName, inviterName)`. -/
structure Mail where
  email : String
  boardName : String
  inviterName : Option String
deriving DecidableEq, Repr

/-- The state: the collections of the store, the push-key counter, whether the
socket server has been initialised, and the logs of emissions and mail. -/
structure Store where
  users : List (String × User)
  boards : List (String × Board)
  invitations : List (Nat × Invitation)
  notifications : List (Nat × Notification)
  nextKey : Nat
  ioReady : Bool
  emitted : List Emission
  outbox : List Mail
deriving DecidableEq, Repr

/-- An HTTP response: status code, the `error` field of a failure body and the
`message` field.  The `message` of a failure body is given where a theorem
speaks of it and is `none` otherwise: its text is not modelled there. -/
structure Response where
  status : Nat
  error : Option String
  message : Option String
deriving DecidableEq, Repr

/-- A success body sent with `res.json` (status 200). -/
def Response.ok (message : String) : Response :=
  ⟨200, none, some message⟩

/-- A failure body sent with `res.status(code).json`. -/
def Response.fail (code : Nat) (error : String) (message : Option String) : Response :=
  ⟨code, some error, message⟩

/-! ## `socket/socketServer.js` -/

/-- The function `emitToBoardRoom(boardId, event, data)`. -/
def emitToBoardRoom (s : Store) (boardId : String) (event : String) (data : Payload) : Store :=
  if s.ioReady then { s with emitted := s.emitted ++ [⟨"board_" ++ boardId, event, data⟩] } else s

/-- The function `emitToUser(userId, event, data)`. -/
def emitToUser (s : Store) (userId : String) (event : String) (data : Payload) : Store :=
  if s.ioReady then { s with emitted := s.emitted ++ [⟨"user_" ++ userId, event, data⟩] } else s

/-- The function `emitNewNotification(userId, notification)`; the user id is
whatever the caller read off the record and may be `undefined`. -/
def emitNewNotification (s : Store) (userId : Option String) (id : Nat) (n : Notification) : Store :=
  if s.ioReady then
    { s with emitted := s.emitted ++ [⟨"user_" ++ render userId, "new_notification", .notification id n⟩] }
  else s

/-- The function `emitNotificationDeleted(userId, notificationId)`. -/
def emitNotificationDeleted (s : Store) (userId : String) (notificationId : Nat) : Store :=
  if s.ioReady then
    { s with emitted := s.emitted ++
        [⟨"user_" ++ userId, "notification_deleted", .notificationDeleted notificationId⟩] }
  else s

/-- The room a connection of user `userId` joins at connect:
`socket.join("user_" + socket.userId)`. -/
def userRoom (userId : String) : String := "user_" ++ userId

/-! ## `models/User.js` -/

/-- The method `User.findById(uid)`. -/
def User.findById (s : Store) (uid : String) : Option User :=
  s.users.lookup uid

/-- The method `User.findByEmail(email)`: the first child whose `email` equals
the argument, with its key. -/
def User.findByEmail (s : Store) (email : String) : Option (String × User) :=
  s.users.find? (fun e => e.2.email == some email)

/-- The method `User.create(uid, userData)`: writes `users/<uid>`. -/
def User.create (s : Store) (uid : String) (userData : User) : Store :=
  let newUser : User :=
    { email := userData.email, displayName := jsOr userData.displayName (some "") }
  if (s.users.lookup uid).isSome then
    { s with users := s.users.map (fun e => if e.1 = uid then (uid, newUser) else e) }
  else { s with users := s.users ++ [(uid, newUser)] }

/-! ## `models/Board.js` -/

/-- The method `Board.findById(boardId)`. -/
def Board.findById (s : Store) (boardId : String) : Option Board :=
  s.boards.lookup boardId

/-- The write `boardRef.update` of `members` on `boards/<boardId>`. -/
def Board.setMembers (s : Store) (boardId : String) (members : List String) : Store :=
  let upd : String × Board → String × Board :=
    fun e => if e.1 = boardId then (e.1, { e.2 with members := members }) else e
  { s with boards := s.boards.map upd }

/-- The method `Board.addMember(boardId, memberId)`.  An absent member id is
pushed as `undefined`, which `update()` rejects: the call throws and writes
nothing. -/
def Board.addMember (s : Store) (boardId : String) (memberId : Option String) :
    Except String Bool × Store :=
  match Board.findById s boardId with
  | none => (.error "Error adding member to board: Board not found", s)
  | some board =>
    match memberId with
    | none => (.error "Error adding member to board: update failed: undefined in members", s)
    | some m =>
      if board.members.contains m then (.ok true, s)
      else (.ok true, Board.setMembers s boardId (board.members ++ [m]))

/-- The method `Board.removeMember(boardId, memberId)`. -/
def Board.removeMember (s : Store) (boardId : String) (memberId : String) :
    Except String Bool × Store :=
  match Board.findById s boardId with
  | none => (.error "Error removing member from board: Board not found", s)
  | some board =>
    (.ok true, Board.setMembers s boardId (board.members.filter (fun id => id != memberId)))

/-! ## `models/Invitation.js` -/

/-- The write `invitationRef.set(newInvitation)` on the pushed child of
`invitations`, for a record without an `undefined` property: the new child has
status `pending`; returns its key and the record. -/
def Invitation.write (s : Store) (boardId boardOwnerId : String)
    (memberId memberEmail : Option String) : (Nat × Invitation) × Store :=
  let newInvitation : Invitation := ⟨boardId, boardOwnerId, memberId, memberEmail, "pending"⟩
  ((s.nextKey, newInvitation),
   { s with invitations := s.invitations ++ [(s.nextKey, newInvitation)], nextKey := s.nextKey + 1 })

/-- The method `Invitation.create(invitationData)`.  The record is built with
`memberId` and `memberEmail` as they were passed; `set()` rejects a record with
an `undefined` property, so the call throws and nothing is stored, while a
`null` property is stored as an absent field. -/
def Invitation.create (s : Store) (boardId boardOwnerId : String)
    (memberId memberEmail : JsString) : Except String (Nat × Invitation) × Store :=
  if memberId == .undefined || memberEmail == .undefined then
    (.error "Error creating invitation: set failed: value contains undefined", s)
  else
    let r := Invitation.write s boardId boardOwnerId memberId.toOption memberEmail.toOption
    (.ok r.1, r.2)

/-- The method `Invitation.findById(invitationId)`; an absent id names no
child. -/
def Invitation.findById (s : Store) (invitationId : Option Nat) : Option Invitation :=
  match invitationId with
  | none => none
  | some k => s.invitations.lookup k

/-- The method `Invitation.findByBoard(boardId)` (order not modelled beyond
store order). -/
def Invitation.findByBoard (s : Store) (boardId : String) : List (Nat × Invitation) :=
  s.invitations.filter (fun e => e.2.boardId == boardId)

/-- The write `invitationRef.update` of `status` on `invitations/<id>`. -/
def Invitation.setStatus (s : Store) (invitationId : Nat) (status : String) : Store :=
  let upd : Nat × Invitation → Nat × Invitation :=
    fun e => if e.1 = invitationId then (e.1, { e.2 with status := status }) else e
  { s with invitations := s.invitations.map upd }

/-- The method `Invitation.updateStatus(invitationId, status, memberId = null)`. -/
def Invitation.updateStatus (s : Store) (invitationId : Option Nat) (status : String)
    (memberId : Option String) : Except String (Option Invitation) × Store :=
  match invitationId, Invitation.findById s invitationId with
  | some k, some invitation =>
    if truthy memberId && invitation.memberId != memberId then
      (.error "Error updating invitation status: Unauthorized to update this invitation", s)
    else
      let s1 := Invitation.setStatus s k status
      if status == "accepted" then
        match Board.addMember s1 invitation.boardId invitation.memberId with
        | (.error e, s2) => (.error ("Error updating invitation status: " ++ e), s2)
        | (.ok _, s2) => (.ok (some { invitation with status := status }), s2)
      else (.ok (some { invitation with status := status }), s1)
  | _, _ => (.ok none, s)

/-- The method `Invitation.existsForBoardAndMember(boardId, memberId)`. -/
def Invitation.existsForBoardAndMember (s : Store) (boardId : String) (memberId : Option String) :
    Bool :=
  s.invitations.any (fun e =>
    e.2.boardId == boardId && e.2.memberId == memberId && e.2.status == "pending")

/-! ## `models/Notification.js` -/

/-- The method `Notification.create(notificationData)`; returns the key and the
stored record. -/
def Notification.create (s : Store) (d : NotificationInput) : (Nat × Notification) × Store :=
  let notification : Notification :=
    { type := d.type, title := d.title, message := d.message,
      data := d.data.getD NotificationData.empty,
      recipientId := d.recipientId, senderId := d.senderId,
      boardId := if truthy d.boardId then d.boardId else none,
      cardId := if truthy d.cardId then d.cardId else none,
      taskId := if truthy d.taskId then d.taskId else none,
      read := false }
  ((s.nextKey, notification),
   { s with notifications := s.notifications ++ [(s.nextKey, notification)],
            nextKey := s.nextKey + 1 })

/-- The method `Notification.findByUserId(userId, limit)`: the last `limit`
children with that recipient, newest first. -/
def Notification.findByUserId (s : Store) (userId : String) (limit : Nat) :
    List (Nat × Notification) :=
  let found := s.notifications.filter (fun e => e.2.recipientId == some userId)
  (found.drop (found.length - limit)).reverse

/-- The method `Notification.findById(notificationId)`. -/
def Notification.findById (s : Store) (notificationId : Nat) : Option Notification :=
  s.notifications.lookup notificationId

/-- The method `Notification.update(notificationId, updateData)` with the four
fields the invitation response rewrites. -/
def Notification.update (s : Store) (notificationId : Nat) (type message : String)
    (data : NotificationData) (read : Bool) : Store :=
  let upd : Nat × Notification → Nat × Notification :=
    fun e => if e.1 = notificationId then
      (e.1, { e.2 with type := type, message := message, data := data, read := read })
    else e
  { s with notifications := s.notifications.map upd }

/-- The method `Notification.delete(notificationId)`. -/
def Notification.delete (s : Store) (notificationId : Nat) : Store :=
  { s with notifications := s.notifications.filter (fun e => e.1 != notificationId) }

/-! ## `controllers/notificationController.js` -/

/-- The method `createNotification(notificationData)`: the record returned by
`Notification.create` has no `userId` property, so `notification.userId`
is `undefined` at the call of `emitNewNotification`. -/
def createNotification (s : Store) (notificationData : NotificationInput) :
    (Nat × Notification) × Store :=
  let (notification, s1) := Notification.create s notificationData
  if truthy notification.2.recipientId then
    (notification, emitNewNotification s1 none notification.1 notification.2)
  else (notification, s1)

/-- The name shown for a sender: `sender?.displayName || sender?.email || "Someone"`. -/
def senderNameOf (sender : Option User) : String :=
  match jsOr (jsOr (sender.bind (·.displayName)) (sender.bind (·.email))) (some "Someone") with
  | some n => n
  | none => "Someone"

/-- The method `createBoardInvitationNotification(recipientId, senderId,
boardName, invitationId)`. -/
def createBoardInvitationNotification (s : Store) (recipientId senderId : String)
    (boardName : String) (invitationId : Nat) : (Nat × Notification) × Store :=
  let senderName := senderNameOf (User.findById s senderId)
  let invitation := Invitation.findById s (some invitationId)
  let invitationStatus := jsOr (invitation.map (·.status)) (some "pending")
  createNotification s
    { type := "board_invitation", title := "Board Invitation",
      message := senderName ++ " invited you to join \"" ++ boardName ++ "\"",
      data := some { invitationId := some invitationId, inviteId := none,
                     boardName := some boardName, senderName := some senderName,
                     status := invitationStatus, taskTitle := none },
      recipientId := some recipientId, senderId := some senderId,
      boardId := none, cardId := none, taskId := none, read := none, userId := none }

/-- The handler `deleteNotification` for `DELETE /notifications/:id` by user
`userId`. -/
def deleteNotification (s : Store) (id : Nat) (userId : String) : Response × Store :=
  match Notification.findById s id with
  | none => (Response.fail 404 "Notification not found" none, s)
  | some notification =>
    if notification.recipientId != some userId then
      (Response.fail 403 "Access denied" none, s)
    else
      let s1 :=
        if notification.type == "board_invitation" then
          let invitationId := notification.data.invitationId <|> notification.data.inviteId
          let invitationStatus := notification.data.status
          if invitationId.isSome && (!truthy invitationStatus || invitationStatus == some "pending") then
            match Invitation.findById s invitationId with
            | some currentInvitation =>
              if currentInvitation.status == "pending" then
                (Invitation.updateStatus s invitationId "declined" (some userId)).2
              else s
            | none => s
          else s
        else s
      let s2 := Notification.delete s1 id
      let s3 := emitNotificationDeleted s2 userId id
      (Response.ok "Notification deleted", s3)

/-! ## `controllers/boardController.js` -/

/-- The body of `POST /boards/:boardId/invite`. -/
structure InviteBody where
  member_id : JsString
  email_member : JsString
  email : JsString
deriving DecidableEq, Repr

/-- The email `inviteMember` works with: `email_member || email`. -/
def InviteBody.memberEmail (body : InviteBody) : JsString :=
  JsString.or body.email_member body.email

/-- The invitee id `inviteMember` works with: `member_id`, or, when that is
falsy and an email is given, the id of the user found by that email. -/
def resolveMemberId (s : Store) (member_id memberEmail : JsString) : JsString :=
  if !member_id.truthy && memberEmail.truthy then
    match memberEmail.toOption.bind (User.findByEmail s) with
    | some user => .str user.1
    | none => member_id
  else member_id

/-- The pre-create check of `inviteMember`: by member id when one is known,
otherwise by email among the invitations of the board. -/
def existingInvitation (s : Store) (boardId : String) (memberId memberEmail : Option String) :
    Bool :=
  if truthy memberId then Invitation.existsForBoardAndMember s boardId memberId
  else if truthy memberEmail then
    (Invitation.findByBoard s boardId).any
      (fun inv => inv.2.memberEmail == memberEmail && inv.2.status == "pending")
  else false

/-- The membership test of `inviteMember`:
`memberId && board.members.includes(memberId)`. -/
def alreadyMember (board : Board) (memberId : Option String) : Bool :=
  truthy memberId && board.members.contains (memberId.getD "")

/-- The mail step of `inviteMember`: a missing inviter makes
`inviter.displayName` throw, which the surrounding `try` swallows. -/
def sendInvitationMail (s : Store) (memberEmail : Option String) (boardName userId : String) :
    Store :=
  match memberEmail, User.findById s userId with
  | some e, some inviter =>
    if truthy memberEmail then
      { s with outbox := s.outbox ++ [⟨e, boardName, jsOr inviter.displayName inviter.email⟩] }
    else s
  | _, _ => s

/-- The test `inviteMember` applies to each existing notification of the
invitee. -/
def isDuplicate (n : Notification) (boardName userId : String) (actualInvitationId : Nat) : Bool :=
  n.type == "board_invitation" && n.data.boardName == some boardName &&
    n.senderId == some userId && n.data.invitationId == some actualInvitationId

/-- The notification step of `inviteMember` for a known invitee id: skip when
a duplicate is among the invitee's notifications, otherwise create one. -/
def inviteNotification (s : Store) (memberId userId boardName : String)
    (actualInvitationId : Nat) : Store :=
  let existingNotifications := Notification.findByUserId s memberId 50
  match existingNotifications.find? (fun n => isDuplicate n.2 boardName userId actualInvitationId) with
  | none => (createBoardInvitationNotification s memberId userId boardName actualInvitationId).2
  | some _ => s

/-- The handler `inviteMember` for `POST /boards/:boardId/invite` by user
`userId`.  A board stored without members has no `members` property, so
`board.members.includes` throws; an exception is answered by the outer `catch`. -/
def inviteMember (s : Store) (boardId : String) (body : InviteBody) (userId : String) :
    Response × Store :=
  let memberEmail := body.memberEmail
  if !body.member_id.truthy && !memberEmail.truthy then
    (Response.fail 400 "Member ID or email is required" none, s)
  else
    let memberId := resolveMemberId s body.member_id memberEmail
    match Board.findById s boardId with
    | none => (Response.fail 404 "Board not found" none, s)
    | some board =>
      if board.members.isEmpty then
        (Response.fail 500 "Failed to invite member" none, s)
      else if !board.members.contains userId then
        (Response.fail 403 "Access denied" none, s)
      else if alreadyMember board memberId.toOption then
        (Response.fail 400 "Member already exists" none, s)
      else if existingInvitation s boardId memberId.toOption memberEmail.toOption then
        (Response.fail 400 "Invitation already sent" none, s)
      else
        match Invitation.create s boardId board.ownerId memberId memberEmail with
        | (.error _, s1) => (Response.fail 500 "Failed to invite member" none, s1)
        | (.ok invitation, s1) =>
          let s2 := sendInvitationMail s1 memberEmail.toOption board.name userId
          let s3 :=
            match memberId.toOption with
            | some m =>
              if truthy memberId.toOption then
                inviteNotification s2 m userId board.name invitation.1
              else s2
            | none => s2
          (Response.ok "Invitation sent successfully", s3)

/-- The body of `POST /boards/invitation/respond`. -/
structure RespondBody where
  invite_id : Option Nat
  invitationId : Option Nat
  status : String
deriving DecidableEq, Repr

/-- The notification step of `respondToInvitation`: rewrite the responding
user's notification that references the invitation, if there is one. -/
def reconcileNotification (s : Store) (finalInviteId : Option Nat) (status userId : String) :
    Store :=
  let notifications := Notification.findByUserId s userId 50
  match notifications.find? (fun n =>
      (n.2.type == "board_invitation" || n.2.type == "board_invitation_accepted") &&
        n.2.data.invitationId == finalInviteId) with
  | none => s
  | some invitationNotification =>
    let updatedData : NotificationData :=
      { status := some status, invitationId := finalInviteId, inviteId := none,
        boardName :=
          if truthy invitationNotification.2.data.boardName then
            invitationNotification.2.data.boardName else none,
        senderName :=
          if truthy invitationNotification.2.data.senderName then
            invitationNotification.2.data.senderName else none,
        taskTitle := none }
    let s1 :=
      if status == "accepted" then
        Notification.update s invitationNotification.1 "board_invitation_accepted"
          "You accepted the invitation to join \"board\"" updatedData true
      else if status == "declined" then
        Notification.update s invitationNotification.1 "board_invitation"
          "You declined the invitation to join \"board\"" updatedData true
      else s
    emitToUser s1 userId "notification_updated"
      (.notificationUpdated invitationNotification.1
        (Notification.findById s1 invitationNotification.1))

/-- The handler `respondToInvitation` for `POST /boards/invitation/respond` by
user `userId`. -/
def respondToInvitation (s : Store) (body : RespondBody) (userId : String) : Response × Store :=
  let finalInviteId := body.invite_id <|> body.invitationId
  if !(body.status == "accepted" || body.status == "declined") then
    (Response.fail 400 "Invalid status" none, s)
  else
    match Invitation.updateStatus s finalInviteId body.status (some userId) with
    | (.error e, s1) => (Response.fail 500 "Failed to respond to invitation" (some e), s1)
    | (.ok none, s1) => (Response.fail 404 "Invitation not found"
        (some "The invitation does not exist or you are not authorized to respond"), s1)
    | (.ok (some invitation), s1) =>
      let s2 :=
        if body.status == "accepted" then
          emitToBoardRoom s1 invitation.boardId "member_joined"
            (.memberJoined invitation.boardId userId)
        else s1
      let s3 := reconcileNotification s2 finalInviteId body.status userId
      (Response.ok ("Invitation " ++ body.status ++ " successfully"), s3)

/-- The handler `removeMember` for `DELETE /boards/:id/members/:memberId` by
user `userId`. -/
def removeMember (s : Store) (id memberId userId : String) : Response × Store :=
  match Board.findById s id with
  | none => (Response.fail 404 "Board not found" none, s)
  | some board =>
    if board.ownerId != userId then
      (Response.fail 403 "Access denied" none, s)
    else if memberId == board.ownerId then
      (Response.fail 400 "Cannot remove owner" none, s)
    else
      match Board.removeMember s id memberId with
      | (.error e, s1) => (Response.fail 500 "Failed to remove member" (some e), s1)
      | (.ok _, s1) =>
        let s2 := emitToBoardRoom s1 id "member_removed"
          (.memberRemoved id memberId (some userId) false)
        let s3 := emitToUser s2 memberId "removed_from_board"
          (.removedFromBoard id board.name userId)
        (Response.ok "Member removed successfully", s3)

/-- The handler `leaveBoard` for `POST /boards/:id/leave` by user `userId`.  A
board stored without members has no `members` property, so
`board.members.includes` throws; it is answered by the outer `catch`. -/
def leaveBoard (s : Store) (id userId : String) : Response × Store :=
  match Board.findById s id with
  | none => (Response.fail 404 "Board not found" none, s)
  | some board =>
    if board.members.isEmpty then
      (Response.fail 500 "Failed to leave board" none, s)
    else if !board.members.contains userId then
      (Response.fail 400 "Not a member" none, s)
    else if board.ownerId == userId then
      (Response.fail 400 "Cannot leave" none, s)
    else
      match Board.removeMember s id userId with
      | (.error e, s1) => (Response.fail 500 "Failed to leave board" (some e), s1)
      | (.ok _, s1) =>
        let s2 := emitToBoardRoom s1 id "member_removed" (.memberRemoved id userId none true)
        (Response.ok "Successfully left the board", s2)

/-- The handler `cancelInvitation` for
`DELETE /boards/:boardId/invitations/:invitationId` by user `userId`. -/
def cancelInvitation (s : Store) (boardId : String) (invitationId : Nat) (userId : String) :
    Response × Store :=
  match Board.findById s boardId with
  | none => (Response.fail 404 "Board not found" none, s)
  | some board =>
    if board.ownerId != userId then
      (Response.fail 403 "Access denied" none, s)
    else
      match Invitation.findById s (some invitationId) with
      | none => (Response.fail 404 "Invitation not found" none, s)
      | some invitation =>
        if invitation.boardId != boardId then
          (Response.fail 404 "Invitation not found" none, s)
        else if invitation.status != "pending" then
          (Response.fail 400 "Invalid operation" none, s)
        else
          match Invitation.updateStatus s (some invitationId) "cancelled" none with
          | (.error e, s1) => (Response.fail 500 "Failed to cancel invitation" (some e), s1)
          | (.ok _, s1) => (Response.ok "Invitation cancelled successfully", s1)


/-! ## Handlers when store calls may throw

The handlers above take every awaited store call to succeed, apart from a
write of `undefined`.  The variants
below carry flags saying which awaited calls of the secondary steps throw; a
call that throws writes nothing. -/

/-- Which awaited calls of the notification step of `respondToInvitation`
throw: `Notification.findByUserId`, `Notification.update`,
`Notification.findById`. -/
structure ReconcileFaults where
  findByUserId : Bool
  update : Bool
  findById : Bool
deriving DecidableEq, Repr

/-- No call throws. -/
def ReconcileFaults.none : ReconcileFaults := ⟨false, false, false⟩

/-- The notification step of `respondToInvitation` inside its `try`: the first
call that throws ends the step, the `catch` only logs. -/
def reconcileNotificationWith (f : ReconcileFaults) (s : Store) (finalInviteId : Option Nat)
    (status userId : String) : Store :=
  if f.findByUserId then s
  else
    let notifications := Notification.findByUserId s userId 50
    match notifications.find? (fun n =>
        (n.2.type == "board_invitation" || n.2.type == "board_invitation_accepted") &&
          n.2.data.invitationId == finalInviteId) with
    | none => s
    | some invitationNotification =>
      let updatedData : NotificationData :=
        { status := some status, invitationId := finalInviteId, inviteId := none,
          boardName :=
            if truthy invitationNotification.2.data.boardName then
              invitationNotification.2.data.boardName else none,
          senderName :=
            if truthy invitationNotification.2.data.senderName then
              invitationNotification.2.data.senderName else none,
          taskTitle := none }
      if (status == "accepted" || status == "declined") && f.update then s
      else
        let s1 :=
          if status == "accepted" then
            Notification.update s invitationNotification.1 "board_invitation_accepted"
              "You accepted the invitation to join \"board\"" updatedData true
          else if status == "declined" then
            Notification.update s invitationNotification.1 "board_invitation"
              "You declined the invitation to join \"board\"" updatedData true
          else s
        if f.findById then s1
        else
          emitToUser s1 userId "notification_updated"
            (.notificationUpdated invitationNotification.1
              (Notification.findById s1 invitationNotification.1))

/-- The handler `respondToInvitation` when calls of its notification step may
throw. -/
def respondToInvitationWith (f : ReconcileFaults) (s : Store) (body : RespondBody)
    (userId : String) : Response × Store :=
  let finalInviteId := body.invite_id <|> body.invitationId
  if !(body.status == "accepted" || body.status == "declined") then
    (Response.fail 400 "Invalid status" none, s)
  else
    match Invitation.updateStatus s finalInviteId body.status (some userId) with
    | (.error e, s1) => (Response.fail 500 "Failed to respond to invitation" (some e), s1)
    | (.ok none, s1) => (Response.fail 404 "Invitation not found"
        (some "The invitation does not exist or you are not authorized to respond"), s1)
    | (.ok (some invitation), s1) =>
      let s2 :=
        if body.status == "accepted" then
          emitToBoardRoom s1 invitation.boardId "member_joined"
            (.memberJoined invitation.boardId userId)
        else s1
      let s3 := reconcileNotificationWith f s2 finalInviteId body.status userId
      (Response.ok ("Invitation " ++ body.status ++ " successfully"), s3)

/-- Which awaited calls after `Invitation.create` in `inviteMember` throw: the
inviter lookup and the mail call of the mail step, and the inviter lookup, the
read of the invitee's notifications and the notification creation of the
notification step. -/
structure InviteFaults where
  inviterForMail : Bool
  sendInvitationEmail : Bool
  inviterForNotification : Bool
  findByUserId : Bool
  createBoardInvitationNotification : Bool
deriving DecidableEq, Repr

/-- No call throws. -/
def InviteFaults.none : InviteFaults := ⟨false, false, false, false, false⟩

/-- The handler `inviteMember` when calls after `Invitation.create` may throw.
The mail step sits in its own `try`, and so does the call of
`createBoardInvitationNotification`; the inviter lookup and the read of the
invitee's notifications in the notification step are awaited outside any inner
`try`, so their exception reaches the handler's outer `catch`. -/
def inviteMemberWith (f : InviteFaults) (s : Store) (boardId : String) (body : InviteBody)
    (userId : String) : Response × Store :=
  let memberEmail := body.memberEmail
  if !body.member_id.truthy && !memberEmail.truthy then
    (Response.fail 400 "Member ID or email is required" none, s)
  else
    let memberId := resolveMemberId s body.member_id memberEmail
    match Board.findById s boardId with
    | none => (Response.fail 404 "Board not found" none, s)
    | some board =>
      if board.members.isEmpty then
        (Response.fail 500 "Failed to invite member" none, s)
      else if !board.members.contains userId then
        (Response.fail 403 "Access denied" none, s)
      else if alreadyMember board memberId.toOption then
        (Response.fail 400 "Member already exists" none, s)
      else if existingInvitation s boardId memberId.toOption memberEmail.toOption then
        (Response.fail 400 "Invitation already sent" none, s)
      else
        match Invitation.create s boardId board.ownerId memberId memberEmail with
        | (.error _, s1) => (Response.fail 500 "Failed to invite member" none, s1)
        | (.ok invitation, s1) =>
          let s2 :=
            if f.inviterForMail || f.sendInvitationEmail then s1
            else sendInvitationMail s1 memberEmail.toOption board.name userId
          match memberId.toOption with
          | some m =>
            if truthy memberId.toOption then
              if f.inviterForNotification || f.findByUserId then
                (Response.fail 500 "Failed to invite member" none, s2)
              else
                let existingNotifications := Notification.findByUserId s2 m 50
                match existingNotifications.find?
                    (fun n => isDuplicate n.2 board.name userId invitation.1) with
                | none =>
                  if f.createBoardInvitationNotification then
                    (Response.ok "Invitation sent successfully", s2)
                  else
                    (Response.ok "Invitation sent successfully",
                     (createBoardInvitationNotification s2 m userId board.name invitation.1).2)
                | some _ => (Response.ok "Invitation sent successfully", s2)
            else (Response.ok "Invitation sent successfully", s2)
          | none => (Response.ok "Invitation sent successfully", s2)

/-! ## `middleware/cache.js`

Times are clock readings in milliseconds (`Date.now()`).  A response payload is
modelled by its JSON text. -/

/-- The library functions behind a cached route.  The cache calls the MD5 hex
digest of a text, `Date.prototype.toUTCString` of a clock reading, and the time
value of `new Date(text)` (`none` for an invalid date).  Express's own
`res.json` calls `etag`, the entity tag its `etag fn` gives a body when no
`ETag` header is set, and `fresh`, the test of the `fresh` package for a request
that carries `If-None-Match` or `If-Modified-Since` (and no
`Cache-Control: no-cache`), given these two request headers and the `ETag` and
`Last-Modified` headers of the response. -/
structure CacheEnv where
  md5 : String → String
  toUTCString : Int → String
  parseDate : String → Option Int
  etag : String → String
  fresh : Option String → Option String → Option String → Option String → Bool

/-- A value of the cache `Map`. -/
structure CacheEntry where
  data : String
  etag : String
  lastModified : String
  timestamp : Int
deriving DecidableEq, Repr

/-- A `CacheManager`; the `Map` is the list of its entries in insertion
order. -/
structure CacheManager where
  cache : List (String × CacheEntry)
  defaultDuration : Int
  maxSize : Nat
deriving DecidableEq, Repr

/-- The constructor: `options.duration || 30 * 1000`, `options.maxSize || 1000`. -/
def CacheManager.new (duration : Option Int) (maxSize : Option Nat) : CacheManager :=
  { cache := [],
    defaultDuration := match duration with
      | some d => if d = 0 then 30 * 1000 else d
      | none => 30 * 1000,
    maxSize := match maxSize with
      | some m => if m = 0 then 1000 else m
      | none => 1000 }

/-- The singleton `cacheManager` (duration 30 s, 1000 entries). -/
def cacheManager : CacheManager := CacheManager.new (some (30 * 1000)) (some 1000)

/-- The method `Map.prototype.set`: an existing key keeps its place. -/
def mapSet (m : List (String × CacheEntry)) (key : String) (value : CacheEntry) :
    List (String × CacheEntry) :=
  if (m.lookup key).isSome then m.map (fun e => if e.1 = key then (key, value) else e)
  else m ++ [(key, value)]

/-- The request as the cache middleware reads it: method, `originalUrl`,
`req.user?.uid`, and the headers `if-none-match` and `if-modified-since`. -/
structure Request where
  method : String
  originalUrl : String
  user : Option String
  ifNoneMatch : Option String
  ifModifiedSince : Option String
deriving DecidableEq, Repr

/-- The headers `setCacheHeaders` sets: `Cache-Control: public, max-age=<maxAge>`,
`ETag` and `Last-Modified`. -/
structure Headers where
  maxAge : Int
  etag : Option String
  lastModified : Option String
deriving DecidableEq, Repr

/-- The method `generateETag(data)`. -/
def generateETag (env : CacheEnv) (data : String) : String :=
  "\"" ++ env.md5 data ++ "\""

/-- The method `isCacheValid(cached)` at clock reading `now`. -/
def isCacheValid (cm : CacheManager) (now : Int) (cached : Option CacheEntry) : Bool :=
  match cached with
  | none => false
  | some c => decide (now - c.timestamp < cm.defaultDuration)

/-- The result object of `handleConditionalRequest`. -/
structure ConditionalResult where
  shouldReturn304 : Bool
  reason : Option String
deriving DecidableEq, Repr

/-- The comparison `clientTime >= resourceTime` of two `Date`s: false when
either is invalid. -/
def dateGe (clientTime resourceTime : Option Int) : Bool :=
  match clientTime, resourceTime with
  | some c, some r => decide (r ≤ c)
  | _, _ => false

/-- The method `handleConditionalRequest(req, cached)`. -/
def handleConditionalRequest (env : CacheEnv) (req : Request) (cached : CacheEntry) :
    ConditionalResult :=
  if truthy req.ifNoneMatch && req.ifNoneMatch == some cached.etag then
    ⟨true, some "ETag match"⟩
  else if truthy req.ifModifiedSince && cached.lastModified != "" &&
      dateGe (req.ifModifiedSince.bind env.parseDate) (env.parseDate cached.lastModified) then
    ⟨true, some "Not modified since"⟩
  else ⟨false, none⟩

/-- The method `setCacheHeaders(res, etag, lastModified, maxAge)`. -/
def setCacheHeaders (etag lastModified : String) (maxAge : Int) : Headers :=
  { maxAge := maxAge,
    etag := if etag != "" then some etag else none,
    lastModified := if lastModified != "" then some lastModified else none }

/-- The method `cleanup()` at clock reading `now`. -/
def cleanup (cm : CacheManager) (now : Int) : CacheManager :=
  { cm with cache := cm.cache.filter (fun e => !decide (now - e.2.timestamp > cm.defaultDuration)) }

/-- The method `clear()`. -/
def clear (cm : CacheManager) : CacheManager :=
  { cm with cache := [] }

/-- The cache key: `req.originalUrl + (req.user?.uid || "")`. -/
def cacheKey (req : Request) : String :=
  req.originalUrl ++ (jsOr req.user (some "")).getD ""

/-- The value `maxAge` of `middleware()` called without options:
`Math.floor(this.defaultDuration / 1000)`. -/
def maxAgeOf (cm : CacheManager) : Int :=
  Int.fdiv cm.defaultDuration 1000

/-- What the function returned by `middleware()` does with a request at clock
reading `now`: answer 304, answer with the cached payload, call `next()`
untouched (not a GET), or replace `res.json` for `key` and call `next()`. -/
inductive CacheOutcome where
  | notModified (headers : Headers)
  | hit (headers : Headers) (data : String)
  | pass
  | miss (key : String)
deriving DecidableEq, Repr

/-- The function returned by `middleware()`. -/
def middleware (env : CacheEnv) (cm : CacheManager) (now : Int) (req : Request) : CacheOutcome :=
  if req.method != "GET" then .pass
  else
    let key := cacheKey req
    let cached := cm.cache.lookup key
    match cached with
    | some c =>
      if isCacheValid cm now cached then
        if (handleConditionalRequest env req c).shouldReturn304 then
          .notModified (setCacheHeaders c.etag c.lastModified (maxAgeOf cm))
        else .hit (setCacheHeaders c.etag c.lastModified (maxAgeOf cm)) c.data
      else .miss key
    | none => .miss key

/-- A response as sent: status, the cache headers if any were set, the body. -/
structure Served where
  status : Nat
  headers : Option Headers
  body : Option String
deriving DecidableEq, Repr

/-- The replaced `res.json(data)` for `key`, called at clock reading `now` with
`res.statusCode = statusCode`: the cache afterwards, and the response (status,
cache headers set, payload) as it is handed on to the original `res.json`. -/
def cachedJson (env : CacheEnv) (cm : CacheManager) (now : Int) (key : String)
    (statusCode : Nat) (data : String) : Served × CacheManager :=
  if statusCode == 200 then
    let etag := generateETag env data
    let lastModified := env.toUTCString now
    let evicted := if cm.cache.length ≥ cm.maxSize then cm.cache.tail else cm.cache
    (⟨statusCode, some (setCacheHeaders etag lastModified (maxAgeOf cm)), some data⟩,
     { cm with cache := mapSet evicted key ⟨data, etag, lastModified, now⟩ })
  else (⟨statusCode, none, some data⟩, cm)

/-- Express's `req.fresh` when the response has status `statusCode` and the
given `ETag` and `Last-Modified` headers: only for GET and HEAD, only for a 2xx
or 304 status, and never for a request without a conditional header. -/
def Request.fresh (env : CacheEnv) (req : Request) (statusCode : Nat)
    (etag lastModified : Option String) : Bool :=
  (req.method == "GET" || req.method == "HEAD") &&
  ((decide (200 ≤ statusCode) && decide (statusCode < 300)) || statusCode == 304) &&
  (truthy req.ifNoneMatch || truthy req.ifModifiedSince) &&
  env.fresh req.ifNoneMatch req.ifModifiedSince etag lastModified

/-- The `ETag` header of a response with body `data` when Express tests its
freshness: the one set before, or else the one of Express's `etag fn`. -/
def sentETag (env : CacheEnv) (headers : Option Headers) (data : String) : Option String :=
  match headers.bind (fun h => h.etag) with
  | some e => some e
  | none => if env.etag data != "" then some (env.etag data) else none

/-- What Express's own `res.json` sends for the response `r` handed to it
(`originalJson` inside the replaced one): when no `ETag` header is set it sets
the one of its `etag fn`, and when the request is fresh it answers 304 without
the body.  A response without a body, ended in another way, goes out as it
is. -/
def originalJson (env : CacheEnv) (req : Request) (r : Served) : Served :=
  match r.body with
  | none => r
  | some data =>
    if req.fresh env r.status (sentETag env r.headers data)
        (r.headers.bind (fun h => h.lastModified)) then
      { r with status := 304, body := none }
    else r

/-- How a handler answers: through `res.json` with a status, or otherwise. -/
inductive HandlerResult where
  | json (statusCode : Nat) (data : String)
  | other (statusCode : Nat)
deriving DecidableEq, Repr

/-- The handler's answer when `res.json` has (`key` given) or has not been
replaced, as it is handed on to the original `res.json`, or as it is sent
otherwise. -/
def respondVia (env : CacheEnv) (cm : CacheManager) (now : Int) (key : Option String)
    (r : HandlerResult) : Served × CacheManager :=
  match r, key with
  | .json statusCode data, some k => cachedJson env cm now k statusCode data
  | .json statusCode data, none => (⟨statusCode, none, some data⟩, cm)
  | .other statusCode, _ => (⟨statusCode, none, none⟩, cm)

/-- One request through the cache middleware followed by `handler`: the
response, whether `next()` was called (the wrapped handler ran), and the cache
afterwards.  The middleware runs at clock reading `now`, the handler answers at
`answeredAt`.  A 304 of the middleware is sent with `res.status(304).end()`;
every other answer goes through Express's `res.json`. -/
def serve (env : CacheEnv) (cm : CacheManager) (now answeredAt : Int) (req : Request)
    (handler : Request → HandlerResult) : Served × Bool × CacheManager :=
  match middleware env cm now req with
  | .notModified h => (⟨304, some h, none⟩, false, cm)
  | .hit h data => (originalJson env req ⟨200, some h, some data⟩, false, cm)
  | .pass =>
    let r := respondVia env cm answeredAt none (handler req)
    (originalJson env req r.1, true, r.2)
  | .miss key =>
    let r := respondVia env cm answeredAt (some key) (handler req)
    (originalJson env req r.1, true, r.2)

/-! ## `middleware/auth.js` and the mounting in `app.js` -/

/-- The two token verifiers: `auth.verifyIdToken` gives the decoded uid or
throws an error with a `code`; `jwt.verify` gives the decoded uid or throws. -/
structure Verifiers where
  verifyIdToken : String → Except String String
  jwtVerify : String → Option String

/-- The outcome of `authenticateToken`: `next()` with `req.user.uid` set, or a
failure response. -/
inductive AuthResult where
  | next (uid : String)
  | rejected (status : Nat) (error : String)
deriving DecidableEq, Repr

/-- A thrown JavaScript `Error`: its message and its `code` property. -/
structure JsError where
  message : String
  code : Option String
deriving DecidableEq, Repr

/-- The nested `try` blocks of `authenticateToken` (lines 15-37): the uid put on
`req.user`, or the error that reaches the outer `catch`.  An error of
`verifyIdToken` is bound to `firebaseError` by the inner `catch` and not used
again; when `jwt.verify` fails as well, the error thrown on is a fresh
`Error("Invalid token")`, which has no `code`. -/
def verifyToken (v : Verifiers) (t : String) : Except JsError String :=
  match v.verifyIdToken t with
  | .ok uid => .ok uid
  | .error _ =>
    match v.jwtVerify t with
    | some uid => .ok uid
    | none => .error ⟨"Invalid token", none⟩

/-- The middleware `authenticateToken`; `token` is
`authHeader && authHeader.split(" ")[1]`.  The outer `catch` answers 401
"Token expired" for an error with code `auth/id-token-expired` and 403
"Invalid token" for any other. -/
def authenticateToken (v : Verifiers) (token : Option String) : AuthResult :=
  match token with
  | none => .rejected 401 "Access token required"
  | some t =>
    if !truthy token then .rejected 401 "Access token required"
    else
      match verifyToken v t with
      | .ok uid => .next uid
      | .error e =>
        if e.code == some "auth/id-token-expired" then .rejected 401 "Token expired"
        else .rejected 403 "Invalid token"

/-- An HTTP request as it reaches the application: method, `originalUrl`, the
bearer token and the two conditional headers. -/
structure HttpRequest where
  method : String
  originalUrl : String
  token : Option String
  ifNoneMatch : Option String
  ifModifiedSince : Option String
deriving DecidableEq, Repr

/-- A cached route as mounted in `app.js`: `app.use(path, cacheManager.middleware())`
is registered before `app.use("/api/boards", boardRoutes)`, and the routes of
the router run `authenticateToken` and then the controller.  `req.user` is set
by `authenticateToken` only, so the cache middleware reads no `req.user`.
`handler uid` is the controller's answer for the authenticated user. -/
def mountedRoute (env : CacheEnv) (v : Verifiers) (handler : String → HandlerResult)
    (cm : CacheManager) (now answeredAt : Int) (http : HttpRequest) :
    Served × Bool × CacheManager :=
  let req : Request :=
    { method := http.method, originalUrl := http.originalUrl, user := none,
      ifNoneMatch := http.ifNoneMatch, ifModifiedSince := http.ifModifiedSince }
  serve env cm now answeredAt req (fun _ =>
    match authenticateToken v http.token with
    | .rejected status error => .json status error
    | .next uid => handler uid)

/-! ## Sequential runs of the invitation operations -/

/-- One request to one of the three invitation handlers. -/
inductive Op where
  | invite (boardId : String) (body : InviteBody) (userId : String)
  | respond (body : RespondBody) (userId : String)
  | cancel (boardId : String) (invitationId : Nat) (userId : String)
deriving DecidableEq, Repr

/-- The state a request leaves behind. -/
def Op.run (s : Store) : Op → Store
  | .invite boardId body userId => (inviteMember s boardId body userId).2
  | .respond body userId => (respondToInvitation s body userId).2
  | .cancel boardId invitationId userId => (cancelInvitation s boardId invitationId userId).2

/-- The side condition on a request in a state: a responding user has a
non-empty id and at most 50 notifications (the window `findByUserId` reads). -/
def Op.admissible (s : Store) : Op → Bool
  | .respond _ userId =>
    userId != "" &&
      decide ((s.notifications.filter (fun e => e.2.recipientId == some userId)).length ≤ 50)
  | _ => true

/-- The state after a sequence of requests, executed one after the other. -/
def runOps (s : Store) : List Op → Store
  | [] => s
  | op :: ops => runOps (op.run s) ops

/-- Every request of the sequence meets its side condition in the state it is
executed in. -/
def admissibleRun (s : Store) : List Op → Bool
  | [] => true
  | op :: ops => op.admissible s && admissibleRun (op.run s) ops

/-- The type test of the notification step of `respondToInvitation`. -/
def isInvitationNotification (n : Notification) : Bool :=
  n.type == "board_invitation" || n.type == "board_invitation_accepted"

/-- Bookkeeping facts about a state that sequential runs maintain: keys are
below the push counter, a notification key determines its notification, an
invitation notification refers to an invitation key below the counter and is
addressed to that invitation's invitee, there is one invitation notification
per invitation, and the board of every invitation exists. -/
structure WellFormed (s : Store) : Prop where
  invitationKeys : ∀ e ∈ s.invitations, e.1 < s.nextKey
  notificationKeys : ∀ e ∈ s.notifications, e.1 < s.nextKey
  keysFunctional : ∀ e ∈ s.notifications, ∀ f ∈ s.notifications, e.1 = f.1 → e = f
  references : ∀ e ∈ s.notifications, isInvitationNotification e.2 = true →
    ∀ k, e.2.data.invitationId = some k →
      k < s.nextKey ∧ ∀ inv, s.invitations.lookup k = some inv → e.2.recipientId = inv.memberId
  oneNotification : ∀ e ∈ s.notifications, ∀ f ∈ s.notifications,
    isInvitationNotification e.2 = true → isInvitationNotification f.2 = true →
    ∀ k, e.2.data.invitationId = some k → f.2.data.invitationId = some k → e = f
  boardsExist : ∀ e ∈ s.invitations, (s.boards.lookup e.2.boardId).isSome = true

/-- The status mirror: a `board_invitation` notification that names an existing
invitation carries that invitation's status, unless the invitation is
`cancelled`. -/
def Mirror (s : Store) : Prop :=
  ∀ e ∈ s.notifications, e.2.type = "board_invitation" →
    ∀ k inv, e.2.data.invitationId = some k → s.invitations.lookup k = some inv →
      inv.status = "cancelled" ∨ e.2.data.status = some inv.status

/-! ## `socket/socketServer.js`: handshake, connections and rooms -/

/-- The decoded payload of a token, restricted to the fields the handshake
reads. -/
structure Decoded where
  uid : Option String
  id : Option String
  email : Option String
deriving DecidableEq, Repr

/-- The fields of a user record the handshake reads: `email`, `displayName`
and `githubProfile?.login`. -/
structure Profile where
  email : Option String
  displayName : Option String
  githubLogin : Option String
deriving DecidableEq, Repr

/-- What the handshake middleware calls: `admin.auth().verifyIdToken` and
`jwt.verify` (the decoded payload, `none` when the call throws) and
`User.findById` (which may throw). -/
structure HandshakeEnv where
  verifyIdToken : String → Option Decoded
  jwtVerify : String → Option Decoded
  findById : String → Except String (Option Profile)

/-- The outcome of the handshake middleware: `next()` with `socket.userId` and
`socket.userEmail` set, or `next(new Error(message))`. -/
inductive Handshake where
  | accepted (userId : Option String) (userEmail : Option String)
  | refused (message : String)
deriving DecidableEq, Repr

/-- The middleware registered with `io.use`; `token` is
`socket.handshake.auth.token`. -/
def handshake (env : HandshakeEnv) (token : Option String) : Handshake :=
  match token with
  | none => .refused "Authentication error: No token provided"
  | some t =>
    if !truthy token then .refused "Authentication error: No token provided"
    else
      match env.verifyIdToken t with
      | some decodedToken => .accepted decodedToken.uid decodedToken.email
      | none =>
        match env.jwtVerify t with
        | some decoded =>
          let userId := jsOr decoded.uid decoded.id
          let userEmail :=
            if !truthy decoded.email && truthy userId then
              match env.findById (userId.getD "") with
              | .ok (some user) =>
                jsOr (jsOr (jsOr user.email user.displayName) user.githubLogin) (some "Unknown")
              | .ok none => decoded.email
              | .error _ => decoded.email
            else decoded.email
          .accepted userId userEmail
        | none => .refused "Authentication error: Invalid token"

/-- A connected socket: its id, the `userId` and `userEmail` the handshake put
on it, and the rooms it is in. -/
structure Socket where
  id : String
  userId : Option String
  userEmail : Option String
  rooms : List String
deriving DecidableEq, Repr

/-- The method `socket.join(room)`; the rooms of a socket form a set. -/
def Socket.join (c : Socket) (room : String) : Socket :=
  if c.rooms.contains room then c else { c with rooms := c.rooms ++ [room] }

/-- The method `socket.leave(room)`. -/
def Socket.leave (c : Socket) (room : String) : Socket :=
  { c with rooms := c.rooms.filter (fun r => r != room) }

/-- The events a client can send for which the connection handler registers a
listener.  A board id is the text `boardId` prints as inside the room name;
the other fields of the payloads are not modelled. -/
inductive ClientEvent where
  | join_board (boardId : String)
  | leave_board (boardId : String)
  | task_updated (boardId : String)
  | mark_notification_read
  | github_attachment_added (boardId : String)
  | github_attachment_removed (boardId : String)
  | error
  | disconnect
deriving DecidableEq, Repr

/-- One `socket.to(room).emit(event, ...)`: sent to the sockets in `room`
except the sender. -/
structure Broadcast where
  sender : String
  room : String
  event : String
deriving DecidableEq, Repr

/-- The body of `io.on("connection", ...)` for a socket that passed the
handshake: the only `socket.join` outside a listener is the one into
`user_<socket.userId>`.  A new socket is in the room of its own id, which the
socket library sets up. -/
def onConnection (id : String) (userId userEmail : Option String) : Socket :=
  Socket.join ⟨id, userId, userEmail, [id]⟩ (userRoom (render userId))

/-- The listeners registered in the connection handler: the socket afterwards
and what it broadcasts.  On `disconnect` the listener only logs; the socket
library has removed the socket from its rooms. -/
def Socket.on (c : Socket) : ClientEvent → Socket × List Broadcast
  | .join_board boardId =>
    (c.join ("board_" ++ boardId), [⟨c.id, "board_" ++ boardId, "user_joined"⟩])
  | .leave_board boardId =>
    (c.leave ("board_" ++ boardId), [⟨c.id, "board_" ++ boardId, "user_left"⟩])
  | .task_updated boardId => (c, [⟨c.id, "board_" ++ boardId, "task_updated"⟩])
  | .mark_notification_read =>
    (c, [⟨c.id, userRoom (render c.userId), "notification_marked_read"⟩])
  | .github_attachment_added boardId =>
    (c, [⟨c.id, "board_" ++ boardId, "github_attachment_added"⟩])
  | .github_attachment_removed boardId =>
    (c, [⟨c.id, "board_" ++ boardId, "github_attachment_removed"⟩])
  | .error => (c, [])
  | .disconnect => ({ c with rooms := [] }, [])

/-- The socket after a sequence of client events. -/
def Socket.run (c : Socket) (events : List ClientEvent) : Socket :=
  events.foldl (fun c ev => (c.on ev).1) c

/-- The sockets of `room`: `io.sockets.adapter.rooms.get(room)`. -/
def roomSockets (sockets : List Socket) (room : String) : List Socket :=
  sockets.filter (fun c => c.rooms.contains room)

/-- The sockets an `io.to(room).emit(...)` is delivered to. -/
def Emission.recipients (sockets : List Socket) (e : Emission) : List Socket :=
  roomSockets sockets e.room

/-- The sockets a `socket.to(room).emit(...)` is delivered to. -/
def Broadcast.recipients (sockets : List Socket) (b : Broadcast) : List Socket :=
  (roomSockets sockets b.room).filter (fun c => c.id != b.sender)

/-- The emissions a step from `s` to `s1` has added to the log. -/
def newEmissions (s s1 : Store) : List Emission :=
  s1.emitted.drop s.emitted.length

/-! ## Example states -/

/-- Board `b1` (Sprint) owned by `o1` with member `m1`; `u1` and `u2` are users
outside the board.  Invitation 0 is pending for `u1`, invitation 1 was declined
by `u2`, invitation 2 (for `u2`) was cancelled by the owner. -/
def sprintStore : Store :=
  { users := [("o1", ⟨some "olga@x.io", some "Olga"⟩), ("m1", ⟨some "max@x.io", some "Max"⟩),
              ("u1", ⟨some "uma@x.io", some ""⟩), ("u2", ⟨some "udo@x.io", some "Udo"⟩)],
    boards := [("b1", ⟨"Sprint", "o1", ["o1", "m1"]⟩)],
    invitations := [(0, ⟨"b1", "o1", some "u1", some "uma@x.io", "pending"⟩),
                    (1, ⟨"b1", "o1", some "u2", none, "declined"⟩),
                    (2, ⟨"b1", "o1", some "u2", none, "cancelled"⟩)],
    notifications := [], nextKey := 3, ioReady := true, emitted := [], outbox := [] }

/-- Board `b1` before any invitation; nobody has the address `ann@x.io`. -/
def freshStore : Store :=
  { users := [("o1", ⟨some "olga@x.io", some "Olga"⟩)],
    boards := [("b1", ⟨"Sprint", "o1", ["o1"]⟩)],
    invitations := [], notifications := [], nextKey := 0, ioReady := true,
    emitted := [], outbox := [] }

/-- The owner has invited `ann@x.io` by email with `member_id: null`
(invitation 0), and Ann has then signed up as user `a1` with that address. -/
def afterSignup : Store :=
  User.create (inviteMember freshStore "b1" ⟨.null, .undefined, .str "ann@x.io"⟩ "o1").2
    "a1" ⟨some "ann@x.io", some "ann"⟩

/-- A notification input for recipient `u1` that says `read: true` and carries
a `userId`. -/
def sampleInput : NotificationInput :=
  { type := "task_assigned", title := "Task Assigned", message := "Olga assigned you to a task",
    data := none, recipientId := some "u1", senderId := some "o1", boardId := some "b1",
    cardId := none, taskId := none, read := some true, userId := some "u1" }

/-- The state `sprintStore` after the owner invited `u2` by id (with
`email: null`): invitation 3 is pending for `u2` and notification 4 tells `u2`
so. -/
def notifiedStore : Store :=
  (inviteMember sprintStore "b1" ⟨.str "u2", .undefined, .null⟩ "o1").2

/-- The state `notifiedStore` after the owner cancelled invitation 3. -/
def cancelledStore : Store :=
  (cancelInvitation notifiedStore "b1" 3 "o1").2

/-- The state `sprintStore` with a notification (key 9) that tells `u1` about
invitation 0. -/
def sprintNotified : Store :=
  { sprintStore with
    notifications :=
      [(9, { type := "board_invitation", title := "Board Invitation",
             message := "Olga invited you to join \"Sprint\"",
             data := ⟨some 0, none, some "Sprint", some "Olga", some "pending", none⟩,
             recipientId := some "u1", senderId := some "o1", boardId := none,
             cardId := none, taskId := none, read := false })] }

/-- A sample date parser: it reads `Thu, 01 Jan 1970 00:00:00 GMT` as time 0,
the text `later` as time 5000 and nothing else. -/
def sampleParseDate (s : String) : Option Int :=
  if s = "Thu, 01 Jan 1970 00:00:00 GMT" then some 0
  else if s = "later" then some 5000 else none

/-- Sample library functions for a cached route: a digest that returns its
input, a fixed date text, the sample date parser, an entity tag `W/"<body>"`,
and the freshness test as the `fresh` package makes it for an `If-None-Match`
with one entity tag: the tag is `*` or equals the response's `ETag` up to a
`W/` in front, and `If-Modified-Since` is not older than `Last-Modified`. -/
def sampleEnv : CacheEnv :=
  { md5 := fun s => s,
    toUTCString := fun _ => "Thu, 01 Jan 1970 00:00:00 GMT",
    parseDate := sampleParseDate,
    etag := fun body => "W/\"" ++ body ++ "\"",
    fresh := fun ifNoneMatch ifModifiedSince etag lastModified =>
      (match ifNoneMatch with
        | some tag =>
          tag == "" || tag == "*" || some tag == etag ||
            some tag == etag.map (fun e => "W/" ++ e) || some ("W/" ++ tag) == etag
        | none => true) &&
      (match ifModifiedSince with
        | some since =>
          since == "" ||
            (match lastModified.bind sampleParseDate, sampleParseDate since with
              | some l, some m => decide (l ≤ m)
              | _, _ => false)
        | none => true) }

/-- Sample verifiers: `tok-u1` and `tok-u2` are valid identity tokens of users
`u1` and `u2`; nothing else verifies. -/
def sampleVerifiers : Verifiers :=
  { verifyIdToken := fun t =>
      if t = "tok-u1" then .ok "u1" else if t = "tok-u2" then .ok "u2"
      else .error "auth/argument-error",
    jwtVerify := fun _ => none }

/-- A sample controller whose 200 answer depends on the caller. -/
def sampleHandler (uid : String) : HandlerResult :=
  .json 200 ("members of b1 as shown to " ++ uid)

/-- A GET of the member list of board `b1` with the given bearer token. -/
def getMembers (token : String) : HttpRequest :=
  { method := "GET", originalUrl := "/api/boards/b1/members", token := some token,
    ifNoneMatch := none, ifModifiedSince := none }

/-- The singleton cache after `u1` fetched the member list of `b1` (the
middleware ran at 1000, the controller answered at 1005). -/
def afterFirstGet : CacheManager :=
  (mountedRoute sampleEnv sampleVerifiers sampleHandler cacheManager 1000 1005
    (getMembers "tok-u1")).2.2

/-- The `req` of a GET of `/api/boards/b1/members` without a user, with the
given conditional headers. -/
def membersReq (ifNoneMatch ifModifiedSince : Option String) : Request :=
  { method := "GET", originalUrl := "/api/boards/b1/members", user := none,
    ifNoneMatch := ifNoneMatch, ifModifiedSince := ifModifiedSince }

/-- A run from `freshStore`: the owner invites user `a1` by id, with
`email: null` (invitation 0, notification 1), and `a1` declines. -/
def declineRun : List Op :=
  [.invite "b1" ⟨.str "a1", .undefined, .null⟩ "o1", .respond ⟨some 0, none, "declined"⟩ "a1"]

/-- A run from `freshStore`: the owner invites user `a1` by id, with
`email: null` (invitation 0, notification 1), and then cancels the invitation. -/
def cancelRun : List Op :=
  [.invite "b1" ⟨.str "a1", .undefined, .null⟩ "o1", .cancel "b1" 0 "o1"]

/-- Verifiers for which the token `old` has expired and every other token is
malformed; no token is a JWT of this server. -/
def expiringVerifiers : Verifiers :=
  { verifyIdToken := fun t =>
      if t = "old" then .error "auth/id-token-expired" else .error "auth/argument-error",
    jwtVerify := fun _ => none }

/-- A cache manager with room for three entries after four stores: `/a` at 0,
`/b` at 1000, `/a` again at 50000 and `/c` at 50500.  It is full, and `/a`,
stored again after `/b`, is still its first key. -/
def smallCache : CacheManager :=
  (cachedJson sampleEnv
    (cachedJson sampleEnv
      (cachedJson sampleEnv
        (cachedJson sampleEnv (CacheManager.new (some (30 * 1000)) (some 3))
          0 "/a" 200 "A").2
        1000 "/b" 200 "B").2
      50000 "/a" 200 "A2").2
    50500 "/c" 200 "C").2

/-- A handshake environment: `fb-u1` is an identity-provider token of `u1`,
`jwt-u2` a JWT of `u2` without an email. -/
def sampleHandshake : HandshakeEnv :=
  { verifyIdToken := fun t =>
      if t = "fb-u1" then some ⟨some "u1", none, some "u1@example.com"⟩ else none,
    jwtVerify := fun t => if t = "jwt-u2" then some ⟨some "u2", none, none⟩ else none,
    findById := fun uid =>
      if uid = "u2" then .ok (some ⟨none, some "User Two", none⟩) else .ok none }

/-- A connection of `u9`, who is in no board of `sprintStore`. -/
def outsider : Socket := onConnection "s-9" (some "u9") (some "u9@example.com")

/-- A request for the member list of `b1` without an `authorization` header. -/
def anonymousGet (ifNoneMatch : Option String) : HttpRequest :=
  { method := "GET", originalUrl := "/api/boards/b1/members", token := none,
    ifNoneMatch := ifNoneMatch, ifModifiedSince := none }

/-! ## Store lemmas -/

theorem lookup_map_update {κ β : Type} [BEq κ] [LawfulBEq κ] [DecidableEq κ]
    (l : List (κ × β)) (k k' : κ) (f : β → β) :
    (l.map (fun e => if e.1 = k then (e.1, f e.2) else e)).lookup k' =
      if k' = k then (l.lookup k').map f else l.lookup k' := by
  induction l with
  | nil => simp
  | cons hd tl ih =>
    obtain ⟨a, b⟩ := hd
    by_cases h : a = k <;> by_cases h' : k' = a
    · subst h; subst h'; simp [List.lookup_cons]
    · subst h; simp [List.lookup_cons, h', ih]
      have : (k' == a) = false := by simpa using h'
      simp [this]
    · subst h'; simp [List.lookup_cons, h]
    · have : (k' == a) = false := by simpa using h'
      simp [List.lookup_cons, h, this, ih]

theorem Board.findById_setMembers (s : Store) (boardId b : String) (members : List String) :
    Board.findById (Board.setMembers s boardId members) b =
      if b = boardId then (Board.findById s b).map (fun x => { x with members := members })
      else Board.findById s b := by
  unfold Board.findById Board.setMembers
  exact lookup_map_update s.boards boardId b (fun x => { x with members := members })

theorem Invitation.findById_setStatus (s : Store) (k k' : Nat) (status : String) :
    Invitation.findById (Invitation.setStatus s k status) (some k') =
      if k' = k then (Invitation.findById s (some k')).map (fun x => { x with status := status })
      else Invitation.findById s (some k') := by
  unfold Invitation.findById Invitation.setStatus
  exact lookup_map_update s.invitations k k' (fun x => { x with status := status })


@[simp] theorem emitToBoardRoom_boards (s : Store) (b e : String) (d : Payload) :
    (emitToBoardRoom s b e d).boards = s.boards := by
  unfold emitToBoardRoom; split <;> rfl

@[simp] theorem emitToUser_boards (s : Store) (u e : String) (d : Payload) :
    (emitToUser s u e d).boards = s.boards := by
  unfold emitToUser; split <;> rfl

theorem boardFindById_congr {s t : Store} (h : s.boards = t.boards) (b : String) :
    Board.findById s b = Board.findById t b := by
  unfold Board.findById; rw [h]

theorem removeMember_findById (s : Store) (id memberId userId bid : String) :
    Board.findById (removeMember s id memberId userId).2 bid = Board.findById s bid ∨
    ∃ board, Board.findById s id = some board ∧ memberId ≠ board.ownerId ∧
      Board.findById (removeMember s id memberId userId).2 bid =
        Board.findById (Board.setMembers s id (board.members.filter (fun x => x != memberId))) bid := by
  unfold removeMember
  cases hb : Board.findById s id with
  | none => simp
  | some board =>
    simp only
    split
    · simp
    · split
      · simp
      · rename_i h1 h2
        right
        refine ⟨board, rfl, ?_, ?_⟩
        · simpa using h2
        · simp only [Board.removeMember, hb]
          apply boardFindById_congr
          simp


theorem isEmpty_of_mem {α : Type} (l : List α) (x : α) (h : x ∈ l) : l.isEmpty = false := by
  cases l with
  | nil => cases h
  | cons a tl => rfl

theorem leaveBoard_findById (s : Store) (id userId bid : String) :
    Board.findById (leaveBoard s id userId).2 bid = Board.findById s bid ∨
    ∃ board, Board.findById s id = some board ∧ userId ≠ board.ownerId ∧
      Board.findById (leaveBoard s id userId).2 bid =
        Board.findById (Board.setMembers s id (board.members.filter (fun x => x != userId))) bid := by
  unfold leaveBoard
  cases hb : Board.findById s id with
  | none => simp
  | some board =>
    simp only
    split
    · simp
    · split
      · simp
      · split
        · simp
        · rename_i h0 h1 h2
          right
          refine ⟨board, rfl, ?_, ?_⟩
          · intro h; apply h2; simp [h]
          · simp only [Board.removeMember, hb]
            apply boardFindById_congr
            simp

theorem owner_kept_after_filter (s : Store) (id bid m : String) (board b0 : Board)
    (hB : Board.findById s bid = some board) (hO : board.ownerId ∈ board.members)
    (h0 : Board.findById s id = some b0) (hm : m ≠ b0.ownerId) :
    ∃ b', Board.findById (Board.setMembers s id (b0.members.filter (fun x => x != m))) bid = some b' ∧
      b'.ownerId = board.ownerId ∧ board.ownerId ∈ b'.members := by
  rw [Board.findById_setMembers]
  by_cases h : bid = id
  · subst h
    rw [hB] at h0
    cases h0
    refine ⟨{ board with members := board.members.filter (fun x => x != m) }, by simp [hB], rfl, ?_⟩
    simp only [List.mem_filter]
    exact ⟨hO, by simpa using fun h => hm h.symm⟩
  · exact ⟨board, by simp [h, hB], rfl, hO⟩

/-- C8: for a board whose owner is in its member list, every `removeMember` and
`leaveBoard` request (any board id, target and acting user) leaves the owner in
the member list; a request that targets the owner is rejected by a precondition
check (400, or 403 for a non-owner caller of `removeMember`) and leaves the whole
store unchanged. -/
theorem owner_never_removed (s : Store) (bid : String) (board : Board)
    (hB : Board.findById s bid = some board) (hO : board.ownerId ∈ board.members)
    (id memberId userId : String) :
    (∃ b', Board.findById (removeMember s id memberId userId).2 bid = some b' ∧
        b'.ownerId = board.ownerId ∧ board.ownerId ∈ b'.members) ∧
    (∃ b', Board.findById (leaveBoard s id userId).2 bid = some b' ∧
        b'.ownerId = board.ownerId ∧ board.ownerId ∈ b'.members) ∧
    (memberId = board.ownerId →
        (removeMember s bid memberId userId).2 = s ∧
        ((removeMember s bid memberId userId).1 = Response.fail 400 "Cannot remove owner" none ∨
         (removeMember s bid memberId userId).1 = Response.fail 403 "Access denied" none)) ∧
    (userId = board.ownerId →
        leaveBoard s bid userId = (Response.fail 400 "Cannot leave" none, s)) := by
  refine ⟨?_, ?_, ?_, ?_⟩
  · rcases removeMember_findById s id memberId userId bid with h | ⟨b0, h0, hm, h⟩
    · exact ⟨board, by rw [h, hB], rfl, hO⟩
    · rw [h]; exact owner_kept_after_filter s id bid memberId board b0 hB hO h0 hm
  · rcases leaveBoard_findById s id userId bid with h | ⟨b0, h0, hm, h⟩
    · exact ⟨board, by rw [h, hB], rfl, hO⟩
    · rw [h]; exact owner_kept_after_filter s id bid userId board b0 hB hO h0 hm
  · intro hm
    subst hm
    unfold removeMember
    simp only [hB]
    by_cases h : board.ownerId = userId
    · simp [h]
    · simp [h]
  · intro hu
    subst hu
    unfold leaveBoard
    simp [hB, hO, isEmpty_of_mem _ _ hO]


theorem invitationFindById_congr {s t : Store} (h : s.invitations = t.invitations)
    (k : Option Nat) : Invitation.findById s k = Invitation.findById t k := by
  unfold Invitation.findById; rw [h]

@[simp] theorem emitToBoardRoom_invitations (s : Store) (b e : String) (d : Payload) :
    (emitToBoardRoom s b e d).invitations = s.invitations := by
  unfold emitToBoardRoom; split <;> rfl

@[simp] theorem emitToUser_invitations (s : Store) (u e : String) (d : Payload) :
    (emitToUser s u e d).invitations = s.invitations := by
  unfold emitToUser; split <;> rfl

@[simp] theorem Notification.update_boards (s : Store) (k : Nat) (t m : String)
    (d : NotificationData) (r : Bool) : (Notification.update s k t m d r).boards = s.boards := rfl

@[simp] theorem Notification.update_invitations (s : Store) (k : Nat) (t m : String)
    (d : NotificationData) (r : Bool) :
    (Notification.update s k t m d r).invitations = s.invitations := rfl

@[simp] theorem reconcileNotification_boards (s : Store) (k : Option Nat) (status userId : String) :
    (reconcileNotification s k status userId).boards = s.boards := by
  unfold reconcileNotification
  simp only
  split
  · rfl
  · split_ifs <;> simp

@[simp] theorem reconcileNotification_invitations (s : Store) (k : Option Nat)
    (status userId : String) :
    (reconcileNotification s k status userId).invitations = s.invitations := by
  unfold reconcileNotification
  simp only
  split
  · rfl
  · split_ifs <;> simp

@[simp] theorem Invitation.setStatus_boards (s : Store) (k : Nat) (st : String) :
    (Invitation.setStatus s k st).boards = s.boards := rfl

@[simp] theorem Board.setMembers_invitations (s : Store) (b : String) (ms : List String) :
    (Board.setMembers s b ms).invitations = s.invitations := rfl

theorem updateStatus_accepted (s : Store) (k : Nat) (U : String) (inv : Invitation) (board : Board)
    (hI : Invitation.findById s (some k) = some inv) (hU : inv.memberId = some U)
    (hB : Board.findById s inv.boardId = some board) :
    Invitation.updateStatus s (some k) "accepted" (some U) =
      (.ok (some { inv with status := "accepted" }),
       if board.members.contains U then Invitation.setStatus s k "accepted"
       else Board.setMembers (Invitation.setStatus s k "accepted") inv.boardId
         (board.members ++ [U])) := by
  have hB1 : Board.findById (Invitation.setStatus s k "accepted") inv.boardId = some board := by
    rw [← hB]; exact boardFindById_congr (by simp) _
  unfold Invitation.updateStatus
  simp only [hI, hU, bne_self_eq_false, Bool.and_false, Bool.false_eq_true, ↓reduceIte,
    beq_self_eq_true, Board.addMember, hB1]
  split_ifs <;> rfl

/-- C2: when invitation `k` is pending with invitee `U` and its board exists,
`respondToInvitation` with status `accepted` by `U` answers success and leaves a
store in which `U` is a member of the board, every previous member still is, and
the invitation has status `accepted`. -/
theorem respond_accepted_joins (s : Store) (k : Nat) (U : String) (inv : Invitation)
    (board : Board) (body : RespondBody)
    (hI : Invitation.findById s (some k) = some inv) (_hp : inv.status = "pending")
    (hU : inv.memberId = some U) (hB : Board.findById s inv.boardId = some board)
    (hid : (body.invite_id <|> body.invitationId) = some k) (hst : body.status = "accepted") :
    (respondToInvitation s body U).1 = Response.ok "Invitation accepted successfully" ∧
    (∃ b', Board.findById (respondToInvitation s body U).2 inv.boardId = some b' ∧
        U ∈ b'.members ∧ ∀ m ∈ board.members, m ∈ b'.members) ∧
    Invitation.findById (respondToInvitation s body U).2 (some k) =
      some { inv with status := "accepted" } := by
  have hus := updateStatus_accepted s k U inv board hI hU hB
  have hr : respondToInvitation s body U =
      (Response.ok "Invitation accepted successfully",
       reconcileNotification
         (emitToBoardRoom
           (if board.members.contains U then Invitation.setStatus s k "accepted"
            else Board.setMembers (Invitation.setStatus s k "accepted") inv.boardId
              (board.members ++ [U]))
           inv.boardId "member_joined" (Payload.memberJoined inv.boardId U))
         (some k) "accepted" U) := by
    unfold respondToInvitation
    simp [hid, hst, hus]
  rw [hr]
  refine ⟨rfl, ?_, ?_⟩
  · rw [boardFindById_congr (t := if board.members.contains U then Invitation.setStatus s k "accepted"
       else Board.setMembers (Invitation.setStatus s k "accepted") inv.boardId
         (board.members ++ [U])) (by simp)]
    by_cases hc : board.members.contains U = true
    · rw [if_pos hc, boardFindById_congr (s := Invitation.setStatus s k "accepted") (t := s) rfl, hB]
      exact ⟨board, rfl, by simpa using hc, fun m hm => hm⟩
    · rw [if_neg hc, Board.findById_setMembers, if_pos rfl,
        boardFindById_congr (s := Invitation.setStatus s k "accepted") (t := s) rfl, hB]
      exact ⟨{ board with members := board.members ++ [U] }, rfl, by simp,
        fun m hm => by simp [hm]⟩
  · rw [invitationFindById_congr (t := Invitation.setStatus s k "accepted")]
    · rw [Invitation.findById_setStatus, hI]; simp
    · simp only [reconcileNotification_invitations, emitToBoardRoom_invitations]
      split_ifs <;> rfl


theorem updateStatus_cancelled (s : Store) (k : Nat) (inv : Invitation)
    (hI : Invitation.findById s (some k) = some inv) :
    Invitation.updateStatus s (some k) "cancelled" none =
      (.ok (some { inv with status := "cancelled" }), Invitation.setStatus s k "cancelled") := by
  unfold Invitation.updateStatus
  simp only [hI, truthy, Bool.false_and, Bool.false_eq_true, ↓reduceIte]
  rfl

/-- C7 (amended): `cancelInvitation` sets the invitation's status to `cancelled`
(and answers 200) when the board exists, the acting user is its owner, and the
invitation exists, belongs to that board and is `pending`; in every other case
the store is left unchanged and the answer is 404 when the board is missing,
403 when the acting user is not the owner, 404 when the invitation is missing
or belongs to another board, and 400 when the invitation is not pending. -/
theorem cancelInvitation_cases (s : Store) (boardId : String) (invitationId : Nat)
    (userId : String) :
    (∀ board inv, Board.findById s boardId = some board → board.ownerId = userId →
        Invitation.findById s (some invitationId) = some inv → inv.boardId = boardId →
        inv.status = "pending" →
        cancelInvitation s boardId invitationId userId =
          (Response.ok "Invitation cancelled successfully",
           Invitation.setStatus s invitationId "cancelled") ∧
        Invitation.findById (cancelInvitation s boardId invitationId userId).2
          (some invitationId) = some { inv with status := "cancelled" }) ∧
    (Board.findById s boardId = none →
        cancelInvitation s boardId invitationId userId =
          (Response.fail 404 "Board not found" none, s)) ∧
    (∀ board, Board.findById s boardId = some board → board.ownerId ≠ userId →
        cancelInvitation s boardId invitationId userId =
          (Response.fail 403 "Access denied" none, s)) ∧
    (∀ board, Board.findById s boardId = some board → board.ownerId = userId →
        (∀ inv, Invitation.findById s (some invitationId) = some inv → inv.boardId ≠ boardId) →
        cancelInvitation s boardId invitationId userId =
          (Response.fail 404 "Invitation not found" none, s)) ∧
    (∀ board inv, Board.findById s boardId = some board → board.ownerId = userId →
        Invitation.findById s (some invitationId) = some inv → inv.boardId = boardId →
        inv.status ≠ "pending" →
        cancelInvitation s boardId invitationId userId =
          (Response.fail 400 "Invalid operation" none, s)) := by
  refine ⟨?_, ?_, ?_, ?_, ?_⟩
  · intro board inv hB hO hI hb hp
    have h : cancelInvitation s boardId invitationId userId =
        (Response.ok "Invitation cancelled successfully",
         Invitation.setStatus s invitationId "cancelled") := by
      unfold cancelInvitation
      simp [hB, hO, hI, hb, hp, updateStatus_cancelled s invitationId inv hI]
    refine ⟨h, ?_⟩
    rw [h, Invitation.findById_setStatus, if_pos rfl, hI]
    rfl
  · intro hB
    unfold cancelInvitation
    simp [hB]
  · intro board hB hO
    unfold cancelInvitation
    simp [hB, hO]
  · intro board hB hO hI
    unfold cancelInvitation
    simp only [hB, hO]
    cases h : Invitation.findById s (some invitationId) with
    | none => simp
    | some inv => simp [hI inv h]
  · intro board inv hB hO hI hb hp
    unfold cancelInvitation
    simp [hB, hO, hI, hb, hp]


@[simp] theorem sendInvitationMail_invitations (s : Store) (e : Option String) (b u : String) :
    (sendInvitationMail s e b u).invitations = s.invitations := by
  unfold sendInvitationMail
  split
  · split <;> rfl
  · rfl

@[simp] theorem createNotification_invitations (s : Store) (d : NotificationInput) :
    (createNotification s d).2.invitations = s.invitations := by
  unfold createNotification Notification.create emitNewNotification
  simp only
  split_ifs <;> rfl

@[simp] theorem inviteNotification_invitations (s : Store) (m u b : String) (k : Nat) :
    (inviteNotification s m u b k).invitations = s.invitations := by
  unfold inviteNotification
  simp only
  split
  · unfold createBoardInvitationNotification; simp
  · rfl

theorem existingInvitation_iff (s : Store) (boardId : String) (memberId memberEmail : Option String) :
    existingInvitation s boardId memberId memberEmail = true ↔
      ∃ e ∈ s.invitations, e.2.boardId = boardId ∧ e.2.status = "pending" ∧
        ((truthy memberId = true ∧ e.2.memberId = memberId) ∨
         (truthy memberId = false ∧ truthy memberEmail = true ∧ e.2.memberEmail = memberEmail)) := by
  unfold existingInvitation Invitation.existsForBoardAndMember Invitation.findByBoard
  by_cases h1 : truthy memberId = true
  · simp only [h1, ↓reduceIte, List.any_eq_true, Bool.and_eq_true, beq_iff_eq]
    constructor
    · rintro ⟨e, he, ⟨hb, hm⟩, hp⟩
      exact ⟨e, he, hb, hp, Or.inl ⟨trivial, hm⟩⟩
    · rintro ⟨e, he, hb, hp, h⟩
      rcases h with ⟨_, hm⟩ | ⟨hf, _⟩
      · exact ⟨e, he, ⟨hb, hm⟩, hp⟩
      · simp at hf
  · have h1' : truthy memberId = false := by simpa using h1
    by_cases h2 : truthy memberEmail = true
    · simp only [h1', Bool.false_eq_true, ↓reduceIte, h2, List.any_eq_true, List.mem_filter,
        Bool.and_eq_true, beq_iff_eq]
      constructor
      · rintro ⟨e, ⟨he, hb⟩, hm, hp⟩
        exact ⟨e, he, hb, hp, Or.inr ⟨trivial, trivial, hm⟩⟩
      · rintro ⟨e, he, hb, hp, h⟩
        rcases h with ⟨hf, _⟩ | ⟨_, _, hm⟩
        · simp at hf
        · exact ⟨e, ⟨he, hb⟩, hm, hp⟩
    · have h2' : truthy memberEmail = false := by simpa using h2
      simp [h1', h2']


theorem inviteMember_already_member (s : Store) (boardId : String) (body : InviteBody)
    (userId : String) (board : Board)
    (hreq : body.member_id.truthy = true ∨ body.memberEmail.truthy = true)
    (hB : Board.findById s boardId = some board) (hmem : userId ∈ board.members)
    (ha : alreadyMember board
      (resolveMemberId s body.member_id body.memberEmail).toOption = true) :
    inviteMember s boardId body userId = (Response.fail 400 "Member already exists" none, s) := by
  have hreq' : (!body.member_id.truthy && !body.memberEmail.truthy) = false := by
    rcases hreq with h | h <;> simp [h]
  have hne := isEmpty_of_mem _ _ hmem
  unfold inviteMember
  simp [hreq', hB, hmem, ha, hne]

theorem inviteMember_already_invited (s : Store) (boardId : String) (body : InviteBody)
    (userId : String) (board : Board)
    (hreq : body.member_id.truthy = true ∨ body.memberEmail.truthy = true)
    (hB : Board.findById s boardId = some board) (hmem : userId ∈ board.members)
    (ha : alreadyMember board
      (resolveMemberId s body.member_id body.memberEmail).toOption = false)
    (hx : existingInvitation s boardId
      (resolveMemberId s body.member_id body.memberEmail).toOption
      body.memberEmail.toOption = true) :
    inviteMember s boardId body userId =
      (Response.fail 400 "Invitation already sent" none, s) := by
  have hreq' : (!body.member_id.truthy && !body.memberEmail.truthy) = false := by
    rcases hreq with h | h <;> simp [h]
  have hne := isEmpty_of_mem _ _ hmem
  unfold inviteMember
  simp [hreq', hB, hmem, ha, hx, hne]

theorem Invitation.create_defined (s : Store) (boardId boardOwnerId : String)
    (memberId memberEmail : JsString) (hi : memberId ≠ .undefined)
    (he : memberEmail ≠ .undefined) :
    Invitation.create s boardId boardOwnerId memberId memberEmail =
      (.ok (Invitation.write s boardId boardOwnerId memberId.toOption memberEmail.toOption).1,
       (Invitation.write s boardId boardOwnerId memberId.toOption memberEmail.toOption).2) := by
  unfold Invitation.create
  have h1 : (memberId == JsString.undefined) = false := by simpa using hi
  have h2 : (memberEmail == JsString.undefined) = false := by simpa using he
  simp only [h1, h2, Bool.or_self, Bool.false_eq_true, if_false]

theorem Invitation.create_undefined (s : Store) (boardId boardOwnerId : String)
    (memberId memberEmail : JsString)
    (h : memberId = .undefined ∨ memberEmail = .undefined) :
    ∃ e, Invitation.create s boardId boardOwnerId memberId memberEmail = (.error e, s) := by
  unfold Invitation.create
  have h1 : (memberId == JsString.undefined || memberEmail == JsString.undefined) = true := by
    rcases h with h | h <;> simp [h]
  rw [if_pos h1]
  exact ⟨_, rfl⟩

theorem inviteMember_creates (s : Store) (boardId : String) (body : InviteBody)
    (userId : String) (board : Board)
    (hreq : body.member_id.truthy = true ∨ body.memberEmail.truthy = true)
    (hB : Board.findById s boardId = some board) (hmem : userId ∈ board.members)
    (ha : alreadyMember board
      (resolveMemberId s body.member_id body.memberEmail).toOption = false)
    (hx : existingInvitation s boardId
      (resolveMemberId s body.member_id body.memberEmail).toOption
      body.memberEmail.toOption = false)
    (hi : resolveMemberId s body.member_id body.memberEmail ≠ .undefined)
    (he : body.memberEmail ≠ .undefined) :
    (inviteMember s boardId body userId).1 = Response.ok "Invitation sent successfully" ∧
    (inviteMember s boardId body userId).2.invitations =
      s.invitations ++
        [(s.nextKey,
          ⟨boardId, board.ownerId,
           (resolveMemberId s body.member_id body.memberEmail).toOption,
           body.memberEmail.toOption, "pending"⟩)] := by
  have hreq' : (!body.member_id.truthy && !body.memberEmail.truthy) = false := by
    rcases hreq with h | h <;> simp [h]
  have hmem' : board.members.contains userId = true := by simpa using hmem
  have hne := isEmpty_of_mem _ _ hmem
  unfold inviteMember
  simp only [hreq', hB, hmem', ha, hx, hne, Bool.false_eq_true, ↓reduceIte, Bool.not_true,
    Invitation.create_defined s boardId board.ownerId _ _ hi he]
  refine ⟨trivial, ?_⟩
  simp only [Invitation.write]
  split
  · split_ifs <;> simp
  · simp

/-- The same request with `member_id` or the email left `undefined` where
`Invitation.create` is reached: the answer is 500 and nothing is stored. -/
theorem inviteMember_undefined (s : Store) (boardId : String) (body : InviteBody)
    (userId : String) (board : Board)
    (hreq : body.member_id.truthy = true ∨ body.memberEmail.truthy = true)
    (hB : Board.findById s boardId = some board) (hmem : userId ∈ board.members)
    (ha : alreadyMember board
      (resolveMemberId s body.member_id body.memberEmail).toOption = false)
    (hx : existingInvitation s boardId
      (resolveMemberId s body.member_id body.memberEmail).toOption
      body.memberEmail.toOption = false)
    (hu : resolveMemberId s body.member_id body.memberEmail = .undefined ∨
      body.memberEmail = .undefined) :
    inviteMember s boardId body userId = (Response.fail 500 "Failed to invite member" none, s) := by
  have hreq' : (!body.member_id.truthy && !body.memberEmail.truthy) = false := by
    rcases hreq with h | h <;> simp [h]
  have hmem' : board.members.contains userId = true := by simpa using hmem
  have hne := isEmpty_of_mem _ _ hmem
  obtain ⟨e, hc⟩ := Invitation.create_undefined s boardId board.ownerId _ _ hu
  unfold inviteMember
  simp only [hreq', hB, hmem', ha, hx, hne, Bool.false_eq_true, ↓reduceIte, Bool.not_true, hc]

/-- C5 (amended): for an existing board whose members include the inviter and a
request that names a member id or an email, `inviteMember` answers 400
`Member already exists` and leaves the store unchanged when the resolved
invitee id is in `board.members`; otherwise it answers 400
`Invitation already sent` and leaves the store unchanged when a pending
invitation of the board carries the resolved member id (or, when no id is
known, the given email); and when no pending invitation of the board carries
either the resolved id or the email, and neither the invitee id nor the email
handed to `Invitation.create` is `undefined`, it answers 200 and appends
exactly one new invitation, with status `pending`. -/
theorem inviteMember_cases (s : Store) (boardId : String) (body : InviteBody) (userId : String)
    (board : Board)
    (hreq : body.member_id.truthy = true ∨ body.memberEmail.truthy = true)
    (hB : Board.findById s boardId = some board) (hmem : userId ∈ board.members) :
    (alreadyMember board
        (resolveMemberId s body.member_id body.memberEmail).toOption = true →
      inviteMember s boardId body userId =
        (Response.fail 400 "Member already exists" none, s)) ∧
    (alreadyMember board
        (resolveMemberId s body.member_id body.memberEmail).toOption = false →
      (∃ e ∈ s.invitations, e.2.boardId = boardId ∧ e.2.status = "pending" ∧
        (((resolveMemberId s body.member_id body.memberEmail).truthy = true ∧
            e.2.memberId = (resolveMemberId s body.member_id body.memberEmail).toOption) ∨
         ((resolveMemberId s body.member_id body.memberEmail).truthy = false ∧
            body.memberEmail.truthy = true ∧
            e.2.memberEmail = body.memberEmail.toOption))) →
      inviteMember s boardId body userId =
        (Response.fail 400 "Invitation already sent" none, s)) ∧
    (alreadyMember board
        (resolveMemberId s body.member_id body.memberEmail).toOption = false →
      (∀ e ∈ s.invitations, e.2.boardId = boardId → e.2.status = "pending" →
        ((resolveMemberId s body.member_id body.memberEmail).truthy = true →
            e.2.memberId ≠ (resolveMemberId s body.member_id body.memberEmail).toOption) ∧
        (body.memberEmail.truthy = true →
            e.2.memberEmail ≠ body.memberEmail.toOption)) →
      resolveMemberId s body.member_id body.memberEmail ≠ .undefined →
      body.memberEmail ≠ .undefined →
      (inviteMember s boardId body userId).1 = Response.ok "Invitation sent successfully" ∧
      (inviteMember s boardId body userId).2.invitations =
        s.invitations ++
          [(s.nextKey,
            ⟨boardId, board.ownerId,
             (resolveMemberId s body.member_id body.memberEmail).toOption,
             body.memberEmail.toOption, "pending"⟩)]) := by
  refine ⟨?_, ?_, ?_⟩
  · exact inviteMember_already_member s boardId body userId board hreq hB hmem
  · intro ha hex
    exact inviteMember_already_invited s boardId body userId board hreq hB hmem ha
      ((existingInvitation_iff s boardId _ _).2 hex)
  · intro ha hno hi he
    apply inviteMember_creates s boardId body userId board hreq hB hmem ha _ hi he
    rw [Bool.eq_false_iff]
    intro hx
    obtain ⟨e, he, hb, hp, h⟩ := (existingInvitation_iff s boardId _ _).1 hx
    rcases h with ⟨ht, hm⟩ | ⟨_, ht, hm⟩
    · exact (hno e he hb hp).1 ht hm
    · exact (hno e he hb hp).2 ht hm

theorem createBoardInvitationNotification_notifications (s : Store) (m u b : String) (k : Nat) :
    (createBoardInvitationNotification s m u b k).2.notifications =
      s.notifications ++ [(createBoardInvitationNotification s m u b k).1] ∧
    (createBoardInvitationNotification s m u b k).1.1 = s.nextKey := by
  unfold createBoardInvitationNotification createNotification Notification.create
    emitNewNotification
  simp only
  split_ifs <;> exact ⟨rfl, rfl⟩

theorem createBoardInvitationNotification_record (s : Store) (m u b : String) (k : Nat) :
    isDuplicate (createBoardInvitationNotification s m u b k).1.2 b u k = true ∧
    (createBoardInvitationNotification s m u b k).1.2.recipientId = some m ∧
    (createBoardInvitationNotification s m u b k).1.2.read = false := by
  unfold createBoardInvitationNotification createNotification Notification.create isDuplicate
  simp only
  split_ifs <;> simp

theorem createBoardInvitationNotification_emitted (s : Store) (m u b : String) (k : Nat)
    (hio : s.ioReady = true) (hm : m ≠ "") :
    (createBoardInvitationNotification s m u b k).2.emitted =
      s.emitted ++ [⟨"user_undefined", "new_notification",
        .notification s.nextKey (createBoardInvitationNotification s m u b k).1.2⟩] := by
  unfold createBoardInvitationNotification createNotification Notification.create
    emitNewNotification
  simp [truthy, hm, hio, render]

theorem findByUserId_last (s : Store) (m : String) (x : Nat × Notification)
    (l : List (Nat × Notification)) (hs : s.notifications = l ++ [x])
    (hx : x.2.recipientId = some m) (limit : Nat) (hl : 0 < limit) :
    x ∈ Notification.findByUserId s m limit := by
  unfold Notification.findByUserId
  simp only [hs, List.filter_append, List.mem_reverse]
  have hf : List.filter (fun e => e.2.recipientId == some m) [x] = [x] := by
    simp [List.filter, hx]
  rw [hf, List.drop_append_of_le_length]
  · simp
  · simp only [List.length_append, List.length_singleton]
    omega


theorem inviteNotification_second (s : Store) (memberId userId boardName : String) (k : Nat) :
    inviteNotification (inviteNotification s memberId userId boardName k)
      memberId userId boardName k = inviteNotification s memberId userId boardName k := by
  cases hf : (Notification.findByUserId s memberId 50).find?
      (fun n => isDuplicate n.2 boardName userId k) with
  | some d =>
    have h1 : inviteNotification s memberId userId boardName k = s := by
      unfold inviteNotification; simp only [hf]
    rw [h1, h1]
  | none =>
    have h1 : inviteNotification s memberId userId boardName k =
        (createBoardInvitationNotification s memberId userId boardName k).2 := by
      unfold inviteNotification; simp only [hf]
    rw [h1]
    have hmem := findByUserId_last
      (createBoardInvitationNotification s memberId userId boardName k).2 memberId
      (createBoardInvitationNotification s memberId userId boardName k).1 s.notifications
      (createBoardInvitationNotification_notifications s memberId userId boardName k).1
      (createBoardInvitationNotification_record s memberId userId boardName k).2.1 50 (by decide)
    have hsome : ((Notification.findByUserId
        (createBoardInvitationNotification s memberId userId boardName k).2 memberId 50).find?
        (fun n => isDuplicate n.2 boardName userId k)).isSome = true := by
      rw [List.find?_isSome]
      exact ⟨_, hmem, (createBoardInvitationNotification_record s memberId userId boardName k).1⟩
    obtain ⟨d, hd⟩ := Option.isSome_iff_exists.1 hsome
    conv_lhs => unfold inviteNotification
    simp only [hd]

/-- C9: running the notification step of `inviteMember` a second time with the
same recipient, sender, board name and invitation id changes nothing; and when
the socket server is up, the recipient id is non-empty and the recipient had no
such notification before, the two runs together persist exactly one
notification and emit exactly one `new_notification`. -/
theorem inviteNotification_twice (s : Store) (memberId userId boardName : String) (k : Nat) :
    inviteNotification (inviteNotification s memberId userId boardName k)
      memberId userId boardName k = inviteNotification s memberId userId boardName k ∧
    (s.ioReady = true → memberId ≠ "" →
      (∀ e ∈ s.notifications, e.2.recipientId = some memberId →
        isDuplicate e.2 boardName userId k = false) →
      ∃ n room, isDuplicate n boardName userId k = true ∧ n.recipientId = some memberId ∧
        (inviteNotification (inviteNotification s memberId userId boardName k)
          memberId userId boardName k).notifications = s.notifications ++ [(s.nextKey, n)] ∧
        (inviteNotification (inviteNotification s memberId userId boardName k)
          memberId userId boardName k).emitted =
            s.emitted ++ [⟨room, "new_notification", .notification s.nextKey n⟩]) := by
  refine ⟨inviteNotification_second s memberId userId boardName k, ?_⟩
  intro hio hm hno
  rw [inviteNotification_second]
  have hf : (Notification.findByUserId s memberId 50).find?
      (fun n => isDuplicate n.2 boardName userId k) = none := by
    rw [List.find?_eq_none]
    intro x hx
    unfold Notification.findByUserId at hx
    have hx1 := List.mem_of_mem_drop (List.mem_reverse.1 hx)
    rw [List.mem_filter] at hx1
    simp [hno x hx1.1 (by simpa using hx1.2)]
  have h1 : inviteNotification s memberId userId boardName k =
      (createBoardInvitationNotification s memberId userId boardName k).2 := by
    unfold inviteNotification; simp only [hf]
  obtain ⟨hn, hk⟩ := createBoardInvitationNotification_notifications s memberId userId boardName k
  obtain ⟨hd, hr, _⟩ := createBoardInvitationNotification_record s memberId userId boardName k
  refine ⟨(createBoardInvitationNotification s memberId userId boardName k).1.2,
    "user_undefined", hd, hr, ?_, ?_⟩
  · rw [h1, hn, ← hk]
  · rw [h1, createBoardInvitationNotification_emitted s memberId userId boardName k hio hm]


theorem respond_unauthorized (t : Store) (A : String) (rb : RespondBody) (inv : Invitation)
    (hA : A ≠ "") (hI : Invitation.findById t (rb.invite_id <|> rb.invitationId) = some inv)
    (hm : inv.memberId ≠ some A) (hst : rb.status = "accepted" ∨ rb.status = "declined") :
    respondToInvitation t rb A =
      (Response.fail 500 "Failed to respond to invitation"
        (some "Error updating invitation status: Unauthorized to update this invitation"), t) := by
  have hus : Invitation.updateStatus t (rb.invite_id <|> rb.invitationId) rb.status (some A) =
      (.error "Error updating invitation status: Unauthorized to update this invitation", t) := by
    unfold Invitation.updateStatus
    cases hfid : (rb.invite_id <|> rb.invitationId) with
    | none => rw [hfid] at hI; simp [Invitation.findById] at hI
    | some k =>
      rw [hfid] at hI
      simp [hI, truthy, hA, hm]
  unfold respondToInvitation
  rcases hst with h | h <;> rw [h] at hus <;> simp [h, hus]

/-! ## Evaluations at concrete states -/

/-- C1: on the invitation that `u2` declined, and on the one the owner
cancelled, `respondToInvitation` with status `accepted` by `u2` answers success,
sets the status to `accepted` and adds `u2` to the board. -/
theorem respond_on_terminal_invitation_succeeds :
    (respondToInvitation sprintStore ⟨some 1, none, "accepted"⟩ "u2").1 =
      Response.ok "Invitation accepted successfully" ∧
    Invitation.findById (respondToInvitation sprintStore ⟨some 1, none, "accepted"⟩ "u2").2
      (some 1) = some ⟨"b1", "o1", some "u2", none, "accepted"⟩ ∧
    (respondToInvitation sprintStore ⟨some 2, none, "accepted"⟩ "u2").1 =
      Response.ok "Invitation accepted successfully" ∧
    Invitation.findById (respondToInvitation sprintStore ⟨some 2, none, "accepted"⟩ "u2").2
      (some 2) = some ⟨"b1", "o1", some "u2", none, "accepted"⟩ ∧
    Board.findById (respondToInvitation sprintStore ⟨some 2, none, "accepted"⟩ "u2").2 "b1" =
      some ⟨"Sprint", "o1", ["o1", "m1", "u2"]⟩ := by
  decide

/-- Witness for C2 at invitation 0 of `sprintStore`. -/
theorem respond_accepted_joins_witness :
    (respondToInvitation sprintStore ⟨some 0, none, "accepted"⟩ "u1").1 =
      Response.ok "Invitation accepted successfully" ∧
    (∃ b', Board.findById (respondToInvitation sprintStore ⟨some 0, none, "accepted"⟩ "u1").2
        "b1" = some b' ∧ "u1" ∈ b'.members ∧ ∀ m ∈ ["o1", "m1"], m ∈ b'.members) ∧
    Invitation.findById (respondToInvitation sprintStore ⟨some 0, none, "accepted"⟩ "u1").2
      (some 0) = some ⟨"b1", "o1", some "u1", some "uma@x.io", "accepted"⟩ :=
  respond_accepted_joins sprintStore 0 "u1" ⟨"b1", "o1", some "u1", some "uma@x.io", "pending"⟩
    ⟨"Sprint", "o1", ["o1", "m1"]⟩ ⟨some 0, none, "accepted"⟩ rfl rfl rfl rfl rfl rfl

/-- C3: when `u2` responds to invitation 0, whose invitee is `u1`, the answer is
the 500 failure `Failed to respond to invitation` (the store is unchanged);
only a missing invitation gets the 404 answer. -/
theorem respond_by_wrong_user_is_internal_error :
    respondToInvitation sprintStore ⟨some 0, none, "accepted"⟩ "u2" =
      (Response.fail 500 "Failed to respond to invitation"
        (some "Error updating invitation status: Unauthorized to update this invitation"),
       sprintStore) ∧
    respondToInvitation sprintStore ⟨some 7, none, "accepted"⟩ "u2" =
      (Response.fail 404 "Invitation not found"
        (some "The invitation does not exist or you are not authorized to respond"),
       sprintStore) := by
  decide

/-- C4: the owner invites `ann@x.io`, who has no account.  A body with the email
only leaves `memberId` undefined, `Invitation.create` throws and the answer is
500 with nothing stored.  With `member_id: null` the invitation is stored
without an invitee id; Ann then signs up as `a1` with that address and accepts
invitation 0: the answer is the 500 failure, nothing changes, Ann is not a
member of the board and no event is emitted. -/
theorem email_invitee_cannot_accept :
    inviteMember freshStore "b1" ⟨.undefined, .undefined, .str "ann@x.io"⟩ "o1" =
      (Response.fail 500 "Failed to invite member" none, freshStore) ∧
    (inviteMember freshStore "b1" ⟨.null, .undefined, .str "ann@x.io"⟩ "o1").1 =
      Response.ok "Invitation sent successfully" ∧
    User.findByEmail afterSignup "ann@x.io" = some ("a1", ⟨some "ann@x.io", some "ann"⟩) ∧
    Invitation.findById afterSignup (some 0) =
      some ⟨"b1", "o1", none, some "ann@x.io", "pending"⟩ ∧
    respondToInvitation afterSignup ⟨some 0, none, "accepted"⟩ "a1" =
      (Response.fail 500 "Failed to respond to invitation"
        (some "Error updating invitation status: Unauthorized to update this invitation"),
       afterSignup) ∧
    Board.findById afterSignup "b1" = some ⟨"Sprint", "o1", ["o1"]⟩ ∧
    afterSignup.emitted = [] := by
  decide

/-- Counterexample for C5: `u1`, who is not a member of board `b1`, invites `m1`,
who already is one; the answer is 403 `Access denied`, not the already-member
answer. -/
theorem invite_by_outsider_is_forbidden :
    alreadyMember ⟨"Sprint", "o1", ["o1", "m1"]⟩
      (resolveMemberId sprintStore (.str "m1") .null).toOption = true ∧
    inviteMember sprintStore "b1" ⟨.str "m1", .undefined, .null⟩ "u1" =
      (Response.fail 403 "Access denied" none, sprintStore) := by
  decide

/-- Witness for C5 (amended): the owner invites `u2`, who has no pending
invitation on `b1`, with the body `{member_id: "u2", email: null}`. -/
theorem inviteMember_cases_witness :
    (inviteMember sprintStore "b1" ⟨.str "u2", .undefined, .null⟩ "o1").1 =
      Response.ok "Invitation sent successfully" ∧
    (inviteMember sprintStore "b1" ⟨.str "u2", .undefined, .null⟩ "o1").2.invitations =
      sprintStore.invitations ++ [(3, ⟨"b1", "o1", some "u2", none, "pending"⟩)] :=
  (inviteMember_cases sprintStore "b1" ⟨.str "u2", .undefined, .null⟩ "o1" ⟨"Sprint", "o1", ["o1", "m1"]⟩
    (Or.inl rfl) rfl (by decide)).2.2 rfl (by decide) (by decide) (by decide)

/-- C6: after the owner invited `ann@x.io` by email and Ann signed up as `a1`,
a second invitation of `ann@x.io` to the same board is accepted by
`inviteMember`, and two pending invitations of board `b1` for the same invitee
exist. -/
theorem duplicate_pending_invitation :
    (inviteMember afterSignup "b1" ⟨.null, .undefined, .str "ann@x.io"⟩ "o1").1 =
      Response.ok "Invitation sent successfully" ∧
    (inviteMember afterSignup "b1" ⟨.null, .undefined, .str "ann@x.io"⟩ "o1").2.invitations =
      [(0, ⟨"b1", "o1", none, some "ann@x.io", "pending"⟩),
       (1, ⟨"b1", "o1", some "a1", some "ann@x.io", "pending"⟩)] := by
  decide

/-- Counterexample for C7: `m1`, a member but not the owner of `b1`, tries to
cancel the pending invitation 0; the answer is 403 `Access denied`, not 400. -/
theorem cancel_by_non_owner_is_forbidden :
    cancelInvitation sprintStore "b1" 0 "m1" =
      (Response.fail 403 "Access denied" none, sprintStore) ∧
    (cancelInvitation sprintStore "b1" 0 "m1").1.status ≠ 400 := by
  decide

/-- Witness for C7 (amended): the owner cancels the pending invitation 0. -/
theorem cancelInvitation_cases_witness :
    cancelInvitation sprintStore "b1" 0 "o1" =
      (Response.ok "Invitation cancelled successfully",
       Invitation.setStatus sprintStore 0 "cancelled") ∧
    Invitation.findById (cancelInvitation sprintStore "b1" 0 "o1").2 (some 0) =
      some ⟨"b1", "o1", some "u1", some "uma@x.io", "cancelled"⟩ :=
  (cancelInvitation_cases sprintStore "b1" 0 "o1").1 ⟨"Sprint", "o1", ["o1", "m1"]⟩
    ⟨"b1", "o1", some "u1", some "uma@x.io", "pending"⟩ rfl rfl rfl rfl rfl

/-- Witness for C8: the owner removes `m1` from `b1` and stays a member; the
owner cannot leave. -/
theorem owner_never_removed_witness :
    (∃ b', Board.findById (removeMember sprintStore "b1" "m1" "o1").2 "b1" = some b' ∧
      b'.ownerId = "o1" ∧ "o1" ∈ b'.members) ∧
    leaveBoard sprintStore "b1" "o1" = (Response.fail 400 "Cannot leave" none, sprintStore) :=
  have h := owner_never_removed sprintStore "b1" ⟨"Sprint", "o1", ["o1", "m1"]⟩ rfl (by decide)
    "b1" "m1" "o1"
  ⟨h.1, h.2.2.2 rfl⟩

/-- Witness for C9: the step run twice for invitee `u1`, inviter `o1`, board
`Sprint` and invitation 0 in `sprintStore`. -/
theorem inviteNotification_twice_witness :
    ∃ n room, isDuplicate n "Sprint" "o1" 0 = true ∧ n.recipientId = some "u1" ∧
      (inviteNotification (inviteNotification sprintStore "u1" "o1" "Sprint" 0)
        "u1" "o1" "Sprint" 0).notifications = [(3, n)] ∧
      (inviteNotification (inviteNotification sprintStore "u1" "o1" "Sprint" 0)
        "u1" "o1" "Sprint" 0).emitted = [⟨room, "new_notification", .notification 3 n⟩] :=
  (inviteNotification_twice sprintStore "u1" "o1" "Sprint" 0).2 rfl (by decide)
    (fun e he => absurd he (List.not_mem_nil e))

/-- C10: for the input `sampleInput` (recipient `u1`, `read: true`) the stored
record has `read = false`, and the single `new_notification` goes to the room
`user_undefined`, which is not the room `user_u1` that the connections of `u1`
join. -/
theorem createNotification_emits_to_undefined_room :
    (createNotification sprintStore sampleInput).1.2.read = false ∧
    Notification.findById (createNotification sprintStore sampleInput).2 3 =
      some (createNotification sprintStore sampleInput).1.2 ∧
    (createNotification sprintStore sampleInput).2.emitted =
      [⟨"user_undefined", "new_notification",
        .notification 3 (createNotification sprintStore sampleInput).1.2⟩] ∧
    userRoom "u1" = "user_u1" ∧
    ((createNotification sprintStore sampleInput).2.emitted.filter
      (fun e => e.room == userRoom "u1")) = [] := by
  decide

/-! ## Notification reconciliation and deletion -/

theorem reconcileNotificationWith_none (s : Store) (k : Option Nat) (status userId : String) :
    reconcileNotificationWith ReconcileFaults.none s k status userId =
      reconcileNotification s k status userId := by
  unfold reconcileNotificationWith reconcileNotification ReconcileFaults.none
  simp

theorem respondToInvitationWith_none (s : Store) (body : RespondBody) (userId : String) :
    respondToInvitationWith ReconcileFaults.none s body userId =
      respondToInvitation s body userId := by
  unfold respondToInvitationWith respondToInvitation
  simp only [reconcileNotificationWith_none]

theorem inviteMemberWith_none (s : Store) (boardId : String) (body : InviteBody)
    (userId : String) :
    inviteMemberWith InviteFaults.none s boardId body userId =
      inviteMember s boardId body userId := by
  unfold inviteMemberWith inviteMember InviteFaults.none inviteNotification
  simp only [Bool.or_self, Bool.false_eq_true, ↓reduceIte]
  cases Board.findById s boardId with
  | none => rfl
  | some board =>
    simp only
    cases hc : Invitation.create s boardId board.ownerId
        (resolveMemberId s body.member_id body.memberEmail) body.memberEmail with
    | mk r s1 =>
      cases r with
      | error e => rfl
      | ok invitation =>
        cases hm : (resolveMemberId s body.member_id body.memberEmail).toOption with
        | none => rfl
        | some m =>
          simp only
          split_ifs <;> try rfl
          split <;> rfl

theorem lookup_isSome_of_mem {κ β : Type} [BEq κ] [LawfulBEq κ] (l : List (κ × β)) (a : κ)
    (b : β) (h : (a, b) ∈ l) : (l.lookup a).isSome = true := by
  induction l with
  | nil => simp at h
  | cons hd tl ih =>
    obtain ⟨a', b'⟩ := hd
    by_cases e : a = a'
    · subst e; simp [List.lookup_cons]
    · have : (a == a') = false := by simpa using e
      simp only [List.lookup_cons, this]
      apply ih
      rcases List.mem_cons.1 h with h | h
      · exact absurd (congrArg Prod.fst h) e
      · exact h

theorem lookup_filter_ne {κ β : Type} [BEq κ] [LawfulBEq κ] (l : List (κ × β)) (a : κ) :
    (l.filter (fun e => e.1 != a)).lookup a = none := by
  induction l with
  | nil => simp
  | cons hd tl ih =>
    obtain ⟨a', b'⟩ := hd
    by_cases e : a' = a
    · subst e; simp [List.filter_cons, ih]
    · have h1 : (a' != a) = true := by simpa using e
      have h2 : (a == a') = false := by simpa using fun h => e h.symm
      simp [List.filter_cons, h1, List.lookup_cons, h2, ih]

theorem Notification.findById_update (s : Store) (nid nid' : Nat) (t m : String)
    (d : NotificationData) (r : Bool) :
    Notification.findById (Notification.update s nid t m d r) nid' =
      if nid' = nid then
        (Notification.findById s nid').map
          (fun x => { x with type := t, message := m, data := d, read := r })
      else Notification.findById s nid' := by
  unfold Notification.findById Notification.update
  exact lookup_map_update s.notifications nid nid'
    (fun x => { x with type := t, message := m, data := d, read := r })

theorem notificationFindById_congr {s t : Store} (h : s.notifications = t.notifications)
    (k : Nat) : Notification.findById s k = Notification.findById t k := by
  unfold Notification.findById; rw [h]

theorem findByUserId_congr {s t : Store} (h : s.notifications = t.notifications)
    (u : String) (limit : Nat) :
    Notification.findByUserId s u limit = Notification.findByUserId t u limit := by
  unfold Notification.findByUserId; rw [h]

theorem mem_of_mem_findByUserId (s : Store) (u : String) (limit : Nat) (x : Nat × Notification)
    (h : x ∈ Notification.findByUserId s u limit) :
    x ∈ s.notifications ∧ x.2.recipientId = some u := by
  unfold Notification.findByUserId at h
  have h1 := List.mem_of_mem_drop (List.mem_reverse.1 h)
  rw [List.mem_filter] at h1
  exact ⟨h1.1, by simpa using h1.2⟩

@[simp] theorem emitToBoardRoom_notifications (s : Store) (b e : String) (d : Payload) :
    (emitToBoardRoom s b e d).notifications = s.notifications := by
  unfold emitToBoardRoom; split <;> rfl

@[simp] theorem emitToUser_notifications (s : Store) (u e : String) (d : Payload) :
    (emitToUser s u e d).notifications = s.notifications := by
  unfold emitToUser; split <;> rfl

@[simp] theorem emitNotificationDeleted_notifications (s : Store) (u : String) (k : Nat) :
    (emitNotificationDeleted s u k).notifications = s.notifications := by
  unfold emitNotificationDeleted; split <;> rfl

@[simp] theorem emitNotificationDeleted_invitations (s : Store) (u : String) (k : Nat) :
    (emitNotificationDeleted s u k).invitations = s.invitations := by
  unfold emitNotificationDeleted; split <;> rfl

@[simp] theorem emitNotificationDeleted_boards (s : Store) (u : String) (k : Nat) :
    (emitNotificationDeleted s u k).boards = s.boards := by
  unfold emitNotificationDeleted; split <;> rfl

theorem addMember_store (s : Store) (b : String) (m : Option String) :
    (Board.addMember s b m).2 = s ∨
      ∃ members, (Board.addMember s b m).2 = Board.setMembers s b members := by
  unfold Board.addMember
  split
  · exact Or.inl rfl
  · split
    · exact Or.inl rfl
    · split_ifs
      · exact Or.inl rfl
      · exact Or.inr ⟨_, rfl⟩

theorem updateStatus_store (s : Store) (k : Option Nat) (st : String) (m : Option String) :
    (Invitation.updateStatus s k st m).2 = s ∨
      ∃ k0 inv, k = some k0 ∧ Invitation.findById s (some k0) = some inv ∧
        ((Invitation.updateStatus s k st m).2 = Invitation.setStatus s k0 st ∨
         ∃ members, (Invitation.updateStatus s k st m).2 =
           Board.setMembers (Invitation.setStatus s k0 st) inv.boardId members) := by
  unfold Invitation.updateStatus
  split
  · rename_i k0 inv hI
    split_ifs
    · exact Or.inl rfl
    · right
      refine ⟨k0, inv, rfl, hI, ?_⟩
      simp only
      have h := addMember_store (Invitation.setStatus s k0 st) inv.boardId inv.memberId
      generalize Board.addMember (Invitation.setStatus s k0 st) inv.boardId inv.memberId = r at h
      obtain ⟨r1, r2⟩ := r
      cases r1 <;> exact h
    · exact Or.inr ⟨k0, inv, rfl, hI, Or.inl rfl⟩
  · exact Or.inl rfl

@[simp] theorem updateStatus_notifications (s : Store) (k : Option Nat) (st : String)
    (m : Option String) : (Invitation.updateStatus s k st m).2.notifications = s.notifications := by
  rcases updateStatus_store s k st m with h | ⟨k0, inv, _, _, h | ⟨ms, h⟩⟩ <;> rw [h] <;> rfl

@[simp] theorem updateStatus_emitted (s : Store) (k : Option Nat) (st : String)
    (m : Option String) : (Invitation.updateStatus s k st m).2.emitted = s.emitted := by
  rcases updateStatus_store s k st m with h | ⟨k0, inv, _, _, h | ⟨ms, h⟩⟩ <;> rw [h] <;> rfl

/-- C11: when `respondToInvitation` with status `accepted` by `U` passes the
invitation update and finds a notification of `U` (of type `board_invitation`
or its accepted variant) that references the invitation, the notification
stored under that id afterwards has type `board_invitation_accepted`,
`read = true`, `data.status = accepted`, `data.invitationId` equal to the
invitation id, and `data.boardName` / `data.senderName` equal to the found
notification's values whenever those were present (non-empty). -/
theorem accepted_notification_rewritten (s : Store) (body : RespondBody) (U : String)
    (inv : Invitation) (nid : Nat) (n : Notification)
    (hst : body.status = "accepted")
    (hup : (Invitation.updateStatus s (body.invite_id <|> body.invitationId) "accepted"
      (some U)).1 = .ok (some inv))
    (hfind : (Notification.findByUserId s U 50).find? (fun n =>
        (n.2.type == "board_invitation" || n.2.type == "board_invitation_accepted") &&
          n.2.data.invitationId == (body.invite_id <|> body.invitationId)) = some (nid, n)) :
    ∃ r, Notification.findById (respondToInvitation s body U).2 nid = some r ∧
      r.type = "board_invitation_accepted" ∧ r.read = true ∧
      r.data.status = some "accepted" ∧
      r.data.invitationId = (body.invite_id <|> body.invitationId) ∧
      (truthy n.data.boardName = true → r.data.boardName = n.data.boardName) ∧
      (truthy n.data.senderName = true → r.data.senderName = n.data.senderName) := by
  have hmem := mem_of_mem_findByUserId s U 50 (nid, n) (List.mem_of_find?_eq_some hfind)
  obtain ⟨n0, hn0⟩ := Option.isSome_iff_exists.1
    (lookup_isSome_of_mem s.notifications nid n hmem.1)
  have hnot := updateStatus_notifications s (body.invite_id <|> body.invitationId) "accepted"
    (some U)
  generalize hr : Invitation.updateStatus s (body.invite_id <|> body.invitationId) "accepted"
    (some U) = r at hup hnot
  obtain ⟨r1, s1⟩ := r
  simp only at hup hnot
  subst hup
  have hf2 : Notification.findByUserId
      (emitToBoardRoom s1 inv.boardId "member_joined" (Payload.memberJoined inv.boardId U))
      U 50 = Notification.findByUserId s U 50 :=
    findByUserId_congr (by simp [hnot]) U 50
  have hl2 : Notification.findById
      (emitToBoardRoom s1 inv.boardId "member_joined" (Payload.memberJoined inv.boardId U))
      nid = some n0 := by
    rw [notificationFindById_congr (t := s) (by simp [hnot])]
    exact hn0
  unfold respondToInvitation
  simp only [hst, hr, beq_self_eq_true, Bool.true_or, Bool.not_true, Bool.false_eq_true,
    ↓reduceIte]
  unfold reconcileNotification
  simp only [hf2, hfind, beq_self_eq_true, ↓reduceIte]
  rw [notificationFindById_congr (emitToUser_notifications _ _ _ _), Notification.findById_update,
    if_pos rfl, hl2]
  refine ⟨_, rfl, rfl, rfl, rfl, rfl, ?_, ?_⟩
  · intro h; simp [h]
  · intro h; simp [h]

@[simp] theorem Notification.delete_invitations (s : Store) (k : Nat) :
    (Notification.delete s k).invitations = s.invitations := rfl

@[simp] theorem Notification.delete_boards (s : Store) (k : Nat) :
    (Notification.delete s k).boards = s.boards := rfl

theorem Notification.findById_delete (s : Store) (k : Nat) :
    Notification.findById (Notification.delete s k) k = none := by
  unfold Notification.findById Notification.delete
  exact lookup_filter_ne s.notifications k

theorem updateStatus_declined (s : Store) (k : Nat) (U : String) (inv : Invitation)
    (hI : Invitation.findById s (some k) = some inv) (hU : inv.memberId = some U) :
    Invitation.updateStatus s (some k) "declined" (some U) =
      (.ok (some { inv with status := "declined" }), Invitation.setStatus s k "declined") := by
  unfold Invitation.updateStatus
  simp only [hI, hU, bne_self_eq_false, Bool.and_false, Bool.false_eq_true, ↓reduceIte]
  rfl

/-- C13: when user `U` deletes their own notification of type `board_invitation`
whose `data.status` is missing or `pending` and whose `data.invitationId` names
an invitation that is still `pending` with invitee `U`, the answer is success,
the invitation's status is `declined` afterwards and the notification no longer
exists. -/
theorem delete_pending_notification_declines (s : Store) (id : Nat) (U : String)
    (n : Notification) (k : Nat) (inv : Invitation)
    (hn : Notification.findById s id = some n) (hr : n.recipientId = some U)
    (ht : n.type = "board_invitation") (hk : n.data.invitationId = some k)
    (hs : n.data.status = none ∨ n.data.status = some "pending")
    (hI : Invitation.findById s (some k) = some inv) (hp : inv.status = "pending")
    (hU : inv.memberId = some U) :
    (deleteNotification s id U).1 = Response.ok "Notification deleted" ∧
    Invitation.findById (deleteNotification s id U).2 (some k) =
      some { inv with status := "declined" } ∧
    Notification.findById (deleteNotification s id U).2 id = none := by
  have hcond : (!truthy n.data.status || n.data.status == some "pending") = true := by
    rcases hs with h | h
    · simp [h, truthy]
    · simp [h]
  have hd : deleteNotification s id U =
      (Response.ok "Notification deleted",
       emitNotificationDeleted (Notification.delete (Invitation.setStatus s k "declined") id)
         U id) := by
    unfold deleteNotification
    simp [hn, hr, ht, hk, hcond, hI, hp, updateStatus_declined s k U inv hI hU]
  rw [hd]
  refine ⟨rfl, ?_, ?_⟩
  · rw [invitationFindById_congr (t := Invitation.setStatus s k "declined") (by simp),
      Invitation.findById_setStatus, if_pos rfl, hI]
    rfl
  · rw [notificationFindById_congr (emitNotificationDeleted_notifications _ _ _)]
    exact Notification.findById_delete _ id

/-- C14: deleting a notification whose referenced invitation (if any) is not
`pending` leaves all invitations and all boards (hence every member list) as
they were, whatever the notification's own `data.status` says. -/
theorem delete_notification_of_processed_invitation (s : Store) (id : Nat) (U : String)
    (hnp : ∀ n inv, Notification.findById s id = some n →
      Invitation.findById s (n.data.invitationId <|> n.data.inviteId) = some inv →
      inv.status ≠ "pending") :
    (deleteNotification s id U).2.invitations = s.invitations ∧
    (deleteNotification s id U).2.boards = s.boards := by
  unfold deleteNotification
  cases hn : Notification.findById s id with
  | none => exact ⟨rfl, rfl⟩
  | some n =>
    simp only
    split_ifs with h1 h2 h3
    · exact ⟨rfl, rfl⟩
    · cases hI : Invitation.findById s (n.data.invitationId <|> n.data.inviteId) with
      | none => simp
      | some inv =>
        have := hnp n inv hn hI
        simp [this]
    · simp
    · simp

/-! ## Secondary steps that throw -/

@[simp] theorem addMember_invitations (s : Store) (b : String) (m : Option String) :
    (Board.addMember s b m).2.invitations = s.invitations := by
  rcases addMember_store s b m with h | ⟨ms, h⟩
  · rw [h]
  · rw [h]; rfl

theorem addMember_two_stores (s t : Store) (b : String) (m : Option String)
    (hb : s.boards = t.boards) :
    (Board.addMember s b m).1 = (Board.addMember t b m).1 ∧
    (Board.addMember s b m).2.boards = (Board.addMember t b m).2.boards := by
  unfold Board.addMember
  rw [boardFindById_congr hb b]
  cases Board.findById t b with
  | none => exact ⟨rfl, hb⟩
  | some board =>
    cases m with
    | none => exact ⟨rfl, hb⟩
    | some m =>
      simp only
      split_ifs
      · exact ⟨rfl, hb⟩
      · refine ⟨rfl, ?_⟩
        simp only [Board.setMembers, hb]

theorem updateStatus_two_stores (s t : Store) (k : Option Nat) (st : String) (m : Option String)
    (hi : s.invitations = t.invitations) (hb : s.boards = t.boards) :
    (Invitation.updateStatus s k st m).1 = (Invitation.updateStatus t k st m).1 ∧
    (Invitation.updateStatus s k st m).2.invitations =
      (Invitation.updateStatus t k st m).2.invitations ∧
    (Invitation.updateStatus s k st m).2.boards = (Invitation.updateStatus t k st m).2.boards := by
  unfold Invitation.updateStatus
  rw [invitationFindById_congr hi k]
  cases k with
  | none => exact ⟨rfl, hi, hb⟩
  | some k0 =>
    cases Invitation.findById t (some k0) with
    | none => exact ⟨rfl, hi, hb⟩
    | some inv =>
      simp only
      have hi1 : (Invitation.setStatus s k0 st).invitations =
          (Invitation.setStatus t k0 st).invitations := by
        simp only [Invitation.setStatus, hi]
      split_ifs
      · exact ⟨rfl, hi, hb⟩
      · have h2 := addMember_two_stores (Invitation.setStatus s k0 st)
          (Invitation.setStatus t k0 st) inv.boardId inv.memberId hb
        have h3 := addMember_invitations (Invitation.setStatus s k0 st) inv.boardId inv.memberId
        have h4 := addMember_invitations (Invitation.setStatus t k0 st) inv.boardId inv.memberId
        generalize Board.addMember (Invitation.setStatus s k0 st) inv.boardId inv.memberId = r
          at h2 h3
        generalize Board.addMember (Invitation.setStatus t k0 st) inv.boardId inv.memberId = r'
          at h2 h4
        obtain ⟨r1, r2⟩ := r
        obtain ⟨r1', r2'⟩ := r'
        simp only at h2 h3 h4
        obtain ⟨h2a, h2b⟩ := h2
        subst h2a
        cases r1 with
        | error e => exact ⟨rfl, by rw [h3, h4, hi1], h2b⟩
        | ok v => exact ⟨rfl, by rw [h3, h4, hi1], h2b⟩
      · exact ⟨rfl, hi1, hb⟩

theorem reconcileNotificationWith_store (f : ReconcileFaults) (s : Store)
    (k : Option Nat) (status userId : String) :
    reconcileNotificationWith f s k status userId = s ∨
    (∃ x ∈ Notification.findByUserId s userId 50,
      ((x.2.type == "board_invitation" || x.2.type == "board_invitation_accepted") &&
        x.2.data.invitationId == k) = true ∧
      ∃ t, t.boards = s.boards ∧ t.invitations = s.invitations ∧
        reconcileNotificationWith f s k status userId = t) := by
  unfold reconcileNotificationWith
  by_cases h1 : f.findByUserId = true
  · left; simp only [h1, ↓reduceIte]
  · simp only [h1, Bool.false_eq_true, ↓reduceIte]
    split
    · left; rfl
    · rename_i x hx
      right
      refine ⟨x, List.mem_of_find?_eq_some hx, by simpa using List.find?_some hx, ?_⟩
      by_cases h2 : ((status == "accepted" || status == "declined") && f.update) = true
      · exact ⟨s, rfl, rfl, by simp only [h2, ↓reduceIte]⟩
      · simp only [h2, Bool.false_eq_true, ↓reduceIte]
        by_cases h3 : f.findById = true
        · simp only [h3, ↓reduceIte]
          refine ⟨_, ?_, ?_, rfl⟩ <;> split_ifs <;> rfl
        · simp only [h3, Bool.false_eq_true, ↓reduceIte]
          refine ⟨_, ?_, ?_, rfl⟩ <;> simp only [emitToUser_boards, emitToUser_invitations] <;>
            split_ifs <;> rfl

@[simp] theorem reconcileNotificationWith_boards (f : ReconcileFaults) (s : Store)
    (k : Option Nat) (status userId : String) :
    (reconcileNotificationWith f s k status userId).boards = s.boards := by
  rcases reconcileNotificationWith_store f s k status userId with h | ⟨_, _, _, t, hb, _, h⟩
  · rw [h]
  · rw [h, hb]

@[simp] theorem reconcileNotificationWith_invitations (f : ReconcileFaults) (s : Store)
    (k : Option Nat) (status userId : String) :
    (reconcileNotificationWith f s k status userId).invitations = s.invitations := by
  rcases reconcileNotificationWith_store f s k status userId with h | ⟨_, _, _, t, _, hi, h⟩
  · rw [h]
  · rw [h, hi]

theorem reconcileNotificationWith_no_match (f : ReconcileFaults) (s : Store)
    (k : Option Nat) (status userId : String)
    (hno : ∀ e ∈ s.notifications, e.2.recipientId = some userId →
      ((e.2.type == "board_invitation" || e.2.type == "board_invitation_accepted") &&
        e.2.data.invitationId == k) = false) :
    reconcileNotificationWith f s k status userId = s := by
  rcases reconcileNotificationWith_store f s k status userId with h | ⟨x, hx, hp, _⟩
  · exact h
  · have := mem_of_mem_findByUserId s userId 50 x hx
    rw [hno x this.1 this.2] at hp
    exact absurd hp Bool.false_ne_true

/-- The response of `respondToInvitation` and the invitations and boards it
leaves depend only on the invitations and boards it starts from, whichever
notification store calls throw; without a notification of the responding user
that references the invitation, no `notification_updated` emission is added. -/
theorem respondToInvitationWith_frame (f g : ReconcileFaults) (s t : Store)
    (body : RespondBody) (userId : String)
    (hi : s.invitations = t.invitations) (hb : s.boards = t.boards) :
    (respondToInvitationWith f s body userId).1 = (respondToInvitationWith g t body userId).1 ∧
    (respondToInvitationWith f s body userId).2.invitations =
      (respondToInvitationWith g t body userId).2.invitations ∧
    (respondToInvitationWith f s body userId).2.boards =
      (respondToInvitationWith g t body userId).2.boards ∧
    ((∀ e ∈ s.notifications, e.2.recipientId = some userId →
        ((e.2.type == "board_invitation" || e.2.type == "board_invitation_accepted") &&
          e.2.data.invitationId == (body.invite_id <|> body.invitationId)) = false) →
      (respondToInvitationWith f s body userId).2.emitted.filter
          (fun e => e.event == "notification_updated") =
        s.emitted.filter (fun e => e.event == "notification_updated")) := by
  have h2 := updateStatus_two_stores s t (body.invite_id <|> body.invitationId) body.status
    (some userId) hi hb
  have hn := updateStatus_notifications s (body.invite_id <|> body.invitationId) body.status
    (some userId)
  have he := updateStatus_emitted s (body.invite_id <|> body.invitationId) body.status
    (some userId)
  unfold respondToInvitationWith
  by_cases hv : (!(body.status == "accepted" || body.status == "declined")) = true
  · simp only [hv, ↓reduceIte]
    exact ⟨trivial, hi, hb, fun _ => trivial⟩
  · simp only [hv, Bool.false_eq_true, ↓reduceIte]
    generalize Invitation.updateStatus s (body.invite_id <|> body.invitationId) body.status
      (some userId) = r at h2 hn he
    generalize Invitation.updateStatus t (body.invite_id <|> body.invitationId) body.status
      (some userId) = r' at h2
    obtain ⟨r1, s1⟩ := r
    obtain ⟨r1', t1⟩ := r'
    simp only at h2 hn he
    obtain ⟨h2a, h2b, h2c⟩ := h2
    subst h2a
    cases r1 with
    | error e => exact ⟨rfl, h2b, h2c, fun _ => by simp only [he]⟩
    | ok v =>
      cases v with
      | none => exact ⟨rfl, h2b, h2c, fun _ => by simp only [he]⟩
      | some inv =>
        simp only [reconcileNotificationWith_invitations, reconcileNotificationWith_boards]
        refine ⟨trivial, ?_, ?_, ?_⟩
        · split_ifs <;> simp [h2b]
        · split_ifs <;> simp [h2c]
        · intro hno
          rw [reconcileNotificationWith_no_match]
          · split_ifs
            · unfold emitToBoardRoom
              split_ifs
              · simp [he]
              · simp only [he]
            · simp only [he]
          · intro e hmem
            apply hno e
            revert hmem
            split_ifs <;> simp [hn]

theorem respondToInvitationWith_valid (f : ReconcileFaults) (s : Store)
    (body : RespondBody) (userId : String) (k : Nat) (inv : Invitation) (board : Board)
    (hst : body.status = "accepted" ∨ body.status = "declined")
    (hid : (body.invite_id <|> body.invitationId) = some k)
    (hI : Invitation.findById s (some k) = some inv) (hU : inv.memberId = some userId)
    (hB : Board.findById s inv.boardId = some board) :
    (respondToInvitationWith f s body userId).1 =
      Response.ok ("Invitation " ++ body.status ++ " successfully") ∧
    (respondToInvitationWith f s body userId).2.invitations =
      (Invitation.setStatus s k body.status).invitations ∧
    (respondToInvitationWith f s body userId).2.boards =
      (if body.status = "accepted" ∧ userId ∉ board.members then
        Board.setMembers s inv.boardId (board.members ++ [userId]) else s).boards := by
  obtain ⟨invite_id, invitationId, status⟩ := body
  simp only at hst hid ⊢
  rcases hst with rfl | rfl
  · have hus := updateStatus_accepted s k userId inv board hI hU hB
    have hr : respondToInvitationWith f s ⟨invite_id, invitationId, "accepted"⟩ userId =
        (Response.ok ("Invitation " ++ "accepted" ++ " successfully"),
         reconcileNotificationWith f
           (emitToBoardRoom
             (if board.members.contains userId then Invitation.setStatus s k "accepted"
              else Board.setMembers (Invitation.setStatus s k "accepted") inv.boardId
                (board.members ++ [userId]))
             inv.boardId "member_joined" (Payload.memberJoined inv.boardId userId))
           (some k) "accepted" userId) := by
      unfold respondToInvitationWith
      simp only [hid, hus]
      rfl
    rw [hr]
    refine ⟨rfl, ?_, ?_⟩
    · simp only [reconcileNotificationWith_invitations, emitToBoardRoom_invitations]
      split_ifs <;> rfl
    · simp only [reconcileNotificationWith_boards, emitToBoardRoom_boards]
      by_cases hc : userId ∈ board.members
      · have hc' : board.members.contains userId = true := by simpa using hc
        simp [hc, hc']
      · have hc' : ¬ (board.members.contains userId = true) := by simpa using hc
        simp only [hc, hc', not_false_eq_true, and_self, if_true, if_false]
        rfl
  · have hus := updateStatus_declined s k userId inv hI hU
    have hr : respondToInvitationWith f s ⟨invite_id, invitationId, "declined"⟩ userId =
        (Response.ok ("Invitation " ++ "declined" ++ " successfully"),
         reconcileNotificationWith f (Invitation.setStatus s k "declined")
           (some k) "declined" userId) := by
      unfold respondToInvitationWith
      simp only [hid, hus]
      rfl
    rw [hr]
    refine ⟨rfl, ?_, ?_⟩
    · simp only [reconcileNotificationWith_invitations]
    · simp only [reconcileNotificationWith_boards]
      simp

/-- C16: for a valid request (status `accepted` or `declined`, the invitation
exists with the responding user as invitee, its board exists) the answer is the
200 success, the invitation has the new status, no other invitation changes,
and the board's members are those of before plus, on `accepted`, the user,
whichever notification store calls throw and whatever notifications the store
holds; so response, invitations and boards are the same for two stores that
differ in their notifications only and for any two choices of throwing calls.
Without a notification of the user that references the invitation, no
`notification_updated` is emitted. -/
theorem respond_independent_of_notifications (f g : ReconcileFaults) (s t : Store)
    (body : RespondBody) (userId : String) (k : Nat) (inv : Invitation) (board : Board)
    (hi : s.invitations = t.invitations) (hb : s.boards = t.boards)
    (hst : body.status = "accepted" ∨ body.status = "declined")
    (hid : (body.invite_id <|> body.invitationId) = some k)
    (hI : Invitation.findById s (some k) = some inv) (hU : inv.memberId = some userId)
    (hB : Board.findById s inv.boardId = some board) :
    (respondToInvitationWith f s body userId).1 =
      Response.ok ("Invitation " ++ body.status ++ " successfully") ∧
    Invitation.findById (respondToInvitationWith f s body userId).2 (some k) =
      some { inv with status := body.status } ∧
    (∀ j, j ≠ k → Invitation.findById (respondToInvitationWith f s body userId).2 (some j) =
      Invitation.findById s (some j)) ∧
    (∃ b1, Board.findById (respondToInvitationWith f s body userId).2 inv.boardId = some b1 ∧
      b1.members = (if body.status = "accepted" ∧ userId ∉ board.members then
        board.members ++ [userId] else board.members)) ∧
    (respondToInvitationWith g t body userId).1 = (respondToInvitationWith f s body userId).1 ∧
    (respondToInvitationWith g t body userId).2.invitations =
      (respondToInvitationWith f s body userId).2.invitations ∧
    (respondToInvitationWith g t body userId).2.boards =
      (respondToInvitationWith f s body userId).2.boards ∧
    ((∀ e ∈ s.notifications, e.2.recipientId = some userId →
        ((e.2.type == "board_invitation" || e.2.type == "board_invitation_accepted") &&
          e.2.data.invitationId == (body.invite_id <|> body.invitationId)) = false) →
      (respondToInvitationWith f s body userId).2.emitted.filter
          (fun e => e.event == "notification_updated") =
        s.emitted.filter (fun e => e.event == "notification_updated")) := by
  obtain ⟨hr, hinv, hbo⟩ := respondToInvitationWith_valid f s body userId k inv board
    hst hid hI hU hB
  obtain ⟨h1, h2, h3, h4⟩ := respondToInvitationWith_frame f g s t body userId hi hb
  refine ⟨hr, ?_, ?_, ?_, h1.symm, h2.symm, h3.symm, h4⟩
  · rw [invitationFindById_congr hinv, Invitation.findById_setStatus, if_pos rfl, hI]
    rfl
  · intro j hj
    rw [invitationFindById_congr hinv, Invitation.findById_setStatus, if_neg hj]
  · rw [boardFindById_congr hbo]
    by_cases hc : body.status = "accepted" ∧ userId ∉ board.members
    · rw [if_pos hc, if_pos hc, Board.findById_setMembers, if_pos rfl, hB]
      exact ⟨_, rfl, rfl⟩
    · rw [if_neg hc, if_neg hc, hB]
      exact ⟨_, rfl, rfl⟩

/-! ## The response cache -/

theorem Request.fresh_unconditional (env : CacheEnv) (req : Request) (statusCode : Nat)
    (etag lastModified : Option String)
    (hn : req.ifNoneMatch = none) (hs : req.ifModifiedSince = none) :
    req.fresh env statusCode etag lastModified = false := by
  unfold Request.fresh
  simp [hn, hs, truthy]

theorem Request.fresh_other_status (env : CacheEnv) (req : Request) (statusCode : Nat)
    (etag lastModified : Option String)
    (h : statusCode < 200 ∨ (300 ≤ statusCode ∧ statusCode ≠ 304)) :
    req.fresh env statusCode etag lastModified = false := by
  unfold Request.fresh
  have h1 : (decide (200 ≤ statusCode) && decide (statusCode < 300) || statusCode == 304) =
      false := by
    rcases h with h | ⟨h, h4⟩
    · have : ¬ (200 ≤ statusCode) := by omega
      have h3 : statusCode ≠ 304 := by omega
      simp [this, h3]
    · have : ¬ (statusCode < 300) := by omega
      simp [this, h4]
  simp [h1]

theorem Request.fresh_other_method (env : CacheEnv) (req : Request) (statusCode : Nat)
    (etag lastModified : Option String) (hg : req.method ≠ "GET") (hh : req.method ≠ "HEAD") :
    req.fresh env statusCode etag lastModified = false := by
  unfold Request.fresh
  simp [hg, hh]

/-- Express's `res.json` sends the response handed to it as it is, or answers
304 without the body. -/
theorem originalJson_cases (env : CacheEnv) (req : Request) (r : Served) :
    originalJson env req r = r ∨
    ((∃ data, r.body = some data) ∧ originalJson env req r = ⟨304, r.headers, none⟩ ∧
      (req.method = "GET" ∨ req.method = "HEAD") ∧
      (truthy req.ifNoneMatch = true ∨ truthy req.ifModifiedSince = true)) := by
  unfold originalJson
  cases hb : r.body with
  | none => exact Or.inl rfl
  | some data =>
    simp only
    by_cases hf : req.fresh env r.status (sentETag env r.headers data)
        (r.headers.bind (fun h => h.lastModified)) = true
    · rw [if_pos hf]
      right
      unfold Request.fresh at hf
      simp only [Bool.and_eq_true, Bool.or_eq_true, beq_iff_eq] at hf
      exact ⟨⟨data, rfl⟩, rfl, hf.1.1.1, hf.1.2⟩
    · rw [if_neg hf]
      exact Or.inl rfl

theorem originalJson_unconditional (env : CacheEnv) (req : Request) (r : Served)
    (hn : req.ifNoneMatch = none) (hs : req.ifModifiedSince = none) :
    originalJson env req r = r := by
  rcases originalJson_cases env req r with h | ⟨_, _, _, h⟩
  · exact h
  · rw [hn, hs] at h
    simp [truthy] at h

theorem originalJson_other_status (env : CacheEnv) (req : Request) (r : Served)
    (h : r.status < 200 ∨ (300 ≤ r.status ∧ r.status ≠ 304)) :
    originalJson env req r = r := by
  unfold originalJson
  cases r.body with
  | none => rfl
  | some data =>
    simp only [Request.fresh_other_status env req r.status _ _ h, Bool.false_eq_true, if_false]

theorem originalJson_other_method (env : CacheEnv) (req : Request) (r : Served)
    (hg : req.method ≠ "GET") (hh : req.method ≠ "HEAD") :
    originalJson env req r = r := by
  rcases originalJson_cases env req r with h | ⟨_, _, h, _⟩
  · exact h
  · rcases h with h | h
    · exact absurd h hg
    · exact absurd h hh

theorem lookup_mapSet_self (m : List (String × CacheEntry)) (key : String) (value : CacheEntry) :
    (mapSet m key value).lookup key = some value := by
  unfold mapSet
  split_ifs with h
  · have := lookup_map_update m key key (fun _ => value)
    simp only [↓reduceIte] at this
    obtain ⟨v0, hv0⟩ := Option.isSome_iff_exists.1 h
    have hm : (m.map (fun e => if e.1 = key then (key, value) else e)) =
        m.map (fun e => if e.1 = key then (e.1, (fun _ => value) e.2) else e) := by
      apply List.map_congr_left
      intro e _
      split_ifs with he
      · rw [he]
      · rfl
    rw [hm, this, hv0]
    rfl
  · have hn : m.lookup key = none := by
      cases hl : m.lookup key with
      | none => rfl
      | some v => rw [hl] at h; simp at h
    rw [List.lookup_append, hn]
    simp [List.lookup_cons]

theorem generateETag_ne_empty (env : CacheEnv) (data : String) : generateETag env data ≠ "" := by
  intro h
  have := congrArg String.length h
  simp only [generateETag, String.length_append] at this
  have h1 : "\"".length = 1 := by decide
  have h0 : "".length = 0 := by decide
  omega

theorem cachedJson_200 (env : CacheEnv) (cm : CacheManager) (now : Int) (key data : String) :
    (cachedJson env cm now key 200 data).2.cache.lookup key =
        some ⟨data, generateETag env data, env.toUTCString now, now⟩ ∧
    (cachedJson env cm now key 200 data).2.defaultDuration = cm.defaultDuration ∧
    (cachedJson env cm now key 200 data).2.maxSize = cm.maxSize := by
  have h : cachedJson env cm now key 200 data =
      (⟨200, some (setCacheHeaders (generateETag env data) (env.toUTCString now) (maxAgeOf cm)),
        some data⟩,
       { cm with cache := (mapSet
          (if cm.cache.length ≥ cm.maxSize then cm.cache.tail else cm.cache) key
          ⟨data, generateETag env data, env.toUTCString now, now⟩) }) := by
    unfold cachedJson
    simp only [beq_self_eq_true, ↓reduceIte]
  rw [h]
  exact ⟨lookup_mapSet_self _ _ _, rfl, rfl⟩

theorem mem_of_lookup_eq_some {κ β : Type} [BEq κ] [LawfulBEq κ] (l : List (κ × β)) (a : κ)
    (b : β) (h : l.lookup a = some b) : (a, b) ∈ l := by
  induction l with
  | nil => simp at h
  | cons hd tl ih =>
    obtain ⟨a', b'⟩ := hd
    by_cases e : a = a'
    · subst e
      simp only [List.lookup_cons, beq_self_eq_true] at h
      cases h
      exact List.mem_cons_self _ _
    · have : (a == a') = false := by simpa using e
      simp only [List.lookup_cons, this] at h
      exact List.mem_cons_of_mem _ (ih h)

theorem middleware_valid_entry (env : CacheEnv) (cm : CacheManager) (now : Int) (req : Request)
    (c : CacheEntry) (hm : req.method = "GET") (hl : cm.cache.lookup (cacheKey req) = some c)
    (hv : now - c.timestamp < cm.defaultDuration) :
    middleware env cm now req =
      if (handleConditionalRequest env req c).shouldReturn304 then
        .notModified (setCacheHeaders c.etag c.lastModified (maxAgeOf cm))
      else .hit (setCacheHeaders c.etag c.lastModified (maxAgeOf cm)) c.data := by
  unfold middleware
  simp [hm, hl, isCacheValid, hv]

theorem middleware_expired_entry (env : CacheEnv) (cm : CacheManager) (now : Int) (req : Request)
    (c : CacheEntry) (hm : req.method = "GET") (hl : cm.cache.lookup (cacheKey req) = some c)
    (hv : cm.defaultDuration ≤ now - c.timestamp) :
    middleware env cm now req = .miss (cacheKey req) := by
  unfold middleware
  have : ¬ (now - c.timestamp < cm.defaultDuration) := by omega
  simp [hm, hl, isCacheValid, this]

theorem handleConditionalRequest_no_headers (env : CacheEnv) (req : Request) (c : CacheEntry)
    (hn : req.ifNoneMatch = none) (hs : req.ifModifiedSince = none) :
    handleConditionalRequest env req c = ⟨false, none⟩ := by
  unfold handleConditionalRequest
  simp [hn, hs, truthy]

/-- C18: after a GET that missed the cache and whose handler answered 200
through `res.json` at time `t`, a GET with the same key at time `t'` and no
conditional headers gets the stored payload with status 200 without `next()`
being called when `t' - t` is below the TTL, and is passed to the handler when
`t' - t` is at least the TTL; the TTL of the application's cache is 30000 ms. -/
theorem cache_serves_within_ttl (env : CacheEnv) (cm : CacheManager) (t0 t t' a : Int)
    (req req' : Request) (data : String) (handler handler' : Request → HandlerResult)
    (hmiss : middleware env cm t0 req = .miss (cacheKey req))
    (hh : handler req = .json 200 data)
    (hm : req'.method = "GET") (hk : cacheKey req' = cacheKey req)
    (hn : req'.ifNoneMatch = none) (hs : req'.ifModifiedSince = none) :
    (t' - t < cm.defaultDuration →
      serve env (serve env cm t0 t req handler).2.2 t' a req' handler' =
        (⟨200, some (setCacheHeaders (generateETag env data) (env.toUTCString t) (maxAgeOf cm)),
          some data⟩, false, (serve env cm t0 t req handler).2.2)) ∧
    (cm.defaultDuration ≤ t' - t →
      (serve env (serve env cm t0 t req handler).2.2 t' a req' handler').2.1 = true ∧
      (serve env (serve env cm t0 t req handler).2.2 t' a req' handler').1 =
        (respondVia env (serve env cm t0 t req handler).2.2 a (some (cacheKey req'))
          (handler' req')).1) ∧
    cacheManager.defaultDuration = 30000 := by
  have h1 : (serve env cm t0 t req handler).2.2 = (cachedJson env cm t (cacheKey req) 200 data).2 := by
    unfold serve
    simp only [hmiss, hh, respondVia]
  obtain ⟨hl, hd, _⟩ := cachedJson_200 env cm t (cacheKey req) data
  rw [h1]
  generalize (cachedJson env cm t (cacheKey req) 200 data).2 = cm1 at hl hd
  rw [← hk] at hl
  have hage : maxAgeOf cm1 = maxAgeOf cm := by unfold maxAgeOf; rw [hd]
  refine ⟨?_, ?_, by decide⟩
  · intro hlt
    have hmw := middleware_valid_entry env cm1 t' req' _ hm hl (by rw [hd]; exact hlt)
    rw [handleConditionalRequest_no_headers env req' _ hn hs] at hmw
    simp only [Bool.false_eq_true, ↓reduceIte] at hmw
    unfold serve
    simp only [hmw, hage, originalJson_unconditional env req' _ hn hs]
  · intro hge
    have hmw := middleware_expired_entry env cm1 t' req' _ hm hl (by rw [hd]; exact hge)
    unfold serve
    simp only [hmw, originalJson_unconditional env req' _ hn hs]
    exact ⟨trivial, trivial⟩

theorem mem_mapSet (m : List (String × CacheEntry)) (key : String) (value : CacheEntry)
    (e : String × CacheEntry) (he : e ∈ mapSet m key value) : e ∈ m ∨ e = (key, value) := by
  unfold mapSet at he
  split_ifs at he
  · rcases List.mem_map.1 he with ⟨x, hx, hxe⟩
    by_cases hk : x.1 = key
    · rw [if_pos hk] at hxe
      exact Or.inr hxe.symm
    · rw [if_neg hk] at hxe
      exact Or.inl (hxe ▸ hx)
  · rcases List.mem_append.1 he with hx | hx
    · exact Or.inl hx
    · exact Or.inr (List.mem_singleton.1 hx)

/-- C19: every entry the middleware stores carries the ETag generated from its
payload, and this stays so under further stores, `cleanup` and `clear`; for a
cache with that property, a GET whose key has an unexpired entry and whose
`If-None-Match` equals the entry's ETag is answered 304 without a body and
without calling `next()`. -/
theorem etag_match_not_modified (env : CacheEnv) (cm : CacheManager)
    (hinv : ∀ e ∈ cm.cache, e.2.etag = generateETag env e.2.data) :
    (∀ (now : Int) (key data : String) (statusCode : Nat),
      ∀ e ∈ (cachedJson env cm now key statusCode data).2.cache,
        e.2.etag = generateETag env e.2.data) ∧
    (∀ now : Int, ∀ e ∈ (cleanup cm now).cache, e.2.etag = generateETag env e.2.data) ∧
    (∀ e ∈ (clear cm).cache, e.2.etag = generateETag env e.2.data) ∧
    (∀ (now a : Int) (req : Request) (handler : Request → HandlerResult) (c : CacheEntry),
      req.method = "GET" → cm.cache.lookup (cacheKey req) = some c →
      now - c.timestamp < cm.defaultDuration → req.ifNoneMatch = some c.etag →
      serve env cm now a req handler =
        (⟨304, some (setCacheHeaders c.etag c.lastModified (maxAgeOf cm)), none⟩, false, cm)) := by
  refine ⟨?_, ?_, ?_, ?_⟩
  · intro now key data statusCode e he
    unfold cachedJson at he
    by_cases h1 : (statusCode == 200) = true
    · simp only [h1, ↓reduceIte] at he
      rcases mem_mapSet _ _ _ _ he with hx | hx
      · by_cases h2 : cm.cache.length ≥ cm.maxSize
        · rw [if_pos h2] at hx
          exact hinv e (List.mem_of_mem_tail hx)
        · rw [if_neg h2] at hx
          exact hinv e hx
      · rw [hx]
    · simp only [h1, Bool.false_eq_true, ↓reduceIte] at he
      exact hinv e he
  · intro now e he
    exact hinv e (List.mem_of_mem_filter he)
  · intro e he
    simp [clear] at he
  · intro now a req handler c hm hl hv hh
    have he := hinv _ (mem_of_lookup_eq_some _ _ _ hl)
    have hne : c.etag ≠ "" := by
      simp only at he
      rw [he]; exact generateETag_ne_empty env c.data
    have hc : handleConditionalRequest env req c = ⟨true, some "ETag match"⟩ := by
      unfold handleConditionalRequest
      simp [hh, truthy, hne]
    have hmw := middleware_valid_entry env cm now req c hm hl hv
    rw [hc] at hmw
    unfold serve
    simp only [hmw, ↓reduceIte]

theorem handleConditionalRequest_fallback (env : CacheEnv) (req : Request) (c : CacheEntry)
    (hn : req.ifNoneMatch = none ∨ req.ifNoneMatch ≠ some c.etag) :
    (handleConditionalRequest env req c).shouldReturn304 =
      (truthy req.ifModifiedSince && c.lastModified != "" &&
        dateGe (req.ifModifiedSince.bind env.parseDate) (env.parseDate c.lastModified)) := by
  have h1 : (truthy req.ifNoneMatch && req.ifNoneMatch == some c.etag) = false := by
    rcases hn with h | h
    · simp [h, truthy]
    · have : (req.ifNoneMatch == some c.etag) = false := by simpa using h
      simp [this]
  unfold handleConditionalRequest
  simp only [h1, Bool.false_eq_true, ↓reduceIte]
  split_ifs with h2
  · exact h2.symm
  · simpa using h2

/-- C20 (amended): on a cache hit (GET, unexpired entry with an ETag and a
Last-Modified text) where `If-None-Match` is absent or differs from the stored
ETag, `handleConditionalRequest` reports 304 exactly when `If-Modified-Since` is
present with a valid time that is not older than the (valid) last-modified time
of the entry; then the answer is 304 with `Cache-Control: public, max-age`, the
entry's `ETag` and its `Last-Modified`.  Otherwise the same three headers are
set and the payload is handed to Express's `res.json`, which sends it with
status 200, unless its own freshness test holds for the request's conditional
headers, in which case it answers 304 without a body; a request without
conditional headers gets the payload.  In no case is `next()` called or the
cache changed.  The `Date` constructor is assumed to reject the empty text. -/
theorem conditional_fallback (env : CacheEnv) (cm : CacheManager) (now a : Int) (req : Request)
    (handler : Request → HandlerResult) (c : CacheEntry)
    (hempty : env.parseDate "" = none)
    (hm : req.method = "GET") (hl : cm.cache.lookup (cacheKey req) = some c)
    (hv : now - c.timestamp < cm.defaultDuration)
    (he : c.etag ≠ "") (hlm : c.lastModified ≠ "")
    (hn : req.ifNoneMatch = none ∨ req.ifNoneMatch ≠ some c.etag) :
    ((handleConditionalRequest env req c).shouldReturn304 = true ↔
      ∃ hdr ct rt, req.ifModifiedSince = some hdr ∧ env.parseDate hdr = some ct ∧
        env.parseDate c.lastModified = some rt ∧ rt ≤ ct) ∧
    ((handleConditionalRequest env req c).shouldReturn304 = true →
      serve env cm now a req handler =
        (⟨304, some ⟨Int.fdiv cm.defaultDuration 1000, some c.etag, some c.lastModified⟩, none⟩,
         false, cm)) ∧
    ((handleConditionalRequest env req c).shouldReturn304 = false →
      (serve env cm now a req handler).2 = (false, cm) ∧
      (serve env cm now a req handler).1.headers =
        some ⟨Int.fdiv cm.defaultDuration 1000, some c.etag, some c.lastModified⟩ ∧
      (((truthy req.ifNoneMatch || truthy req.ifModifiedSince) &&
          env.fresh req.ifNoneMatch req.ifModifiedSince (some c.etag) (some c.lastModified)) =
          false →
        (serve env cm now a req handler).1.status = 200 ∧
        (serve env cm now a req handler).1.body = some c.data) ∧
      (((truthy req.ifNoneMatch || truthy req.ifModifiedSince) &&
          env.fresh req.ifNoneMatch req.ifModifiedSince (some c.etag) (some c.lastModified)) =
          true →
        (serve env cm now a req handler).1.status = 304 ∧
        (serve env cm now a req handler).1.body = none) ∧
      (req.ifNoneMatch = none → req.ifModifiedSince = none →
        serve env cm now a req handler =
          (⟨200, some ⟨Int.fdiv cm.defaultDuration 1000, some c.etag, some c.lastModified⟩,
            some c.data⟩, false, cm))) := by
  have hmw := middleware_valid_entry env cm now req c hm hl hv
  have hhd : setCacheHeaders c.etag c.lastModified (maxAgeOf cm) =
      ⟨Int.fdiv cm.defaultDuration 1000, some c.etag, some c.lastModified⟩ := by
    unfold setCacheHeaders maxAgeOf
    simp [he, hlm]
  rw [hhd] at hmw
  refine ⟨?_, ?_, ?_⟩
  · rw [handleConditionalRequest_fallback env req c hn]
    constructor
    · intro h
      simp only [Bool.and_eq_true, bne_iff_ne, ne_eq] at h
      obtain ⟨⟨h1, _⟩, h3⟩ := h
      cases hi : req.ifModifiedSince with
      | none => rw [hi] at h1; simp [truthy] at h1
      | some hdr =>
        rw [hi] at h3
        simp only [Option.some_bind] at h3
        cases hc : env.parseDate hdr with
        | none => rw [hc] at h3; simp [dateGe] at h3
        | some ct =>
          cases hr : env.parseDate c.lastModified with
          | none => rw [hc, hr] at h3; simp [dateGe] at h3
          | some rt =>
            rw [hc, hr] at h3
            exact ⟨hdr, ct, rt, rfl, hc, rfl, by simpa [dateGe] using h3⟩
    · rintro ⟨hdr, ct, rt, hi, hc, hr, hle⟩
      have h1 : hdr ≠ "" := by
        intro h; rw [h, hempty] at hc; cases hc
      have h2 : c.lastModified ≠ "" := by
        intro h; rw [h, hempty] at hr; cases hr
      simp [hi, truthy, h1, h2, hc, hr, dateGe, hle]
  · intro h
    rw [h] at hmw
    unfold serve
    simp only [hmw, ↓reduceIte]
  · intro h
    rw [h] at hmw
    simp only [Bool.false_eq_true, ↓reduceIte] at hmw
    have hs : serve env cm now a req handler =
        (originalJson env req
          ⟨200, some ⟨Int.fdiv cm.defaultDuration 1000, some c.etag, some c.lastModified⟩,
            some c.data⟩, false, cm) := by
      unfold serve
      simp only [hmw]
    have hf : req.fresh env 200 (some c.etag) (some c.lastModified) =
        ((truthy req.ifNoneMatch || truthy req.ifModifiedSince) &&
          env.fresh req.ifNoneMatch req.ifModifiedSince (some c.etag) (some c.lastModified)) := by
      unfold Request.fresh
      simp [hm]
    have ho : originalJson env req
          ⟨200, some ⟨Int.fdiv cm.defaultDuration 1000, some c.etag, some c.lastModified⟩,
            some c.data⟩ =
        if ((truthy req.ifNoneMatch || truthy req.ifModifiedSince) &&
          env.fresh req.ifNoneMatch req.ifModifiedSince (some c.etag) (some c.lastModified)) =
            true then
          ⟨304, some ⟨Int.fdiv cm.defaultDuration 1000, some c.etag, some c.lastModified⟩, none⟩
        else
          ⟨200, some ⟨Int.fdiv cm.defaultDuration 1000, some c.etag, some c.lastModified⟩,
            some c.data⟩ := by
      unfold originalJson sentETag
      simp only [Option.some_bind, hf]
    rw [hs, ho]
    refine ⟨rfl, ?_, ?_, ?_, ?_⟩
    · split <;> rfl
    · intro hx
      rw [if_neg (by rw [hx]; exact Bool.false_ne_true)]
      exact ⟨rfl, rfl⟩
    · intro hx
      rw [if_pos hx]
      exact ⟨rfl, rfl⟩
    · intro h1 h2
      rw [if_neg (by simp [h1, h2, truthy])]

/-! ## The status mirror along sequential runs -/

theorem lookup_eq_none_of_keys_lt {β : Type} (l : List (Nat × β)) (k : Nat)
    (h : ∀ e ∈ l, e.1 < k) : l.lookup k = none := by
  induction l with
  | nil => rfl
  | cons hd tl ih =>
    obtain ⟨a, b⟩ := hd
    have ha : a < k := h (a, b) (List.mem_cons_self _ _)
    have hne : (k == a) = false := by
      simp only [beq_eq_false_iff_ne, ne_eq]; omega
    simp only [List.lookup_cons, hne]
    exact ih (fun e he => h e (List.mem_cons_of_mem _ he))

theorem lookup_append_fresh {β : Type} (l : List (Nat × β)) (k0 k : Nat) (v : β)
    (h : ∀ e ∈ l, e.1 < k0) :
    (l ++ [(k0, v)]).lookup k = if k = k0 then some v else l.lookup k := by
  rw [List.lookup_append]
  by_cases hk : k = k0
  · subst hk
    simp [lookup_eq_none_of_keys_lt l k h, List.lookup_cons]
  · have hne : (k == k0) = false := by simpa using hk
    simp [hk, List.lookup_cons, hne]

theorem createBoardInvitationNotification_fields (s : Store) (m u b : String) (k : Nat) :
    (createBoardInvitationNotification s m u b k).2.notifications =
      s.notifications ++ [(s.nextKey, (createBoardInvitationNotification s m u b k).1.2)] ∧
    (createBoardInvitationNotification s m u b k).2.nextKey = s.nextKey + 1 ∧
    (createBoardInvitationNotification s m u b k).2.invitations = s.invitations ∧
    (createBoardInvitationNotification s m u b k).2.boards = s.boards ∧
    (createBoardInvitationNotification s m u b k).1.2.type = "board_invitation" ∧
    (createBoardInvitationNotification s m u b k).1.2.data.invitationId = some k ∧
    (createBoardInvitationNotification s m u b k).1.2.recipientId = some m ∧
    (createBoardInvitationNotification s m u b k).1.2.data.status =
      jsOr ((Invitation.findById s (some k)).map (·.status)) (some "pending") := by
  unfold createBoardInvitationNotification createNotification Notification.create
    emitNewNotification
  simp only
  split_ifs <;> exact ⟨rfl, rfl, rfl, rfl, rfl, rfl, rfl, rfl⟩

theorem sendInvitationMail_fields (s : Store) (e : Option String) (b u : String) :
    (sendInvitationMail s e b u).invitations = s.invitations ∧
    (sendInvitationMail s e b u).notifications = s.notifications ∧
    (sendInvitationMail s e b u).nextKey = s.nextKey ∧
    (sendInvitationMail s e b u).boards = s.boards := by
  unfold sendInvitationMail
  split
  · split <;> exact ⟨rfl, rfl, rfl, rfl⟩
  · exact ⟨rfl, rfl, rfl, rfl⟩

theorem inviteNotification_effect (s : Store) (m u b : String) (k : Nat) :
    (inviteNotification s m u b k).invitations = s.invitations ∧
    (inviteNotification s m u b k).boards = s.boards ∧
    (((inviteNotification s m u b k).notifications = s.notifications ∧
        (inviteNotification s m u b k).nextKey = s.nextKey) ∨
      ∃ n, n.type = "board_invitation" ∧ n.data.invitationId = some k ∧
        n.data.status = jsOr ((Invitation.findById s (some k)).map (·.status)) (some "pending") ∧
        n.recipientId = some m ∧
        (inviteNotification s m u b k).notifications = s.notifications ++ [(s.nextKey, n)] ∧
        (inviteNotification s m u b k).nextKey = s.nextKey + 1) := by
  unfold inviteNotification
  simp only
  split
  · obtain ⟨h1, h2, h3, h4, h5, h6, h7, h8⟩ := createBoardInvitationNotification_fields s m u b k
    exact ⟨h3, h4, Or.inr ⟨_, h5, h6, h8, h7, h1, h2⟩⟩
  · exact ⟨rfl, rfl, Or.inl ⟨rfl, rfl⟩⟩

theorem inviteMember_store (s : Store) (boardId : String) (body : InviteBody)
    (userId : String) :
    (inviteMember s boardId body userId).2 = s ∨
    ∃ board memberId memberEmail, Board.findById s boardId = some board ∧
      ((inviteMember s boardId body userId).2 =
          sendInvitationMail
            (Invitation.write s boardId board.ownerId memberId memberEmail).2
            memberEmail board.name userId ∨
       ∃ m, memberId = some m ∧ (inviteMember s boardId body userId).2 =
          inviteNotification
            (sendInvitationMail
              (Invitation.write s boardId board.ownerId memberId memberEmail).2
              memberEmail board.name userId)
            m userId board.name s.nextKey) := by
  unfold inviteMember
  simp only
  by_cases h0 : (!body.member_id.truthy && !body.memberEmail.truthy) = true
  · simp only [h0, ↓reduceIte, true_or]
  · simp only [h0, Bool.false_eq_true, ↓reduceIte]
    cases hB : Board.findById s boardId with
    | none => simp only [true_or]
    | some board =>
      simp only
      by_cases he : board.members.isEmpty = true
      · simp only [he, ↓reduceIte, true_or]
      · simp only [he, Bool.false_eq_true, ↓reduceIte]
        by_cases h1 : (!board.members.contains userId) = true
        · simp only [h1, ↓reduceIte, true_or]
        · simp only [h1, Bool.false_eq_true, ↓reduceIte]
          by_cases h2 : alreadyMember board
              (resolveMemberId s body.member_id body.memberEmail).toOption = true
          · simp only [h2, ↓reduceIte, true_or]
          · simp only [h2, Bool.false_eq_true, ↓reduceIte]
            by_cases h3 : existingInvitation s boardId
                (resolveMemberId s body.member_id body.memberEmail).toOption
                body.memberEmail.toOption = true
            · simp only [h3, ↓reduceIte, true_or]
            · simp only [h3, Bool.false_eq_true, ↓reduceIte]
              by_cases hu : resolveMemberId s body.member_id body.memberEmail = .undefined ∨
                  body.memberEmail = .undefined
              · obtain ⟨e, hc⟩ := Invitation.create_undefined s boardId board.ownerId _ _ hu
                simp only [hc, true_or]
              · have hi : resolveMemberId s body.member_id body.memberEmail ≠ .undefined :=
                  fun h => hu (Or.inl h)
                have hem : body.memberEmail ≠ .undefined := fun h => hu (Or.inr h)
                rw [Invitation.create_defined s boardId board.ownerId _ _ hi hem]
                right
                refine ⟨board, (resolveMemberId s body.member_id body.memberEmail).toOption,
                  body.memberEmail.toOption, rfl, ?_⟩
                cases hm : (resolveMemberId s body.member_id body.memberEmail).toOption with
                | none => exact Or.inl rfl
                | some m =>
                  simp only
                  split_ifs
                  · exact Or.inr ⟨m, rfl, rfl⟩
                  · exact Or.inl rfl

theorem inviteMember_effect (s t : Store) (boardId : String) (body : InviteBody)
    (userId : String) (ht : t = (inviteMember s boardId body userId).2)
    (hk : ∀ e ∈ s.invitations, e.1 < s.nextKey) :
    (t.invitations = s.invitations ∧ t.notifications = s.notifications ∧
      t.nextKey = s.nextKey ∧ t.boards = s.boards) ∨
    ∃ inv, inv.status = "pending" ∧ (s.boards.lookup inv.boardId).isSome = true ∧
      t.invitations = s.invitations ++ [(s.nextKey, inv)] ∧ t.boards = s.boards ∧
      ((t.notifications = s.notifications ∧ t.nextKey = s.nextKey + 1) ∨
       ∃ n, n.type = "board_invitation" ∧ n.data.invitationId = some s.nextKey ∧
         n.data.status = some "pending" ∧ n.recipientId = inv.memberId ∧
         t.notifications = s.notifications ++ [(s.nextKey + 1, n)] ∧
         t.nextKey = s.nextKey + 2) := by
  rcases inviteMember_store s boardId body userId with h | ⟨board, memberId, memberEmail, hB, h⟩
  · rw [h] at ht
    subst ht
    exact Or.inl ⟨rfl, rfl, rfl, rfl⟩
  · right
    refine ⟨⟨boardId, board.ownerId, memberId, memberEmail, "pending"⟩, rfl, ?_, ?_⟩
    · show (s.boards.lookup boardId).isSome = true
      unfold Board.findById at hB
      rw [hB]; rfl
    · obtain ⟨m1, m2, m3, m4⟩ := sendInvitationMail_fields
        (Invitation.write s boardId board.ownerId memberId memberEmail).2
        memberEmail board.name userId
      generalize sendInvitationMail
        (Invitation.write s boardId board.ownerId memberId memberEmail).2
        memberEmail board.name userId = s2 at m1 m2 m3 m4 h
      have c1 : (Invitation.write s boardId board.ownerId memberId memberEmail).2.invitations =
          s.invitations ++ [(s.nextKey, ⟨boardId, board.ownerId, memberId, memberEmail, "pending"⟩)] :=
        rfl
      have c2 : (Invitation.write s boardId board.ownerId memberId memberEmail).2.nextKey =
          s.nextKey + 1 := rfl
      have c3 : (Invitation.write s boardId board.ownerId memberId memberEmail).2.notifications =
          s.notifications := rfl
      have c4 : (Invitation.write s boardId board.ownerId memberId memberEmail).2.boards =
          s.boards := rfl
      rw [c1] at m1; rw [c2] at m3; rw [c3] at m2; rw [c4] at m4
      rcases h with h | ⟨m, hm, h⟩
      · rw [h] at ht; subst ht
        exact ⟨m1, m4, Or.inl ⟨m2, m3⟩⟩
      · rw [h] at ht; subst ht
        obtain ⟨e1, e2, e3⟩ := inviteNotification_effect s2 m userId board.name s.nextKey
        refine ⟨e1.trans m1, e2.trans m4, ?_⟩
        rcases e3 with ⟨e3, e4⟩ | ⟨n, n1, n2, n3, n4, n5, n6⟩
        · exact Or.inl ⟨e3.trans m2, e4.trans m3⟩
        · right
          refine ⟨n, n1, n2, ?_, by rw [n4, hm], by rw [n5, m2, m3], by rw [n6, m3]⟩
          rw [n3]
          unfold Invitation.findById
          simp only
          rw [m1, lookup_append_fresh _ _ _ _ hk, if_pos rfl]
          rfl

@[simp] theorem emitToBoardRoom_nextKey (s : Store) (b e : String) (d : Payload) :
    (emitToBoardRoom s b e d).nextKey = s.nextKey := by
  unfold emitToBoardRoom; split <;> rfl

@[simp] theorem emitToUser_nextKey (s : Store) (u e : String) (d : Payload) :
    (emitToUser s u e d).nextKey = s.nextKey := by
  unfold emitToUser; split <;> rfl

theorem findByUserId_window (s : Store) (U : String)
    (hwin : (s.notifications.filter (fun e => e.2.recipientId == some U)).length ≤ 50)
    (x : Nat × Notification) (hx : x ∈ s.notifications) (hr : x.2.recipientId = some U) :
    x ∈ Notification.findByUserId s U 50 := by
  unfold Notification.findByUserId
  simp only [List.mem_reverse]
  have h0 : (s.notifications.filter (fun e => e.2.recipientId == some U)).length - 50 = 0 := by
    omega
  rw [h0, List.drop_zero, List.mem_filter]
  exact ⟨hx, by simp [hr]⟩

theorem reconcileNotification_effect (s : Store) (k : Nat) (st U : String)
    (hst : st = "accepted" ∨ st = "declined")
    (hwin : (s.notifications.filter (fun e => e.2.recipientId == some U)).length ≤ 50) :
    (reconcileNotification s (some k) st U).invitations = s.invitations ∧
    (reconcileNotification s (some k) st U).boards = s.boards ∧
    (reconcileNotification s (some k) st U).nextKey = s.nextKey ∧
    (((reconcileNotification s (some k) st U).notifications = s.notifications ∧
        ∀ e ∈ s.notifications, e.2.recipientId = some U →
          isInvitationNotification e.2 = true → e.2.data.invitationId ≠ some k) ∨
      ∃ x ∈ s.notifications, isInvitationNotification x.2 = true ∧
        x.2.data.invitationId = some k ∧
        ∃ ty msg d, ((st = "accepted" ∧ ty = "board_invitation_accepted") ∨
            (st = "declined" ∧ ty = "board_invitation")) ∧
          d.invitationId = some k ∧ d.status = some st ∧
          (reconcileNotification s (some k) st U).notifications =
            (Notification.update s x.1 ty msg d true).notifications) := by
  refine ⟨reconcileNotification_invitations s _ st U, reconcileNotification_boards s _ st U,
    ?_, ?_⟩
  · unfold reconcileNotification
    simp only
    split
    · rfl
    · rcases hst with h | h <;> subst h <;> simp [Notification.update]
  · unfold reconcileNotification
    simp only
    split
    · rename_i hnone
      left
      refine ⟨rfl, ?_⟩
      intro e he hr hi hk
      have hmem := findByUserId_window s U hwin e he hr
      have := List.find?_eq_none.1 hnone e hmem
      simp only [isInvitationNotification] at hi
      simp [hi, hk] at this
    · rename_i x hx
      right
      have hxm := mem_of_mem_findByUserId s U 50 x (List.mem_of_find?_eq_some hx)
      have hp := List.find?_some hx
      simp only [Bool.and_eq_true, beq_iff_eq] at hp
      refine ⟨x, hxm.1, hp.1, hp.2, ?_⟩
      rcases hst with h | h
      · subst h
        refine ⟨"board_invitation_accepted", "You accepted the invitation to join \"board\"",
          ⟨some k, none, if truthy x.2.data.boardName then x.2.data.boardName else none,
            if truthy x.2.data.senderName then x.2.data.senderName else none,
            some "accepted", none⟩, Or.inl ⟨rfl, rfl⟩, rfl, rfl, ?_⟩
        simp
      · subst h
        refine ⟨"board_invitation", "You declined the invitation to join \"board\"",
          ⟨some k, none, if truthy x.2.data.boardName then x.2.data.boardName else none,
            if truthy x.2.data.senderName then x.2.data.senderName else none,
            some "declined", none⟩, Or.inr ⟨rfl, rfl⟩, rfl, rfl, ?_⟩
        simp

theorem updateStatus_respond (s : Store) (fid : Option Nat) (st U : String) (hU : U ≠ "")
    (hb : ∀ e ∈ s.invitations, (s.boards.lookup e.2.boardId).isSome = true) :
    (∃ e, Invitation.updateStatus s fid st (some U) = (.error e, s)) ∨
    Invitation.updateStatus s fid st (some U) = (.ok none, s) ∨
    ∃ k inv, fid = some k ∧ s.invitations.lookup k = some inv ∧ inv.memberId = some U ∧
      (Invitation.updateStatus s fid st (some U) =
          (.ok (some { inv with status := st }), Invitation.setStatus s k st) ∨
       ∃ ms, Invitation.updateStatus s fid st (some U) =
          (.ok (some { inv with status := st }),
           Board.setMembers (Invitation.setStatus s k st) inv.boardId ms)) := by
  unfold Invitation.updateStatus
  cases fid with
  | none => exact Or.inr (Or.inl rfl)
  | some k =>
    cases hI : Invitation.findById s (some k) with
    | none => exact Or.inr (Or.inl rfl)
    | some inv =>
      simp only
      have ht : truthy (some U) = true := by simp [truthy, hU]
      by_cases hm : inv.memberId = some U
      · have hg : ¬ (truthy (some U) && inv.memberId != some U) = true := by simp [hm]
        rw [if_neg hg]
        right; right
        refine ⟨k, inv, rfl, hI, hm, ?_⟩
        by_cases ha : (st == "accepted") = true
        · rw [if_pos ha]
          have hmem := mem_of_lookup_eq_some s.invitations k inv hI
          obtain ⟨board, hboard⟩ := Option.isSome_iff_exists.1 (hb (k, inv) hmem)
          have hB : Board.findById (Invitation.setStatus s k st) inv.boardId = some board :=
            hboard
          by_cases hc : board.members.contains U = true
          · left
            simp only [Board.addMember, hB, hm, hc, ↓reduceIte]
          · right
            refine ⟨board.members ++ [U], ?_⟩
            simp only [Board.addMember, hB, hm, hc, Bool.false_eq_true, ↓reduceIte]
        · rw [if_neg ha]
          exact Or.inl rfl
      · have hg : (truthy (some U) && inv.memberId != some U) = true := by
          simp [ht, hm]
        rw [if_pos hg]
        exact Or.inl ⟨_, rfl⟩

theorem isSome_lookup_setMembers (s : Store) (b0 : String) (ms : List String) (b : String)
    (h : (s.boards.lookup b).isSome = true) :
    ((Board.setMembers s b0 ms).boards.lookup b).isSome = true := by
  have := Board.findById_setMembers s b0 b ms
  unfold Board.findById at this
  rw [this]
  split_ifs
  · obtain ⟨v, hv⟩ := Option.isSome_iff_exists.1 h
    rw [hv]; rfl
  · exact h

theorem respondToInvitation_effect (s t : Store) (body : RespondBody) (U : String)
    (ht : t = (respondToInvitation s body U).2) (hU : U ≠ "")
    (hwin : (s.notifications.filter (fun e => e.2.recipientId == some U)).length ≤ 50)
    (hb : ∀ e ∈ s.invitations, (s.boards.lookup e.2.boardId).isSome = true) :
    (t.invitations = s.invitations ∧ t.notifications = s.notifications ∧
      t.nextKey = s.nextKey ∧ t.boards = s.boards) ∨
    ∃ k inv st, (st = "accepted" ∨ st = "declined") ∧ s.invitations.lookup k = some inv ∧
      inv.memberId = some U ∧
      t.invitations = (Invitation.setStatus s k st).invitations ∧ t.nextKey = s.nextKey ∧
      (∀ b, (s.boards.lookup b).isSome = true → (t.boards.lookup b).isSome = true) ∧
      ((t.notifications = s.notifications ∧
          ∀ e ∈ s.notifications, e.2.recipientId = some U →
            isInvitationNotification e.2 = true → e.2.data.invitationId ≠ some k) ∨
        ∃ x ∈ s.notifications, isInvitationNotification x.2 = true ∧
          x.2.data.invitationId = some k ∧
          ∃ ty msg d, ((st = "accepted" ∧ ty = "board_invitation_accepted") ∨
              (st = "declined" ∧ ty = "board_invitation")) ∧
            d.invitationId = some k ∧ d.status = some st ∧
            t.notifications = (Notification.update s x.1 ty msg d true).notifications) := by
  subst ht
  unfold respondToInvitation
  simp only
  by_cases hv : (!(body.status == "accepted" || body.status == "declined")) = true
  · simp only [hv, ↓reduceIte]
    exact Or.inl ⟨trivial, trivial, trivial, trivial⟩
  · simp only [hv, Bool.false_eq_true, ↓reduceIte]
    have hst : body.status = "accepted" ∨ body.status = "declined" := by
      by_cases ha : body.status = "accepted"
      · exact Or.inl ha
      · right; simpa [ha] using hv
    rcases updateStatus_respond s (body.invite_id <|> body.invitationId) body.status U hU hb
      with ⟨e, h⟩ | h | ⟨k, inv, hfid, hI, hm, h⟩
    · rw [h]; exact Or.inl ⟨rfl, rfl, rfl, rfl⟩
    · rw [h]; exact Or.inl ⟨rfl, rfl, rfl, rfl⟩
    · right
      refine ⟨k, inv, body.status, hst, hI, hm, ?_⟩
      rw [hfid] at h ⊢
      have key : ∀ s1 : Store, s1.invitations = (Invitation.setStatus s k body.status).invitations →
          s1.notifications = s.notifications → s1.nextKey = s.nextKey →
          (∀ b, (s.boards.lookup b).isSome = true → (s1.boards.lookup b).isSome = true) →
          ∀ s2 : Store, s2.invitations = s1.invitations → s2.notifications = s1.notifications →
            s2.nextKey = s1.nextKey → s2.boards = s1.boards →
          (reconcileNotification s2 (some k) body.status U).invitations =
              (Invitation.setStatus s k body.status).invitations ∧
            (reconcileNotification s2 (some k) body.status U).nextKey = s.nextKey ∧
            (∀ b, (s.boards.lookup b).isSome = true →
              ((reconcileNotification s2 (some k) body.status U).boards.lookup b).isSome = true) ∧
            (((reconcileNotification s2 (some k) body.status U).notifications = s.notifications ∧
                ∀ e ∈ s.notifications, e.2.recipientId = some U →
                  isInvitationNotification e.2 = true → e.2.data.invitationId ≠ some k) ∨
              ∃ x ∈ s.notifications, isInvitationNotification x.2 = true ∧
                x.2.data.invitationId = some k ∧
                ∃ ty msg d, ((body.status = "accepted" ∧ ty = "board_invitation_accepted") ∨
                    (body.status = "declined" ∧ ty = "board_invitation")) ∧
                  d.invitationId = some k ∧ d.status = some body.status ∧
                  (reconcileNotification s2 (some k) body.status U).notifications =
                    (Notification.update s x.1 ty msg d true).notifications) := by
        intro s1 i1 n1 k1 b1 s2 i2 n2 k2 b2
        have hn2 : s2.notifications = s.notifications := n2.trans n1
        obtain ⟨r1, r2, r3, r4⟩ := reconcileNotification_effect s2 k body.status U hst
          (by rw [hn2]; exact hwin)
        refine ⟨r1.trans (i2.trans i1), r3.trans (k2.trans k1), ?_, ?_⟩
        · intro b hbs; rw [r2, b2]; exact b1 b hbs
        · rw [hn2] at r4
          rcases r4 with ⟨r4, r5⟩ | ⟨x, hx, hx1, hx2, ty, msg, d, hty, hd1, hd2, hnn⟩
          · exact Or.inl ⟨r4, r5⟩
          · refine Or.inr ⟨x, hx, hx1, hx2, ty, msg, d, hty, hd1, hd2, ?_⟩
            rw [hnn]
            simp only [Notification.update, hn2]
      have emitf : ∀ (s1 : Store) (b : String),
          ((if (body.status == "accepted") = true then
              emitToBoardRoom s1 b "member_joined" (Payload.memberJoined b U)
            else s1).invitations = s1.invitations) ∧
          ((if (body.status == "accepted") = true then
              emitToBoardRoom s1 b "member_joined" (Payload.memberJoined b U)
            else s1).notifications = s1.notifications) ∧
          ((if (body.status == "accepted") = true then
              emitToBoardRoom s1 b "member_joined" (Payload.memberJoined b U)
            else s1).nextKey = s1.nextKey) ∧
          ((if (body.status == "accepted") = true then
              emitToBoardRoom s1 b "member_joined" (Payload.memberJoined b U)
            else s1).boards = s1.boards) := by
        intro s1 b
        split_ifs <;> simp
      rcases h with h | ⟨ms, h⟩
      · rw [h]
        simp only
        obtain ⟨e1, e2, e3, e4⟩ := emitf (Invitation.setStatus s k body.status) inv.boardId
        exact key (Invitation.setStatus s k body.status) rfl rfl rfl (fun b hbs => hbs)
          _ e1 e2 e3 e4
      · rw [h]
        simp only
        obtain ⟨e1, e2, e3, e4⟩ := emitf
          (Board.setMembers (Invitation.setStatus s k body.status) inv.boardId ms) inv.boardId
        exact key (Board.setMembers (Invitation.setStatus s k body.status) inv.boardId ms)
          rfl rfl rfl
          (fun b hbs => isSome_lookup_setMembers (Invitation.setStatus s k body.status)
            inv.boardId ms b hbs)
          _ e1 e2 e3 e4

theorem cancelInvitation_store (s : Store) (boardId : String) (k : Nat) (userId : String) :
    (cancelInvitation s boardId k userId).2 = s ∨
    (cancelInvitation s boardId k userId).2 = Invitation.setStatus s k "cancelled" := by
  unfold cancelInvitation
  cases Board.findById s boardId with
  | none => exact Or.inl rfl
  | some board =>
    simp only
    split_ifs
    · exact Or.inl rfl
    · cases hI : Invitation.findById s (some k) with
      | none => exact Or.inl rfl
      | some inv =>
        simp only
        split_ifs
        · exact Or.inl rfl
        · exact Or.inl rfl
        · rw [updateStatus_cancelled s k inv hI]
          exact Or.inr rfl

theorem mem_setStatus (s : Store) (k : Nat) (st : String) (e : Nat × Invitation)
    (he : e ∈ (Invitation.setStatus s k st).invitations) :
    ∃ e0 ∈ s.invitations, e.1 = e0.1 ∧ e.2.boardId = e0.2.boardId := by
  simp only [Invitation.setStatus, List.mem_map] at he
  obtain ⟨e0, h0, h1⟩ := he
  refine ⟨e0, h0, ?_⟩
  split_ifs at h1 <;> subst h1 <;> exact ⟨rfl, rfl⟩

theorem lookup_setStatus (s : Store) (k k' : Nat) (st : String) (inv' : Invitation)
    (h : (Invitation.setStatus s k st).invitations.lookup k' = some inv') :
    (k' = k ∧ ∃ inv, s.invitations.lookup k = some inv ∧ inv' = { inv with status := st }) ∨
    (k' ≠ k ∧ s.invitations.lookup k' = some inv') := by
  have h1 := Invitation.findById_setStatus s k k' st
  unfold Invitation.findById at h1
  simp only at h1
  rw [h1] at h
  by_cases hk : k' = k
  · left
    subst hk
    rw [if_pos rfl] at h
    cases hl : s.invitations.lookup k' with
    | none => rw [hl] at h; cases h
    | some inv =>
      rw [hl] at h
      simp only [Option.map_some', Option.some.injEq] at h
      exact ⟨rfl, inv, rfl, h.symm⟩
  · right
    rw [if_neg hk] at h
    exact ⟨hk, h⟩

theorem wellFormed_status_change (s t : Store) (k : Nat) (st : String) (h : WellFormed s)
    (hi : t.invitations = (Invitation.setStatus s k st).invitations)
    (hn : t.notifications = s.notifications) (hk : t.nextKey = s.nextKey)
    (hb : ∀ b, (s.boards.lookup b).isSome = true → (t.boards.lookup b).isSome = true) :
    WellFormed t := by
  constructor
  · intro e he
    rw [hi] at he
    obtain ⟨e0, h0, h1, _⟩ := mem_setStatus s k st e he
    rw [hk, h1]
    exact h.invitationKeys e0 h0
  · intro e he
    rw [hn] at he
    rw [hk]
    exact h.notificationKeys e he
  · rw [hn]
    exact h.keysFunctional
  · intro e he hinv k' hk'
    rw [hn] at he
    obtain ⟨r1, r2⟩ := h.references e he hinv k' hk'
    refine ⟨by rw [hk]; exact r1, ?_⟩
    intro inv' hl
    rw [hi] at hl
    rcases lookup_setStatus s k k' st inv' hl with ⟨hkk, inv, hl0, hinv'⟩ | ⟨_, hl0⟩
    · subst hkk
      rw [r2 inv hl0, hinv']
    · exact r2 inv' hl0
  · rw [hn]
    exact h.oneNotification
  · intro e he
    rw [hi] at he
    obtain ⟨e0, h0, _, h2⟩ := mem_setStatus s k st e he
    rw [h2]
    exact hb _ (h.boardsExist e0 h0)

theorem mirror_cancel (s t : Store) (k : Nat) (h : Mirror s)
    (hi : t.invitations = (Invitation.setStatus s k "cancelled").invitations)
    (hn : t.notifications = s.notifications) : Mirror t := by
  intro e he hty k' inv' hk' hl
  rw [hn] at he
  rw [hi] at hl
  rcases lookup_setStatus s k k' "cancelled" inv' hl with ⟨_, inv, _, hinv'⟩ | ⟨_, hl0⟩
  · left; rw [hinv']
  · exact h e he hty k' inv' hk' hl0

theorem mem_update (s : Store) (nid : Nat) (ty msg : String) (d : NotificationData)
    (e : Nat × Notification)
    (he : e ∈ (Notification.update s nid ty msg d true).notifications) :
    ∃ e0 ∈ s.notifications, e.1 = e0.1 ∧
      ((e0.1 = nid ∧ e.2 = { e0.2 with type := ty, message := msg, data := d, read := true }) ∨
       (e0.1 ≠ nid ∧ e = e0)) := by
  simp only [Notification.update, List.mem_map] at he
  obtain ⟨e0, h0, h1⟩ := he
  refine ⟨e0, h0, ?_⟩
  by_cases hk : e0.1 = nid
  · rw [if_pos hk] at h1
    subst h1
    exact ⟨rfl, Or.inl ⟨hk, rfl⟩⟩
  · rw [if_neg hk] at h1
    subst h1
    exact ⟨rfl, Or.inr ⟨hk, rfl⟩⟩

theorem wellFormed_rewrite (s t : Store) (x : Nat × Notification) (k : Nat) (ty msg : String)
    (d : NotificationData) (h : WellFormed s) (hx : x ∈ s.notifications)
    (hxi : isInvitationNotification x.2 = true) (hxk : x.2.data.invitationId = some k)
    (hd : d.invitationId = some k)
    (hi : t.invitations = s.invitations)
    (hn : t.notifications = (Notification.update s x.1 ty msg d true).notifications)
    (hk : t.nextKey = s.nextKey)
    (hb : ∀ b, (s.boards.lookup b).isSome = true → (t.boards.lookup b).isSome = true) :
    WellFormed t := by
  constructor
  · rw [hi, hk]; exact h.invitationKeys
  · intro e he
    rw [hn] at he
    obtain ⟨e0, h0, h1, _⟩ := mem_update s x.1 ty msg d e he
    rw [hk, h1]
    exact h.notificationKeys e0 h0
  · intro e he f hf hef
    rw [hn] at he hf
    obtain ⟨e0, he0, e1, e2⟩ := mem_update s x.1 ty msg d e he
    obtain ⟨f0, hf0, f1, f2⟩ := mem_update s x.1 ty msg d f hf
    have h00 : e0 = f0 := h.keysFunctional e0 he0 f0 hf0 (by rw [← e1, ← f1, hef])
    subst h00
    rcases e2 with ⟨a1, a2⟩ | ⟨a1, a2⟩ <;> rcases f2 with ⟨b1, b2⟩ | ⟨b1, b2⟩
    · exact Prod.ext hef (a2.trans b2.symm)
    · exact absurd a1 b1
    · exact absurd b1 a1
    · rw [a2, b2]
  · intro e he hinv k' hk'
    rw [hn] at he
    obtain ⟨e0, he0, _, e2⟩ := mem_update s x.1 ty msg d e he
    rw [hk, hi]
    rcases e2 with ⟨a1, a2⟩ | ⟨_, a2⟩
    · have hex : e0 = x := h.keysFunctional e0 he0 x hx a1
      subst hex
      rw [a2] at hk' ⊢
      simp only at hk' ⊢
      rw [hd] at hk'
      cases hk'
      exact h.references e0 he0 hxi k hxk
    · subst a2
      exact h.references e he0 hinv k' hk'
  · intro e he f hf hei hfi k' hek hfk
    rw [hn] at he hf
    obtain ⟨e0, he0, e1, e2⟩ := mem_update s x.1 ty msg d e he
    obtain ⟨f0, hf0, f1, f2⟩ := mem_update s x.1 ty msg d f hf
    rcases e2 with ⟨a1, a2⟩ | ⟨a1, a2⟩ <;> rcases f2 with ⟨b1, b2⟩ | ⟨b1, b2⟩
    · have h1 : e0 = x := h.keysFunctional e0 he0 x hx a1
      have h2 : f0 = x := h.keysFunctional f0 hf0 x hx b1
      subst h1; subst h2
      exact Prod.ext (e1.trans f1.symm) (a2.trans b2.symm)
    · subst b2
      rw [a2] at hek
      simp only at hek
      rw [hd] at hek
      cases hek
      have := h.oneNotification f hf0 x hx hfi hxi k hfk hxk
      exact absurd (congrArg Prod.fst this) b1
    · subst a2
      rw [b2] at hfk
      simp only at hfk
      rw [hd] at hfk
      cases hfk
      have := h.oneNotification e he0 x hx hei hxi k hek hxk
      exact absurd (congrArg Prod.fst this) a1
    · subst a2; subst b2
      exact h.oneNotification e he0 f hf0 hei hfi k' hek hfk
  · intro e he
    rw [hi] at he
    exact hb _ (h.boardsExist e he)

theorem isInvitationNotification_of_type (n : Notification) (h : n.type = "board_invitation") :
    isInvitationNotification n = true := by
  simp [isInvitationNotification, h]

theorem mirror_respond_none (s t : Store) (k : Nat) (st U : String) (inv : Invitation)
    (hw : WellFormed s) (h : Mirror s) (hI : s.invitations.lookup k = some inv)
    (hm : inv.memberId = some U)
    (hi : t.invitations = (Invitation.setStatus s k st).invitations)
    (hn : t.notifications = s.notifications)
    (hnone : ∀ e ∈ s.notifications, e.2.recipientId = some U →
      isInvitationNotification e.2 = true → e.2.data.invitationId ≠ some k) : Mirror t := by
  intro e he hty k' inv' hk' hl
  rw [hn] at he
  rw [hi] at hl
  have hei := isInvitationNotification_of_type e.2 hty
  rcases lookup_setStatus s k k' st inv' hl with ⟨hkk, _, _, _⟩ | ⟨_, hl0⟩
  · subst hkk
    have hr := (hw.references e he hei k' hk').2 inv hI
    exact absurd hk' (hnone e he (hr.trans hm) hei)
  · exact h e he hty k' inv' hk' hl0

theorem mirror_respond_found (s t : Store) (k : Nat) (st ty msg : String)
    (d : NotificationData) (x : Nat × Notification)
    (hw : WellFormed s) (h : Mirror s) (hx : x ∈ s.notifications)
    (hxi : isInvitationNotification x.2 = true) (hxk : x.2.data.invitationId = some k)
    (hd : d.invitationId = some k) (hds : d.status = some st)
    (hi : t.invitations = (Invitation.setStatus s k st).invitations)
    (hn : t.notifications = (Notification.update s x.1 ty msg d true).notifications) :
    Mirror t := by
  intro e he hte k' inv' hk' hl
  rw [hn] at he
  rw [hi] at hl
  obtain ⟨e0, he0, _, e2⟩ := mem_update s x.1 ty msg d e he
  rcases e2 with ⟨_, a2⟩ | ⟨a1, a2⟩
  · rw [a2] at hk' ⊢
    simp only at hk' ⊢
    rw [hd] at hk'
    cases hk'
    rcases lookup_setStatus s k k st inv' hl with ⟨_, inv, _, hinv'⟩ | ⟨hne, _⟩
    · right; rw [hinv', hds]
    · exact absurd rfl hne
  · subst a2
    have hei := isInvitationNotification_of_type e.2 hte
    rcases lookup_setStatus s k k' st inv' hl with ⟨hkk, _, _, _⟩ | ⟨_, hl0⟩
    · subst hkk
      have := hw.oneNotification e he0 x hx hei hxi k' hk' hxk
      exact absurd (congrArg Prod.fst this) a1
    · exact h e he0 hte k' inv' hk' hl0

theorem wellFormed_append_invitation (s t : Store) (inv : Invitation) (h : WellFormed s)
    (hbe : (s.boards.lookup inv.boardId).isSome = true)
    (hi : t.invitations = s.invitations ++ [(s.nextKey, inv)])
    (hn : t.notifications = s.notifications) (hk : t.nextKey = s.nextKey + 1)
    (hb : t.boards = s.boards) : WellFormed t := by
  constructor
  · intro e he
    rw [hi] at he
    rw [hk]
    rcases List.mem_append.1 he with h1 | h1
    · exact Nat.lt_succ_of_lt (h.invitationKeys e h1)
    · rw [List.mem_singleton.1 h1]; exact Nat.lt_succ_self _
  · intro e he
    rw [hn] at he
    rw [hk]
    exact Nat.lt_succ_of_lt (h.notificationKeys e he)
  · rw [hn]; exact h.keysFunctional
  · intro e he hinv k' hk'
    rw [hn] at he
    obtain ⟨r1, r2⟩ := h.references e he hinv k' hk'
    refine ⟨by rw [hk]; exact Nat.lt_succ_of_lt r1, ?_⟩
    intro inv' hl
    rw [hi, lookup_append_fresh _ _ _ _ h.invitationKeys, if_neg (Nat.ne_of_lt r1)] at hl
    exact r2 inv' hl
  · rw [hn]; exact h.oneNotification
  · intro e he
    rw [hi] at he
    rw [hb]
    rcases List.mem_append.1 he with h1 | h1
    · exact h.boardsExist e h1
    · rw [List.mem_singleton.1 h1]; exact hbe

theorem mirror_append_invitation (s t : Store) (inv : Invitation) (hw : WellFormed s)
    (h : Mirror s) (hi : t.invitations = s.invitations ++ [(s.nextKey, inv)])
    (hn : t.notifications = s.notifications) : Mirror t := by
  intro e he hty k' inv' hk' hl
  rw [hn] at he
  have r1 := (hw.references e he (isInvitationNotification_of_type e.2 hty) k' hk').1
  rw [hi, lookup_append_fresh _ _ _ _ hw.invitationKeys, if_neg (Nat.ne_of_lt r1)] at hl
  exact h e he hty k' inv' hk' hl

theorem wellFormed_append_notification (s t : Store) (n : Notification) (k : Nat)
    (h : WellFormed s) (hnk : n.data.invitationId = some k) (hlt : k < s.nextKey)
    (hrec : ∀ inv, s.invitations.lookup k = some inv → n.recipientId = inv.memberId)
    (hnew : ∀ e ∈ s.notifications, isInvitationNotification e.2 = true →
      e.2.data.invitationId ≠ some k)
    (hi : t.invitations = s.invitations)
    (hn : t.notifications = s.notifications ++ [(s.nextKey, n)])
    (hk : t.nextKey = s.nextKey + 1) (hb : t.boards = s.boards) : WellFormed t := by
  constructor
  · intro e he
    rw [hi] at he
    rw [hk]
    exact Nat.lt_succ_of_lt (h.invitationKeys e he)
  · intro e he
    rw [hn] at he
    rw [hk]
    rcases List.mem_append.1 he with h1 | h1
    · exact Nat.lt_succ_of_lt (h.notificationKeys e h1)
    · rw [List.mem_singleton.1 h1]; exact Nat.lt_succ_self _
  · intro e he f hf hef
    rw [hn] at he hf
    rcases List.mem_append.1 he with h1 | h1 <;> rcases List.mem_append.1 hf with h2 | h2
    · exact h.keysFunctional e h1 f h2 hef
    · rw [List.mem_singleton.1 h2] at hef
      exact absurd hef (Nat.ne_of_lt (h.notificationKeys e h1))
    · rw [List.mem_singleton.1 h1] at hef
      exact absurd hef.symm (Nat.ne_of_lt (h.notificationKeys f h2))
    · rw [List.mem_singleton.1 h1, List.mem_singleton.1 h2]
  · intro e he hinv k' hk'
    rw [hn] at he
    rw [hk, hi]
    rcases List.mem_append.1 he with h1 | h1
    · obtain ⟨r1, r2⟩ := h.references e h1 hinv k' hk'
      exact ⟨Nat.lt_succ_of_lt r1, r2⟩
    · rw [List.mem_singleton.1 h1] at hk' ⊢
      simp only at hk' ⊢
      rw [hnk] at hk'
      cases hk'
      exact ⟨Nat.lt_succ_of_lt hlt, hrec⟩
  · intro e he f hf hei hfi k' hek hfk
    rw [hn] at he hf
    rcases List.mem_append.1 he with h1 | h1 <;> rcases List.mem_append.1 hf with h2 | h2
    · exact h.oneNotification e h1 f h2 hei hfi k' hek hfk
    · rw [List.mem_singleton.1 h2] at hfk
      simp only at hfk
      rw [hnk] at hfk
      cases hfk
      exact absurd hek (hnew e h1 hei)
    · rw [List.mem_singleton.1 h1] at hek
      simp only at hek
      rw [hnk] at hek
      cases hek
      exact absurd hfk (hnew f h2 hfi)
    · rw [List.mem_singleton.1 h1, List.mem_singleton.1 h2]
  · intro e he
    rw [hi] at he
    rw [hb]
    exact h.boardsExist e he

theorem mirror_append_notification (s t : Store) (n : Notification) (key : Nat) (h : Mirror s)
    (hnew : n.type = "board_invitation" → ∀ k inv, n.data.invitationId = some k →
      s.invitations.lookup k = some inv → inv.status = "cancelled" ∨ n.data.status = some inv.status)
    (hi : t.invitations = s.invitations)
    (hn : t.notifications = s.notifications ++ [(key, n)]) : Mirror t := by
  intro e he hty k' inv' hk' hl
  rw [hn] at he
  rw [hi] at hl
  rcases List.mem_append.1 he with h1 | h1
  · exact h e h1 hty k' inv' hk' hl
  · rw [List.mem_singleton.1 h1] at hty hk' ⊢
    exact hnew hty k' inv' hk' hl

theorem wellFormed_congr (s t : Store) (h : WellFormed s) (hi : t.invitations = s.invitations)
    (hn : t.notifications = s.notifications) (hk : t.nextKey = s.nextKey)
    (hb : t.boards = s.boards) : WellFormed t := by
  constructor
  · rw [hi, hk]; exact h.invitationKeys
  · rw [hn, hk]; exact h.notificationKeys
  · rw [hn]; exact h.keysFunctional
  · rw [hn, hi, hk]; exact h.references
  · rw [hn]; exact h.oneNotification
  · rw [hi, hb]; exact h.boardsExist

theorem mirror_congr (s t : Store) (h : Mirror s) (hi : t.invitations = s.invitations)
    (hn : t.notifications = s.notifications) : Mirror t := by
  unfold Mirror
  rw [hi, hn]
  exact h

theorem step_invite (s : Store) (boardId : String) (body : InviteBody) (userId : String)
    (hw : WellFormed s) (hm : Mirror s) :
    WellFormed (inviteMember s boardId body userId).2 ∧
      Mirror (inviteMember s boardId body userId).2 := by
  generalize ht : (inviteMember s boardId body userId).2 = t
  rcases inviteMember_effect s t boardId body userId ht.symm hw.invitationKeys with
    ⟨hi, hn, hk, hb⟩ | ⟨inv, hp, hbe, hi, hb, ⟨hn, hk⟩ | ⟨n, _, n2, n3, n4, hn, hk⟩⟩
  · exact ⟨wellFormed_congr s t hw hi hn hk hb, mirror_congr s t hm hi hn⟩
  · exact ⟨wellFormed_append_invitation s t inv hw hbe hi hn hk hb,
      mirror_append_invitation s t inv hw hm hi hn⟩
  · have hw1 : WellFormed { t with notifications := s.notifications, nextKey := s.nextKey + 1 } :=
      wellFormed_append_invitation s _ inv hw hbe hi rfl rfl hb
    have hm1 : Mirror { t with notifications := s.notifications, nextKey := s.nextKey + 1 } :=
      mirror_append_invitation s _ inv hw hm hi rfl
    have hl : ∀ inv', t.invitations.lookup s.nextKey = some inv' → inv' = inv := by
      intro inv' h
      rw [hi, lookup_append_fresh _ _ _ _ hw.invitationKeys, if_pos rfl] at h
      cases h; rfl
    refine ⟨wellFormed_append_notification _ t n s.nextKey hw1 n2 (Nat.lt_succ_self _) ?_ ?_
      rfl hn hk rfl, mirror_append_notification _ t n (s.nextKey + 1) hm1 ?_ rfl hn⟩
    · intro inv' h
      rw [hl inv' h]
      exact n4
    · intro e he hei hek
      exact absurd (hw.references e he hei s.nextKey hek).1 (Nat.lt_irrefl _)
    · intro _ k inv' hk' h
      rw [n2] at hk'
      cases hk'
      rw [hl inv' h, n3, hp]
      exact Or.inr rfl

theorem step_respond (s : Store) (body : RespondBody) (U : String) (hU : U ≠ "")
    (hwin : (s.notifications.filter (fun e => e.2.recipientId == some U)).length ≤ 50)
    (hw : WellFormed s) (hm : Mirror s) :
    WellFormed (respondToInvitation s body U).2 ∧ Mirror (respondToInvitation s body U).2 := by
  generalize ht : (respondToInvitation s body U).2 = t
  rcases respondToInvitation_effect s t body U ht.symm hU hwin hw.boardsExist with
    ⟨hi, hn, hk, hb⟩ | ⟨k, inv, st, _, hI, hmem, hi, hk, hb, ⟨hn, hnone⟩ |
      ⟨x, hx, hxi, hxk, ty, msg, d, _, hd, hds, hn⟩⟩
  · exact ⟨wellFormed_congr s t hw hi hn hk hb, mirror_congr s t hm hi hn⟩
  · exact ⟨wellFormed_status_change s t k st hw hi hn hk hb,
      mirror_respond_none s t k st U inv hw hm hI hmem hi hn hnone⟩
  · have hw1 : WellFormed { t with notifications := s.notifications } :=
      wellFormed_status_change s _ k st hw hi rfl hk hb
    exact ⟨wellFormed_rewrite _ t x k ty msg d hw1 hx hxi hxk hd rfl hn rfl (fun _ h => h),
      mirror_respond_found s t k st ty msg d x hw hm hx hxi hxk hd hds hi hn⟩

theorem step_cancel (s : Store) (boardId : String) (k : Nat) (userId : String)
    (hw : WellFormed s) (hm : Mirror s) :
    WellFormed (cancelInvitation s boardId k userId).2 ∧
      Mirror (cancelInvitation s boardId k userId).2 := by
  rcases cancelInvitation_store s boardId k userId with h | h
  · rw [h]; exact ⟨hw, hm⟩
  · rw [h]
    exact ⟨wellFormed_status_change s _ k "cancelled" hw rfl rfl rfl (fun _ h => h),
      mirror_cancel s _ k hm rfl rfl⟩

theorem step_op (s : Store) (op : Op) (hadm : op.admissible s = true) (hw : WellFormed s)
    (hm : Mirror s) : WellFormed (op.run s) ∧ Mirror (op.run s) := by
  cases op with
  | invite boardId body userId => exact step_invite s boardId body userId hw hm
  | respond body userId =>
    simp only [Op.admissible, Bool.and_eq_true, bne_iff_ne, ne_eq, decide_eq_true_eq] at hadm
    exact step_respond s body userId hadm.1 hadm.2 hw hm
  | cancel boardId k userId => exact step_cancel s boardId k userId hw hm

theorem run_ops (ops : List Op) : ∀ s : Store, admissibleRun s ops = true → WellFormed s →
    Mirror s → WellFormed (runOps s ops) ∧ Mirror (runOps s ops) := by
  induction ops with
  | nil => intro s _ hw hm; exact ⟨hw, hm⟩
  | cons op ops ih =>
    intro s hadm hw hm
    simp only [admissibleRun, Bool.and_eq_true] at hadm
    obtain ⟨hw1, hm1⟩ := step_op s op hadm.1 hw hm
    exact ih (op.run s) hadm.2 hw1 hm1

/-- C12 (amended): in every state reached from a store without invitations and
notifications by a sequence of `inviteMember`, `respondToInvitation` and
`cancelInvitation` requests executed one after the other, in which a responding
user has a non-empty id and at most 50 notifications when responding, each
notification of type `board_invitation` whose `data.invitationId` names an
existing invitation carries that invitation's current status in `data.status`,
unless the invitation is `cancelled`. -/
theorem notification_status_mirrors (s0 : Store) (ops : List Op)
    (hi : s0.invitations = []) (hn : s0.notifications = [])
    (hadm : admissibleRun s0 ops = true) :
    ∀ e ∈ (runOps s0 ops).notifications, e.2.type = "board_invitation" →
      ∀ k inv, e.2.data.invitationId = some k →
        Invitation.findById (runOps s0 ops) (some k) = some inv →
        inv.status = "cancelled" ∨ e.2.data.status = some inv.status := by
  have hw : WellFormed s0 := by
    constructor <;> simp [hi, hn]
  have hm : Mirror s0 := by
    intro e he
    rw [hn] at he
    exact absurd he (List.not_mem_nil e)
  exact (run_ops ops s0 hadm hw hm).2

/-! ## Evaluations at concrete states, continued -/

/-- Witness for C11: `u2` accepts invitation 3 in `notifiedStore`; notification 4
is rewritten. -/
theorem accepted_notification_rewritten_witness :
    ∃ r, Notification.findById
        (respondToInvitation notifiedStore ⟨some 3, none, "accepted"⟩ "u2").2 4 = some r ∧
      r.type = "board_invitation_accepted" ∧ r.read = true ∧
      r.data.status = some "accepted" ∧ r.data.invitationId = some 3 ∧
      (truthy (some "Sprint") = true → r.data.boardName = some "Sprint") ∧
      (truthy (some "Olga") = true → r.data.senderName = some "Olga") :=
  accepted_notification_rewritten notifiedStore ⟨some 3, none, "accepted"⟩ "u2"
    ⟨"b1", "o1", some "u2", none, "accepted"⟩ 4
    { type := "board_invitation", title := "Board Invitation",
      message := "Olga invited you to join \"Sprint\"",
      data := ⟨some 3, none, some "Sprint", some "Olga", some "pending", none⟩,
      recipientId := some "u2", senderId := some "o1", boardId := none,
      cardId := none, taskId := none, read := false }
    rfl rfl (by decide)

/-- Counterexample for C12: from `freshStore` the owner invites `a1` (invitation
0, notification 1) and then cancels the invitation; the notification is still
of type `board_invitation` and still says `pending` while the invitation is
`cancelled`. -/
theorem cancelled_invitation_keeps_pending_notification :
    (Invitation.findById (runOps freshStore cancelRun) (some 0)).map (·.status) =
      some "cancelled" ∧
    (Notification.findById (runOps freshStore cancelRun) 1).map (·.type) =
      some "board_invitation" ∧
    (Notification.findById (runOps freshStore cancelRun) 1).map (·.data.invitationId) =
      some (some 0) ∧
    (Notification.findById (runOps freshStore cancelRun) 1).map (·.data.status) =
      some (some "pending") := by
  decide

/-- Witness for C13: `u2` deletes notification 4 in `notifiedStore`. -/
theorem delete_pending_notification_declines_witness :
    (deleteNotification notifiedStore 4 "u2").1 = Response.ok "Notification deleted" ∧
    Invitation.findById (deleteNotification notifiedStore 4 "u2").2 (some 3) =
      some ⟨"b1", "o1", some "u2", none, "declined"⟩ ∧
    Notification.findById (deleteNotification notifiedStore 4 "u2").2 4 = none :=
  delete_pending_notification_declines notifiedStore 4 "u2"
    { type := "board_invitation", title := "Board Invitation",
      message := "Olga invited you to join \"Sprint\"",
      data := ⟨some 3, none, some "Sprint", some "Olga", some "pending", none⟩,
      recipientId := some "u2", senderId := some "o1", boardId := none,
      cardId := none, taskId := none, read := false }
    3 ⟨"b1", "o1", some "u2", none, "pending"⟩ (by decide) rfl rfl rfl (Or.inr rfl)
    (by decide) rfl rfl

/-- Witness for C14: `u2` deletes notification 4 after the owner cancelled
invitation 3; the notification still says `pending`. -/
theorem delete_notification_of_processed_invitation_witness :
    (deleteNotification cancelledStore 4 "u2").2.invitations = cancelledStore.invitations ∧
    (deleteNotification cancelledStore 4 "u2").2.boards = cancelledStore.boards :=
  delete_notification_of_processed_invitation cancelledStore 4 "u2" (by
    intro n inv hn hI
    have h1 : Notification.findById cancelledStore 4 = some
        { type := "board_invitation", title := "Board Invitation",
          message := "Olga invited you to join \"Sprint\"",
          data := ⟨some 3, none, some "Sprint", some "Olga", some "pending", none⟩,
          recipientId := some "u2", senderId := some "o1", boardId := none,
          cardId := none, taskId := none, read := false } := by decide
    rw [h1] at hn
    cases hn
    have h2 : Invitation.findById cancelledStore (some 3) =
        some ⟨"b1", "o1", some "u2", none, "cancelled"⟩ := by decide
    change Invitation.findById cancelledStore (some 3) = some inv at hI
    rw [h2] at hI
    cases hI
    decide)

/-- C15: the owner invites `u2` by id (with `email: null`) in `sprintStore`.
When the read of the invitee's notifications throws, or the inviter lookup of
the notification step throws, the answer is the 500 failure although
invitation 3 has been created; when only the mail step or the notification
creation throws (here with the address of `u2` as `email`) the answer is 200. -/
theorem invite_fails_after_create :
    (inviteMemberWith ⟨false, false, false, true, false⟩ sprintStore "b1"
        ⟨.str "u2", .undefined, .null⟩ "o1").1 =
      Response.fail 500 "Failed to invite member" none ∧
    (inviteMemberWith ⟨false, false, false, true, false⟩ sprintStore "b1"
        ⟨.str "u2", .undefined, .null⟩ "o1").2.invitations =
      sprintStore.invitations ++ [(3, ⟨"b1", "o1", some "u2", none, "pending"⟩)] ∧
    (inviteMemberWith ⟨false, false, true, false, false⟩ sprintStore "b1"
        ⟨.str "u2", .undefined, .null⟩ "o1").1 =
      Response.fail 500 "Failed to invite member" none ∧
    (inviteMemberWith ⟨false, false, true, false, false⟩ sprintStore "b1"
        ⟨.str "u2", .undefined, .null⟩ "o1").2.invitations =
      sprintStore.invitations ++ [(3, ⟨"b1", "o1", some "u2", none, "pending"⟩)] ∧
    (inviteMemberWith ⟨true, true, false, false, true⟩ sprintStore "b1"
        ⟨.str "u2", .undefined, .str "udo@x.io"⟩ "o1").1 =
      Response.ok "Invitation sent successfully" := by
  decide

/-- Witness for C16: `u1` accepts invitation 0, once in `sprintStore` (no
notification) with no call throwing and once in `sprintNotified` (a matching
notification) with every notification call throwing; the answer is the 200
success, the invitation is `accepted` and `u1` is a member of `b1`.  Likewise
when `u1` declines with every notification call throwing. -/
theorem respond_independent_of_notifications_witness :
    ((respondToInvitationWith ReconcileFaults.none sprintStore
        ⟨some 0, none, "accepted"⟩ "u1").1 = Response.ok "Invitation accepted successfully" ∧
     (respondToInvitationWith ⟨true, true, true⟩ sprintNotified
        ⟨some 0, none, "accepted"⟩ "u1").1 =
      (respondToInvitationWith ReconcileFaults.none sprintStore
        ⟨some 0, none, "accepted"⟩ "u1").1 ∧
     Board.findById (respondToInvitationWith ⟨true, true, true⟩ sprintNotified
        ⟨some 0, none, "accepted"⟩ "u1").2 "b1" = some ⟨"Sprint", "o1", ["o1", "m1", "u1"]⟩ ∧
     (respondToInvitationWith ReconcileFaults.none sprintStore
        ⟨some 0, none, "accepted"⟩ "u1").2.emitted.filter
          (fun e => e.event == "notification_updated") =
      sprintStore.emitted.filter (fun e => e.event == "notification_updated")) ∧
    ((respondToInvitationWith ⟨true, true, true⟩ sprintNotified
        ⟨some 0, none, "declined"⟩ "u1").1 = Response.ok "Invitation declined successfully" ∧
     Invitation.findById (respondToInvitationWith ⟨true, true, true⟩ sprintNotified
        ⟨some 0, none, "declined"⟩ "u1").2 (some 0) =
      some ⟨"b1", "o1", some "u1", some "uma@x.io", "declined"⟩) :=
  have h := respond_independent_of_notifications ReconcileFaults.none ⟨true, true, true⟩
    sprintStore sprintNotified ⟨some 0, none, "accepted"⟩ "u1" 0
    ⟨"b1", "o1", some "u1", some "uma@x.io", "pending"⟩ ⟨"Sprint", "o1", ["o1", "m1"]⟩
    rfl rfl (Or.inl rfl) rfl rfl rfl rfl
  have hd := respond_independent_of_notifications ⟨true, true, true⟩ ReconcileFaults.none
    sprintNotified sprintStore ⟨some 0, none, "declined"⟩ "u1" 0
    ⟨"b1", "o1", some "u1", some "uma@x.io", "pending"⟩ ⟨"Sprint", "o1", ["o1", "m1"]⟩
    rfl rfl (Or.inr rfl) rfl rfl rfl rfl
  ⟨⟨h.1, h.2.2.2.2.1, by decide, h.2.2.2.2.2.2.2 (fun e he => absurd he (List.not_mem_nil e))⟩,
   ⟨hd.1, hd.2.1⟩⟩

/-- C17: through the routes as mounted, `u1` fetches the member list of `b1` and
the 200 answer is stored under the bare URL; when `u2` then fetches the same
URL within the TTL, the payload cached for `u1` is served without calling
`next()`.  Also, two different (URL, user id) pairs can give the same key. -/
theorem cached_response_served_to_other_user :
    (mountedRoute sampleEnv sampleVerifiers sampleHandler cacheManager 1000 1005
        (getMembers "tok-u1")).1.body = some "members of b1 as shown to u1" ∧
    afterFirstGet.cache.map (·.1) = ["/api/boards/b1/members"] ∧
    (mountedRoute sampleEnv sampleVerifiers sampleHandler afterFirstGet 2000 2005
        (getMembers "tok-u2")).1.body = some "members of b1 as shown to u1" ∧
    (mountedRoute sampleEnv sampleVerifiers sampleHandler afterFirstGet 2000 2005
        (getMembers "tok-u2")).2.1 = false ∧
    (mountedRoute sampleEnv sampleVerifiers sampleHandler cacheManager 2000 2005
        (getMembers "tok-u2")).1.body = some "members of b1 as shown to u2" ∧
    cacheKey ⟨"GET", "/a", some "bc", none, none⟩ =
      cacheKey ⟨"GET", "/ab", some "c", none, none⟩ := by
  decide

/-- Witness for C18: the second GET of the member list 995 ms after the first
answer was stored. -/
theorem cache_serves_within_ttl_witness :
    serve sampleEnv
        (serve sampleEnv cacheManager 1000 1005 (membersReq none none)
          (fun _ => sampleHandler "u1")).2.2
        2000 2005 (membersReq none none) (fun _ => sampleHandler "u2") =
      (⟨200, some (setCacheHeaders (generateETag sampleEnv "members of b1 as shown to u1")
          (sampleEnv.toUTCString 1005) (maxAgeOf cacheManager)),
        some "members of b1 as shown to u1"⟩, false,
       (serve sampleEnv cacheManager 1000 1005 (membersReq none none)
          (fun _ => sampleHandler "u1")).2.2) :=
  (cache_serves_within_ttl sampleEnv cacheManager 1000 1005 2000 2005 (membersReq none none)
    (membersReq none none) "members of b1 as shown to u1" (fun _ => sampleHandler "u1")
    (fun _ => sampleHandler "u2") (by decide) (by decide) rfl rfl rfl rfl).1 (by decide)

/-- Witness for C19: a GET of the member list that carries the stored ETag. -/
theorem etag_match_not_modified_witness :
    serve sampleEnv afterFirstGet 2000 2005
        (membersReq (some "\"members of b1 as shown to u1\"") none)
        (fun _ => sampleHandler "u2") =
      (⟨304, some (setCacheHeaders "\"members of b1 as shown to u1\""
          "Thu, 01 Jan 1970 00:00:00 GMT" (maxAgeOf afterFirstGet)), none⟩, false,
       afterFirstGet) :=
  (etag_match_not_modified sampleEnv afterFirstGet (by decide)).2.2.2 2000 2005
    (membersReq (some "\"members of b1 as shown to u1\"") none) (fun _ => sampleHandler "u2")
    ⟨"members of b1 as shown to u1", "\"members of b1 as shown to u1\"",
      "Thu, 01 Jan 1970 00:00:00 GMT", 1005⟩
    rfl (by decide) (by decide) rfl

/-- Witness for C20 (amended): a GET of the member list with another ETag and
an `If-Modified-Since` later than the entry's last-modified time is answered 304
with the three headers; the same GET without `If-Modified-Since` gets the
payload with status 200 and the three headers. -/
theorem conditional_fallback_witness :
    serve sampleEnv afterFirstGet 2000 2005 (membersReq (some "\"other\"") (some "later"))
        (fun _ => sampleHandler "u2") =
      (⟨304, some ⟨30, some "\"members of b1 as shown to u1\"",
          some "Thu, 01 Jan 1970 00:00:00 GMT"⟩, none⟩, false, afterFirstGet) ∧
    ((serve sampleEnv afterFirstGet 2000 2005 (membersReq (some "\"other\"") none)
        (fun _ => sampleHandler "u2")).1.headers =
      some ⟨30, some "\"members of b1 as shown to u1\"",
        some "Thu, 01 Jan 1970 00:00:00 GMT"⟩ ∧
     (serve sampleEnv afterFirstGet 2000 2005 (membersReq (some "\"other\"") none)
        (fun _ => sampleHandler "u2")).1.status = 200 ∧
     (serve sampleEnv afterFirstGet 2000 2005 (membersReq (some "\"other\"") none)
        (fun _ => sampleHandler "u2")).1.body = some "members of b1 as shown to u1") :=
  have h := (conditional_fallback sampleEnv afterFirstGet 2000 2005
    (membersReq (some "\"other\"") none) (fun _ => sampleHandler "u2")
    ⟨"members of b1 as shown to u1", "\"members of b1 as shown to u1\"",
      "Thu, 01 Jan 1970 00:00:00 GMT", 1005⟩
    (by decide) rfl (by decide) (by decide) (by decide) (by decide)
    (Or.inr (by decide))).2.2 (by decide)
  ⟨(conditional_fallback sampleEnv afterFirstGet 2000 2005
    (membersReq (some "\"other\"") (some "later")) (fun _ => sampleHandler "u2")
    ⟨"members of b1 as shown to u1", "\"members of b1 as shown to u1\"",
      "Thu, 01 Jan 1970 00:00:00 GMT", 1005⟩
    (by decide) rfl (by decide) (by decide) (by decide) (by decide)
    (Or.inr (by decide))).2.1 (by decide),
   h.2.1, h.2.2.1 (by decide)⟩

/-- C20 as claimed fails: on an unexpired entry, for a GET with
`If-None-Match: *`, or with the weak form of the entry's ETag, and without
`If-Modified-Since`, `handleConditionalRequest` reports no 304, and yet the
answer is a 304 without a body: Express's `res.json` finds the request fresh. -/
theorem wildcard_if_none_match_answered_304 :
    afterFirstGet.cache.lookup (cacheKey (membersReq (some "*") none)) =
      some ⟨"members of b1 as shown to u1", "\"members of b1 as shown to u1\"",
        "Thu, 01 Jan 1970 00:00:00 GMT", 1005⟩ ∧
    (handleConditionalRequest sampleEnv (membersReq (some "*") none)
      ⟨"members of b1 as shown to u1", "\"members of b1 as shown to u1\"",
        "Thu, 01 Jan 1970 00:00:00 GMT", 1005⟩).shouldReturn304 = false ∧
    serve sampleEnv afterFirstGet 2000 2005 (membersReq (some "*") none)
        (fun _ => sampleHandler "u2") =
      (⟨304, some ⟨30, some "\"members of b1 as shown to u1\"",
          some "Thu, 01 Jan 1970 00:00:00 GMT"⟩, none⟩, false, afterFirstGet) ∧
    (handleConditionalRequest sampleEnv
      (membersReq (some "W/\"members of b1 as shown to u1\"") none)
      ⟨"members of b1 as shown to u1", "\"members of b1 as shown to u1\"",
        "Thu, 01 Jan 1970 00:00:00 GMT", 1005⟩).shouldReturn304 = false ∧
    serve sampleEnv afterFirstGet 2000 2005
        (membersReq (some "W/\"members of b1 as shown to u1\"") none)
        (fun _ => sampleHandler "u2") =
      (⟨304, some ⟨30, some "\"members of b1 as shown to u1\"",
          some "Thu, 01 Jan 1970 00:00:00 GMT"⟩, none⟩, false, afterFirstGet) := by
  decide

/-- Witness for C12 (amended): the run `declineRun` from `freshStore` meets the
side conditions, and afterwards the one notification says `declined`. -/
theorem notification_status_mirrors_witness :
    (runOps freshStore declineRun).notifications.map
        (fun e => (e.2.type, e.2.data.invitationId, e.2.data.status)) =
      [("board_invitation", some 0, some "declined")] ∧
    ∀ e ∈ (runOps freshStore declineRun).notifications, e.2.type = "board_invitation" →
      ∀ k inv, e.2.data.invitationId = some k →
        Invitation.findById (runOps freshStore declineRun) (some k) = some inv →
        inv.status = "cancelled" ∨ e.2.data.status = some inv.status :=
  ⟨by decide, notification_status_mirrors freshStore declineRun rfl rfl (by decide)⟩



/-! ## The cache map: storing, eviction and cleanup -/

/-- The constructor never leaves `maxSize` at 0: `options.maxSize || 1000`. -/
theorem CacheManager.new_maxSize_pos (duration : Option Int) (maxSize : Option Nat) :
    1 ≤ (CacheManager.new duration maxSize).maxSize := by
  cases maxSize with
  | none =>
    show 1 ≤ 1000
    omega
  | some m =>
    show 1 ≤ (if m = 0 then 1000 else m)
    split <;> omega

theorem mapSet_absent (m : List (String × CacheEntry)) (key : String) (v : CacheEntry)
    (h : m.lookup key = none) : mapSet m key v = m ++ [(key, v)] := by
  unfold mapSet
  rw [h]
  rfl

theorem mapSet_keys (m : List (String × CacheEntry)) (key : String) (v : CacheEntry)
    (h : (m.lookup key).isSome = true) :
    (mapSet m key v).map Prod.fst = m.map Prod.fst := by
  unfold mapSet
  rw [if_pos h, List.map_map]
  apply List.map_congr_left
  intro e _
  by_cases he : e.1 = key
  · simp [he]
  · simp [he]

theorem length_mapSet_le (m : List (String × CacheEntry)) (key : String) (v : CacheEntry) :
    (mapSet m key v).length ≤ m.length + 1 := by
  unfold mapSet
  split
  · simp
  · simp

theorem lookup_tail_none (m : List (String × CacheEntry)) (key : String)
    (h : m.lookup key = none) : m.tail.lookup key = none := by
  cases m with
  | nil => rfl
  | cons e rest =>
    obtain ⟨k, v⟩ := e
    rw [List.lookup_cons] at h
    by_cases hk : key == k
    · rw [hk] at h
      cases h
    · simp only [hk] at h
      exact h

theorem cachedJson_not_200 (env : CacheEnv) (cm : CacheManager) (now : Int) (key : String)
    (statusCode : Nat) (data : String) (h : statusCode ≠ 200) :
    cachedJson env cm now key statusCode data = (⟨statusCode, none, some data⟩, cm) := by
  unfold cachedJson
  have h2 : (statusCode == 200) = false := by simpa using h
  rw [h2]
  rfl

theorem cachedJson_maxSize (env : CacheEnv) (cm : CacheManager) (now : Int) (key : String)
    (statusCode : Nat) (data : String) :
    (cachedJson env cm now key statusCode data).2.maxSize = cm.maxSize := by
  unfold cachedJson
  split <;> rfl

theorem cachedJson_length (env : CacheEnv) (cm : CacheManager) (now : Int) (key : String)
    (statusCode : Nat) (data : String) (hpos : 1 ≤ cm.maxSize)
    (hsize : cm.cache.length ≤ cm.maxSize) :
    (cachedJson env cm now key statusCode data).2.cache.length ≤ cm.maxSize := by
  unfold cachedJson
  split
  · show (mapSet _ key _).length ≤ cm.maxSize
    refine le_trans (length_mapSet_le _ _ _) ?_
    split
    · rw [List.length_tail]
      omega
    · omega
  · exact hsize

theorem serve_store (env : CacheEnv) (cm : CacheManager) (now answeredAt : Int)
    (req : Request) (handler : Request → HandlerResult) :
    (serve env cm now answeredAt req handler).2.2 = cm ∨
    (req.method = "GET" ∧ (serve env cm now answeredAt req handler).2.1 = true ∧
      ∃ data, handler req = .json 200 data ∧
        (serve env cm now answeredAt req handler).2.2 =
          (cachedJson env cm answeredAt (cacheKey req) 200 data).2) := by
  by_cases hm : req.method = "GET"
  · have hmid : middleware env cm now req = .miss (cacheKey req) ∨
        (∃ h, middleware env cm now req = .notModified h) ∨
        (∃ h d, middleware env cm now req = .hit h d) := by
      unfold middleware
      have hg : (req.method != "GET") = false := by simp [hm]
      rw [hg]
      simp only [Bool.false_eq_true, if_false]
      cases hl : cm.cache.lookup (cacheKey req) with
      | none => exact Or.inl rfl
      | some c =>
        simp only []
        by_cases hv : isCacheValid cm now (some c) = true
        · rw [if_pos hv]
          by_cases h3 : (handleConditionalRequest env req c).shouldReturn304 = true
          · rw [if_pos h3]
            exact Or.inr (Or.inl ⟨_, rfl⟩)
          · rw [if_neg h3]
            exact Or.inr (Or.inr ⟨_, _, rfl⟩)
        · rw [if_neg hv]
          exact Or.inl rfl
    rcases hmid with h | ⟨h, hh⟩ | ⟨h, d, hh⟩
    · unfold serve
      rw [h]
      cases hr : handler req with
      | json statusCode data =>
        by_cases hs : statusCode = 200
        · subst hs
          exact Or.inr ⟨hm, rfl, data, rfl, rfl⟩
        · left
          show (respondVia env cm answeredAt (some (cacheKey req))
            (HandlerResult.json statusCode data)).2 = cm
          show (cachedJson env cm answeredAt (cacheKey req) statusCode data).2 = cm
          rw [cachedJson_not_200 env cm answeredAt _ statusCode data hs]
      | other statusCode => exact Or.inl rfl
    · left
      unfold serve
      rw [hh]
    · left
      unfold serve
      rw [hh]
  · left
    unfold serve middleware
    have hg : (req.method != "GET") = true := by simp [hm]
    rw [hg]
    simp only [if_true]
    cases handler req <;> rfl

/-- C21: when the cache holds `maxSize` entries and a 200 response is stored
under a key that is not present, the cache afterwards is the old one without its
first entry (the first-inserted key still present), followed by the new entry;
storing again under a present key does not move that key, and a request
answered from the cache leaves the cache as it was. -/
theorem eviction_removes_first_inserted (env : CacheEnv) (cm : CacheManager) (now : Int)
    (key data : String) (hpos : 1 ≤ cm.maxSize) (hfull : cm.cache.length = cm.maxSize)
    (hnew : cm.cache.lookup key = none) :
    (∃ first rest, cm.cache = first :: rest ∧
      (cachedJson env cm now key 200 data).2.cache =
        rest ++ [(key, ⟨data, generateETag env data, env.toUTCString now, now⟩)]) ∧
    (∀ k v, (cm.cache.lookup k).isSome = true →
      (mapSet cm.cache k v).map Prod.fst = cm.cache.map Prod.fst) ∧
    (∀ t answeredAt req handler, (serve env cm t answeredAt req handler).2.1 = false →
      (serve env cm t answeredAt req handler).2.2 = cm) := by
  refine ⟨?_, fun k v h => mapSet_keys _ k v h, ?_⟩
  · cases hc : cm.cache with
    | nil =>
      rw [hc] at hfull
      simp only [List.length_nil] at hfull
      omega
    | cons first rest =>
      refine ⟨first, rest, rfl, ?_⟩
      have hge : cm.cache.length ≥ cm.maxSize := by omega
      have ht : rest.lookup key = none := by
        have := lookup_tail_none cm.cache key hnew
        rw [hc] at this
        exact this
      unfold cachedJson
      simp only [beq_self_eq_true, if_true, hge]
      rw [hc, List.tail_cons]
      exact mapSet_absent rest key _ ht
  · intro t answeredAt req handler h
    rcases serve_store env cm t answeredAt req handler with hs | ⟨_, hran, _⟩
    · exact hs
    · rw [hran] at h
      cases h

/-- C22: for `maxSize ≥ 1`, a cache with at most `maxSize` entries still has at
most `maxSize` entries after a response is stored under any key (present or
not), after a whole request through the middleware, after `cleanup` and after
`clear`; none of them changes `maxSize`. -/
theorem cache_size_bounded (env : CacheEnv) (cm : CacheManager) (hpos : 1 ≤ cm.maxSize)
    (hsize : cm.cache.length ≤ cm.maxSize) :
    (∀ now key statusCode data,
      (cachedJson env cm now key statusCode data).2.cache.length ≤
        (cachedJson env cm now key statusCode data).2.maxSize ∧
      (cachedJson env cm now key statusCode data).2.maxSize = cm.maxSize) ∧
    (∀ now answeredAt req handler,
      (serve env cm now answeredAt req handler).2.2.cache.length ≤
        (serve env cm now answeredAt req handler).2.2.maxSize ∧
      (serve env cm now answeredAt req handler).2.2.maxSize = cm.maxSize) ∧
    (∀ now, (cleanup cm now).cache.length ≤ (cleanup cm now).maxSize ∧
      (cleanup cm now).maxSize = cm.maxSize) ∧
    (clear cm).cache.length ≤ (clear cm).maxSize ∧ (clear cm).maxSize = cm.maxSize := by
  refine ⟨?_, ?_, ?_, ?_, rfl⟩
  · intro now key statusCode data
    rw [cachedJson_maxSize]
    exact ⟨cachedJson_length env cm now key statusCode data hpos hsize, rfl⟩
  · intro now answeredAt req handler
    rcases serve_store env cm now answeredAt req handler with hs | ⟨_, _, data, _, hs⟩
    · rw [hs]
      exact ⟨hsize, rfl⟩
    · rw [hs, cachedJson_maxSize]
      exact ⟨cachedJson_length env cm answeredAt _ 200 data hpos hsize, rfl⟩
  · intro now
    refine ⟨?_, rfl⟩
    show (cm.cache.filter _).length ≤ cm.maxSize
    exact le_trans (List.length_filter_le _ _) hsize
  · show (0 : Nat) ≤ cm.maxSize
    omega

/-- C23: a request that is not a GET reaches the handler, is answered as the
handler answers whatever the cache holds, and leaves the cache as it was; a
request whose handler answers through `res.json` with a status other than 200
leaves the cache as it was, and the answer is handed to Express's `res.json` as
given, with its status and payload and no cache header (so it goes out as given
when the request has no conditional header or the status is neither 2xx nor
304); and whenever a request changes the cache, it is a GET whose handler ran
and answered through `res.json` with status 200. -/
theorem cache_changes_only_on_get_200 (env : CacheEnv) (cm : CacheManager)
    (now answeredAt : Int) (req : Request) (handler : Request → HandlerResult) :
    (req.method ≠ "GET" →
      (serve env cm now answeredAt req handler).2.1 = true ∧
      (serve env cm now answeredAt req handler).2.2 = cm ∧
      ∀ cm2, (serve env cm2 now answeredAt req handler).1 =
        (serve env cm now answeredAt req handler).1) ∧
    (∀ statusCode data, handler req = .json statusCode data → statusCode ≠ 200 →
      (serve env cm now answeredAt req handler).2.2 = cm ∧
      ((serve env cm now answeredAt req handler).2.1 = true →
        (serve env cm now answeredAt req handler).1 =
          originalJson env req ⟨statusCode, none, some data⟩ ∧
        ((req.ifNoneMatch = none ∧ req.ifModifiedSince = none) ∨
            statusCode < 200 ∨ (300 ≤ statusCode ∧ statusCode ≠ 304) →
          (serve env cm now answeredAt req handler).1 = ⟨statusCode, none, some data⟩))) ∧
    ((serve env cm now answeredAt req handler).2.2 ≠ cm →
      req.method = "GET" ∧ (serve env cm now answeredAt req handler).2.1 = true ∧
      ∃ data, handler req = .json 200 data) := by
  have hpass : ∀ cm1 : CacheManager, req.method ≠ "GET" →
      serve env cm1 now answeredAt req handler =
        (originalJson env req (respondVia env cm1 answeredAt none (handler req)).1, true,
         (respondVia env cm1 answeredAt none (handler req)).2) := by
    intro cm1 hm
    unfold serve middleware
    have hg : (req.method != "GET") = true := by simp [hm]
    rw [hg]
    rfl
  refine ⟨?_, ?_, ?_⟩
  · intro hm
    refine ⟨?_, ?_, ?_⟩
    · rw [hpass cm hm]
    · rw [hpass cm hm]
      cases handler req <;> rfl
    · intro cm2
      rw [hpass cm hm, hpass cm2 hm]
      cases handler req <;> rfl
  · intro statusCode data hr hs
    constructor
    · rcases serve_store env cm now answeredAt req handler with h | ⟨_, _, d, hd, _⟩
      · exact h
      · rw [hr] at hd
        cases hd
        exact absurd rfl hs
    · intro hran
      have hserve : (serve env cm now answeredAt req handler).1 =
          originalJson env req ⟨statusCode, none, some data⟩ := by
        unfold serve at hran ⊢
        cases hmid : middleware env cm now req with
        | notModified h =>
          rw [hmid] at hran
          cases hran
        | hit h d =>
          rw [hmid] at hran
          cases hran
        | pass =>
          simp only [hr]
          rfl
        | miss key =>
          simp only [hr]
          show originalJson env req (cachedJson env cm answeredAt key statusCode data).1 = _
          rw [cachedJson_not_200 env cm answeredAt key statusCode data hs]
      refine ⟨hserve, ?_⟩
      intro hc
      rw [hserve]
      rcases hc with ⟨hn, hi⟩ | hc
      · exact originalJson_unconditional env req _ hn hi
      · exact originalJson_other_status env req ⟨statusCode, none, some data⟩ hc
  · intro hne
    rcases serve_store env cm now answeredAt req handler with h | ⟨hm, hran, d, hd, _⟩
    · exact absurd h hne
    · exact ⟨hm, hran, d, hd⟩

/-- C24: after `cleanup` at `now` the cache holds exactly the entries of before
for which `now - timestamp > defaultDuration` is false, unchanged and in their
order; in particular an entry `isCacheValid` accepts at `now` is still there. -/
theorem cleanup_removes_exactly_expired (cm : CacheManager) (now : Int) :
    (∀ e, e ∈ (cleanup cm now).cache ↔
      e ∈ cm.cache ∧ ¬ (now - e.2.timestamp > cm.defaultDuration)) ∧
    List.Sublist (cleanup cm now).cache cm.cache ∧
    (∀ e ∈ cm.cache, isCacheValid cm now (some e.2) = true → e ∈ (cleanup cm now).cache) ∧
    (cleanup cm now).defaultDuration = cm.defaultDuration := by
  have hmem : ∀ e, e ∈ (cleanup cm now).cache ↔
      e ∈ cm.cache ∧ ¬ (now - e.2.timestamp > cm.defaultDuration) := by
    intro e
    show e ∈ cm.cache.filter _ ↔ _
    rw [List.mem_filter]
    simp
  refine ⟨hmem, ?_, ?_, rfl⟩
  · show List.Sublist (cm.cache.filter _) cm.cache
    exact List.filter_sublist _
  · intro e he hv
    rw [hmem]
    refine ⟨he, ?_⟩
    have hlt : now - e.2.timestamp < cm.defaultDuration := by
      simpa [isCacheValid] using hv
    omega

/-! ## Room names -/

theorem string_append_cancel (p a b : String) (h : p ++ a = p ++ b) : a = b := by
  have hd := congrArg String.data h
  simp only [String.data_append] at hd
  exact String.ext (List.append_cancel_left hd)

theorem board_room_ne_user_room (boardId x : String) : "board_" ++ boardId ≠ userRoom x := by
  intro h
  have hd := congrArg String.data h
  simp only [userRoom, String.data_append] at hd
  simp at hd

/-! ## Sockets and rooms -/

theorem Socket.mem_rooms_join (c : Socket) (room r : String) :
    r ∈ (c.join room).rooms ↔ r ∈ c.rooms ∨ r = room := by
  unfold Socket.join
  by_cases h : c.rooms.contains room = true
  · rw [if_pos h]
    constructor
    · exact Or.inl
    · rintro (h1 | h1)
      · exact h1
      · subst h1
        simpa using h
  · rw [if_neg h]
    simp

theorem Socket.mem_rooms_leave (c : Socket) (room r : String) :
    r ∈ (c.leave room).rooms ↔ r ∈ c.rooms ∧ r ≠ room := by
  unfold Socket.leave
  simp

theorem Socket.on_userId (c : Socket) (ev : ClientEvent) : (c.on ev).1.userId = c.userId := by
  cases ev <;> try rfl
  · show (c.join _).userId = c.userId
    unfold Socket.join
    split <;> rfl

theorem Socket.run_nil (c : Socket) : c.run [] = c := rfl

theorem Socket.run_cons (c : Socket) (ev : ClientEvent) (events : List ClientEvent) :
    c.run (ev :: events) = ((c.on ev).1).run events := rfl

theorem Socket.run_append (c : Socket) (pre post : List ClientEvent) :
    c.run (pre ++ post) = (c.run pre).run post := by
  unfold Socket.run
  rw [List.foldl_append]

theorem Socket.run_userId (c : Socket) (events : List ClientEvent) :
    (c.run events).userId = c.userId := by
  induction events generalizing c with
  | nil => rfl
  | cons ev rest ih => rw [Socket.run_cons, ih, Socket.on_userId]

/-- A room a socket is in after an event and was not in before is the board
room of a `join_board` event. -/
theorem Socket.mem_rooms_on (c : Socket) (ev : ClientEvent) (r : String)
    (h : r ∈ (c.on ev).1.rooms) :
    r ∈ c.rooms ∨ ∃ b, ev = .join_board b ∧ r = "board_" ++ b := by
  cases ev with
  | join_board b =>
    rcases (Socket.mem_rooms_join c _ r).1 h with h1 | h1
    · exact Or.inl h1
    · exact Or.inr ⟨b, rfl, h1⟩
  | leave_board b => exact Or.inl ((Socket.mem_rooms_leave c _ r).1 h).1
  | disconnect => exact absurd h (List.not_mem_nil r)
  | _ => exact Or.inl h

theorem Socket.mem_rooms_run (c : Socket) (events : List ClientEvent) (r : String)
    (h : r ∈ (c.run events).rooms) :
    r ∈ c.rooms ∨ ∃ b, ClientEvent.join_board b ∈ events ∧ r = "board_" ++ b := by
  induction events generalizing c with
  | nil => exact Or.inl h
  | cons ev rest ih =>
    rw [Socket.run_cons] at h
    rcases ih _ h with h1 | ⟨b, hb, hr⟩
    · rcases Socket.mem_rooms_on c ev r h1 with h2 | ⟨b, hb, hr⟩
      · exact Or.inl h2
      · exact Or.inr ⟨b, by rw [hb]; exact List.mem_cons_self _ _, hr⟩
    · exact Or.inr ⟨b, List.mem_cons_of_mem _ hb, hr⟩

/-- A socket stays in a room through events that neither leave it nor
disconnect. -/
theorem Socket.mem_rooms_run_keep (c : Socket) (events : List ClientEvent) (B : String)
    (h : "board_" ++ B ∈ c.rooms) (hl : ClientEvent.leave_board B ∉ events)
    (hd : ClientEvent.disconnect ∉ events) :
    "board_" ++ B ∈ (c.run events).rooms := by
  induction events generalizing c with
  | nil => exact h
  | cons ev rest ih =>
    rw [Socket.run_cons]
    apply ih
    · cases ev with
      | join_board b => exact (Socket.mem_rooms_join c _ _).2 (Or.inl h)
      | leave_board b =>
        refine (Socket.mem_rooms_leave c _ _).2 ⟨h, ?_⟩
        intro hb
        have : B = b := string_append_cancel _ _ _ hb
        subst this
        exact hl (List.mem_cons_self _ _)
      | disconnect => exact absurd (List.mem_cons_self _ _) hd
      | _ => exact h
    · exact fun hm => hl (List.mem_cons_of_mem _ hm)
    · exact fun hm => hd (List.mem_cons_of_mem _ hm)

theorem onConnection_rooms (id : String) (userId userEmail : Option String) (r : String) :
    r ∈ (onConnection id userId userEmail).rooms ↔ r = id ∨ r = userRoom (render userId) := by
  unfold onConnection
  rw [Socket.mem_rooms_join]
  simp

theorem newEmissions_emitToBoardRoom (s : Store) (B event : String) (data : Payload) :
    newEmissions s (emitToBoardRoom s B event data) =
      if s.ioReady then [⟨"board_" ++ B, event, data⟩] else [] := by
  unfold newEmissions emitToBoardRoom
  split
  · simp
  · simp

theorem mem_roomSockets (sockets : List Socket) (room : String) (c : Socket) :
    c ∈ roomSockets sockets room ↔ c ∈ sockets ∧ room ∈ c.rooms := by
  unfold roomSockets
  simp

/-- A freshly connected socket whose id is not the name of `B`s board room is
not in that room after events without a `join_board(B)`. -/
theorem not_in_board_room (id : String) (userId userEmail : Option String)
    (events : List ClientEvent) (B : String) (hid : id ≠ "board_" ++ B)
    (hev : ClientEvent.join_board B ∉ events) :
    "board_" ++ B ∉ ((onConnection id userId userEmail).run events).rooms := by
  intro h
  rcases Socket.mem_rooms_run _ _ _ h with h1 | ⟨b, hb, hr⟩
  · rcases (onConnection_rooms id userId userEmail _).1 h1 with h2 | h2
    · exact hid h2.symm
    · exact board_room_ne_user_room _ _ h2
  · have : B = b := string_append_cancel _ _ _ hr
    subst this
    exact hev hb

theorem not_in_board_room_after_leave (c : Socket) (post : List ClientEvent) (B : String)
    (hev : ClientEvent.join_board B ∉ post) :
    "board_" ++ B ∉ (((c.on (.leave_board B)).1).run post).rooms := by
  intro h
  rcases Socket.mem_rooms_run _ _ _ h with h1 | ⟨b, hb, hr⟩
  · exact ((Socket.mem_rooms_leave c _ _).1 h1).2 rfl
  · have : B = b := string_append_cancel _ _ _ hr
    subst this
    exact hev hb

/-- A connection that has sent no `join_board(B)`, or none since its last
`leave_board(B)`, is not in room `board_B`, unless that is its own id. -/
theorem not_in_board_room_of_events (id : String) (userId userEmail : Option String)
    (events : List ClientEvent) (B : String) (hid : id ≠ "board_" ++ B)
    (hev : ClientEvent.join_board B ∉ events ∨
      ∃ pre post, events = pre ++ ClientEvent.leave_board B :: post ∧
        ClientEvent.join_board B ∉ post) :
    "board_" ++ B ∉ ((onConnection id userId userEmail).run events).rooms := by
  intro hin
  rcases hev with hev | ⟨pre, post, hsplit, hpost⟩
  · exact not_in_board_room id userId userEmail events B hid hev hin
  · rw [hsplit, Socket.run_append, Socket.run_cons] at hin
    exact not_in_board_room_after_leave _ post B hpost hin

/-- C25: an `emitToBoardRoom(B, event, data)` is delivered only to sockets that
are in room `board_B`, whatever the store holds; and a connection (whose own id
is not that room name) that has sent no `join_board(B)`, or none since its last
`leave_board(B)`, is not among the recipients, nor among the recipients of
what another socket broadcasts to that room. -/
theorem board_event_only_in_room (id : String) (userId userEmail : Option String)
    (events : List ClientEvent) (B : String) (hid : id ≠ "board_" ++ B)
    (hev : ClientEvent.join_board B ∉ events ∨
      ∃ pre post, events = pre ++ ClientEvent.leave_board B :: post ∧
        ClientEvent.join_board B ∉ post) :
    ∀ (s : Store) (sockets : List Socket) (event : String) (data : Payload),
      (∀ e ∈ newEmissions s (emitToBoardRoom s B event data),
        (∀ c ∈ Emission.recipients sockets e, c ∈ sockets ∧ "board_" ++ B ∈ c.rooms) ∧
        (onConnection id userId userEmail).run events ∉ Emission.recipients sockets e) ∧
      (∀ (sender : Socket) (ev : ClientEvent), ∀ b ∈ (sender.on ev).2,
        b.room = "board_" ++ B →
        (onConnection id userId userEmail).run events ∉ Broadcast.recipients sockets b) := by
  intro s sockets event data
  have hout := not_in_board_room_of_events id userId userEmail events B hid hev
  refine ⟨?_, ?_⟩
  swap
  · intro sender ev b _ hb hc
    unfold Broadcast.recipients at hc
    rw [hb] at hc
    exact hout ((mem_roomSockets sockets _ _).1 (List.mem_of_mem_filter hc)).2
  intro e he
  rw [newEmissions_emitToBoardRoom] at he
  have hroom : e.room = "board_" ++ B := by
    split at he
    · rw [List.mem_singleton] at he
      rw [he]
    · exact absurd he (List.not_mem_nil e)
  unfold Emission.recipients
  rw [hroom]
  refine ⟨fun c hc => (mem_roomSockets sockets _ c).1 hc, ?_⟩
  intro hc
  exact hout ((mem_roomSockets sockets _ _).1 hc).2

/-- C27: the handshake accepts exactly when the token is present (non-empty)
and `verifyIdToken` or `jwt.verify` accepts it; a missing token is refused with
"No token provided" and a token both reject with "Invalid token". -/
theorem handshake_accepts_iff (env : HandshakeEnv) (token : Option String) :
    ((∃ userId userEmail, handshake env token = .accepted userId userEmail) ↔
      ∃ t, token = some t ∧ t ≠ "" ∧
        ((env.verifyIdToken t).isSome = true ∨ (env.jwtVerify t).isSome = true)) ∧
    (truthy token = false →
      handshake env token = .refused "Authentication error: No token provided") ∧
    (∀ t, token = some t → t ≠ "" → env.verifyIdToken t = none → env.jwtVerify t = none →
      handshake env token = .refused "Authentication error: Invalid token") := by
  refine ⟨?_, ?_, ?_⟩
  · cases token with
    | none =>
      constructor
      · rintro ⟨u, e, h⟩
        cases h
      · rintro ⟨t, h, _⟩
        cases h
    | some t =>
      by_cases ht : t = ""
      · subst ht
        constructor
        · rintro ⟨u, e, h⟩
          cases h
        · rintro ⟨t, h, hne, _⟩
          cases h
          exact absurd rfl hne
      · have htr : (!truthy (some t)) = false := by simp [truthy, ht]
        unfold handshake
        simp only [htr, Bool.false_eq_true, if_false]
        cases hf : env.verifyIdToken t with
        | some d =>
          simp only []
          exact ⟨fun _ => ⟨t, rfl, ht, Or.inl (by rw [hf]; rfl)⟩, fun _ => ⟨_, _, rfl⟩⟩
        | none =>
          cases hj : env.jwtVerify t with
          | some d =>
            simp only []
            exact ⟨fun _ => ⟨t, rfl, ht, Or.inr (by rw [hj]; rfl)⟩, fun _ => ⟨_, _, rfl⟩⟩
          | none =>
            simp only []
            constructor
            · rintro ⟨u, e, h⟩
              cases h
            · rintro ⟨t2, h, _, hv⟩
              cases h
              rw [hf, hj] at hv
              rcases hv with hv | hv <;> cases hv
  · intro h
    cases token with
    | none => rfl
    | some t =>
      unfold handshake
      simp only [h, Bool.not_false, if_true]
  · intro t htok ht hf hj
    subst htok
    have htr : (!truthy (some t)) = false := by simp [truthy, ht]
    unfold handshake
    simp only [htr, Bool.false_eq_true, if_false, hf, hj]

/-- C29: a connection (whose own id is not a `user_` room name) is in room
`user_<x>` only for `x` the text of its own `socket.userId`, which no event
changes; a board room name is never a user room name; and a room entered
through a client event is always a board room. -/
theorem user_room_only_own (id : String) (userId userEmail : Option String)
    (events : List ClientEvent) (hid : ∀ x, id ≠ userRoom x) :
    (∀ x, userRoom x ∈ ((onConnection id userId userEmail).run events).rooms →
      x = render userId) ∧
    ((onConnection id userId userEmail).run events).userId = userId ∧
    (∀ boardId x, "board_" ++ boardId ≠ userRoom x) ∧
    (∀ (c : Socket) (ev : ClientEvent) (r : String), r ∈ (c.on ev).1.rooms → r ∉ c.rooms →
      ∃ boardId, ev = .join_board boardId ∧ r = "board_" ++ boardId) := by
  refine ⟨?_, ?_, board_room_ne_user_room, ?_⟩
  · intro x hx
    rcases Socket.mem_rooms_run _ _ _ hx with h1 | ⟨b, _, hr⟩
    · rcases (onConnection_rooms id userId userEmail _).1 h1 with h2 | h2
      · exact absurd h2.symm (hid x)
      · exact string_append_cancel "user_" _ _ h2
    · exact absurd hr.symm (board_room_ne_user_room b x)
  · rw [Socket.run_userId]
    unfold onConnection Socket.join
    split <;> rfl
  · intro c ev r h hn
    rcases Socket.mem_rooms_on c ev r h with h1 | h1
    · exact absurd h1 hn
    · exact h1

/-- C30: after `join_board(B)` a connection is in room `board_B`, and as long as
it neither sends `leave_board(B)` nor disconnects it is a recipient of every
`emitToBoardRoom(B, ...)`; the listener never reads the store, so this holds
whoever the members of `B` are. -/
theorem join_board_without_membership (s : Store) (sockets : List Socket) (c : Socket)
    (B : String) (events : List ClientEvent) (hio : s.ioReady = true)
    (hev : ClientEvent.leave_board B ∉ events ∧ ClientEvent.disconnect ∉ events)
    (hc : ((c.on (.join_board B)).1).run events ∈ sockets) :
    "board_" ++ B ∈ (c.on (.join_board B)).1.rooms ∧
    ∀ event data,
      newEmissions s (emitToBoardRoom s B event data) = [⟨"board_" ++ B, event, data⟩] ∧
      ((c.on (.join_board B)).1).run events ∈
        Emission.recipients sockets ⟨"board_" ++ B, event, data⟩ := by
  have hin : "board_" ++ B ∈ (c.on (.join_board B)).1.rooms :=
    (Socket.mem_rooms_join c _ _).2 (Or.inr rfl)
  refine ⟨hin, fun event data => ⟨?_, ?_⟩⟩
  · rw [newEmissions_emitToBoardRoom, if_pos hio]
  · unfold Emission.recipients
    exact (mem_roomSockets sockets _ _).2
      ⟨hc, Socket.mem_rooms_run_keep _ events B hin hev.1 hev.2⟩

/-! ## Evaluations at concrete states: cache, authentication and sockets -/

/-- C21, at a full cache of three: `/a` was stored first and stored again after
`/b`; storing `/d` removes `/a`, the key inserted first, and keeps `/b`, whose
entry is the oldest. -/
theorem eviction_removes_first_inserted_witness :
    smallCache.cache.map (fun e => (e.1, e.2.data, e.2.timestamp)) =
      [("/a", "A2", 50000), ("/b", "B", 1000), ("/c", "C", 50500)] ∧
    (cachedJson sampleEnv smallCache 60000 "/d" 200 "D").2.cache.map Prod.fst =
      ["/b", "/c", "/d"] ∧
    ∃ first rest, smallCache.cache = first :: rest ∧
      (cachedJson sampleEnv smallCache 60000 "/d" 200 "D").2.cache =
        rest ++ [("/d", ⟨"D", generateETag sampleEnv "D", sampleEnv.toUTCString 60000, 60000⟩)] :=
  ⟨by decide, by decide,
   (eviction_removes_first_inserted sampleEnv smallCache 60000 "/d" "D"
      (by decide) (by decide) (by decide)).1⟩

/-- C22, at a full cache of three and a key that is present: the first entry is
removed and the key is stored, in its place when it is still there and at the
end otherwise; the size stays within `maxSize`.  The empty singleton cache is
within its `maxSize` of 1000 as well. -/
theorem cache_size_bounded_witness :
    (cacheManager.cache.length ≤ cacheManager.maxSize ∧ 1 ≤ cacheManager.maxSize) ∧
    (cachedJson sampleEnv smallCache 60000 "/b" 200 "B2").2.cache.map Prod.fst =
      ["/b", "/c"] ∧
    (cachedJson sampleEnv smallCache 60000 "/a" 200 "A3").2.cache.map Prod.fst =
      ["/b", "/c", "/a"] ∧
    (cachedJson sampleEnv smallCache 60000 "/a" 200 "A3").2.cache.length ≤
      (cachedJson sampleEnv smallCache 60000 "/a" 200 "A3").2.maxSize ∧
    (cachedJson sampleEnv smallCache 60000 "/a" 200 "A3").2.maxSize = smallCache.maxSize :=
  ⟨by decide, by decide, by decide,
   (cache_size_bounded sampleEnv smallCache (by decide) (by decide)).1 60000 "/a" 200 "A3"⟩

/-- C23, for a POST to a URL that has a fresh cache entry: the handler runs, the
cache stays as it was and the answer does not depend on the cache. -/
theorem cache_changes_only_on_get_200_witness :
    (serve sampleEnv afterFirstGet 2000 2005
        ⟨"POST", "/api/boards/b1/members", none, none, none⟩
        (fun _ => .json 200 "created")).2.1 = true ∧
    (serve sampleEnv afterFirstGet 2000 2005
        ⟨"POST", "/api/boards/b1/members", none, none, none⟩
        (fun _ => .json 200 "created")).2.2 = afterFirstGet ∧
    ∀ cm2, (serve sampleEnv cm2 2000 2005
        ⟨"POST", "/api/boards/b1/members", none, none, none⟩
        (fun _ => .json 200 "created")).1 =
      (serve sampleEnv afterFirstGet 2000 2005
        ⟨"POST", "/api/boards/b1/members", none, none, none⟩
        (fun _ => .json 200 "created")).1 :=
  (cache_changes_only_on_get_200 sampleEnv afterFirstGet 2000 2005
    ⟨"POST", "/api/boards/b1/members", none, none, none⟩
    (fun _ => .json 200 "created")).1 (by decide)

/-- C24, at time 60000: `/b` (stored at 1000) is removed, `/a` (stored at 50000)
and `/c` (stored at 50500) are valid and stay. -/
theorem cleanup_removes_exactly_expired_witness :
    (cleanup smallCache 60000).cache.map Prod.fst = ["/a", "/c"] ∧
    (("/a", ⟨"A2", "\"A2\"", "Thu, 01 Jan 1970 00:00:00 GMT", 50000⟩) :
      String × CacheEntry) ∈ (cleanup smallCache 60000).cache :=
  ⟨by decide,
   (cleanup_removes_exactly_expired smallCache 60000).2.2.1
     ("/a", ⟨"A2", "\"A2\"", "Thu, 01 Jan 1970 00:00:00 GMT", 50000⟩) (by decide) (by decide)⟩

/-- C25, for a connection of `u9` that joined `b1`, left it again and then
joined `b2`: it is not a recipient of a `member_joined` sent to the room of
`b1`. -/
theorem board_event_only_in_room_witness :
    (onConnection "s-9" (some "u9") none).run
        [.join_board "b1", .task_updated "b1", .leave_board "b1", .join_board "b2"] ∉
      Emission.recipients
        [(onConnection "s-9" (some "u9") none).run
          [.join_board "b1", .task_updated "b1", .leave_board "b1", .join_board "b2"]]
        ⟨"board_b1", "member_joined", .memberJoined "b1" "u1"⟩ :=
  ((board_event_only_in_room "s-9" (some "u9") none
    [.join_board "b1", .task_updated "b1", .leave_board "b1", .join_board "b2"] "b1"
    (by decide)
    (Or.inr ⟨[.join_board "b1", .task_updated "b1"], [.join_board "b2"], rfl, by decide⟩)
    sprintStore
    [(onConnection "s-9" (some "u9") none).run
      [.join_board "b1", .task_updated "b1", .leave_board "b1", .join_board "b2"]]
    "member_joined" (.memberJoined "b1" "u1")).1
    ⟨"board_b1", "member_joined", .memberJoined "b1" "u1"⟩ (by decide)).2

/-- C26: a token for which `verifyIdToken` throws `auth/id-token-expired` is
answered 403 "Invalid token", exactly as a malformed one; no verifiers and no
token make `authenticateToken` answer 401 "Token expired". -/
theorem expired_token_answered_invalid :
    expiringVerifiers.verifyIdToken "old" = .error "auth/id-token-expired" ∧
    authenticateToken expiringVerifiers (some "old") = .rejected 403 "Invalid token" ∧
    authenticateToken expiringVerifiers (some "junk") = .rejected 403 "Invalid token" ∧
    authenticateToken expiringVerifiers none = .rejected 401 "Access token required" ∧
    ∀ (v : Verifiers) (token : Option String),
      authenticateToken v token ≠ .rejected 401 "Token expired" := by
  refine ⟨rfl, by decide, by decide, by decide, ?_⟩
  intro v token h
  cases token with
  | none =>
    have h2 : AuthResult.rejected 401 "Access token required" =
        AuthResult.rejected 401 "Token expired" := h
    exact absurd h2 (by decide)
  | some t =>
    dsimp only [authenticateToken] at h
    by_cases ht : (!truthy (some t)) = true
    · rw [if_pos ht] at h
      exact absurd h (by decide)
    · rw [if_neg ht] at h
      unfold verifyToken at h
      cases hf : v.verifyIdToken t with
      | ok uid =>
        rw [hf] at h
        cases h
      | error e =>
        rw [hf] at h
        cases hj : v.jwtVerify t with
        | some uid =>
          rw [hj] at h
          cases h
        | none =>
          rw [hj] at h
          have h2 : AuthResult.rejected 403 "Invalid token" =
              AuthResult.rejected 401 "Token expired" := h
          exact absurd h2 (by decide)

/-- C27, for a JWT of `u2` the identity provider rejects: the handshake
accepts, and the email is read from the user record; a token both verifiers
reject, an empty token and no token are refused. -/
theorem handshake_accepts_iff_witness :
    handshake sampleHandshake (some "jwt-u2") = .accepted (some "u2") (some "User Two") ∧
    handshake sampleHandshake (some "junk") = .refused "Authentication error: Invalid token" ∧
    handshake sampleHandshake (some "") =
      .refused "Authentication error: No token provided" ∧
    handshake sampleHandshake none = .refused "Authentication error: No token provided" ∧
    ∃ userId userEmail, handshake sampleHandshake (some "jwt-u2") = .accepted userId userEmail :=
  ⟨by decide, by decide, by decide, by decide,
   (handshake_accepts_iff sampleHandshake (some "jwt-u2")).1.2
     ⟨"jwt-u2", rfl, by decide, Or.inr rfl⟩⟩

/-- C28: through the routes as mounted, a GET without a token is answered 401
while the cache is empty; once `u1` has fetched the member list of `b1`, the same
GET without a token is answered 200 with that list (and 304 when it carries the
entry's ETag), and neither authentication nor the controller runs. -/
theorem unauthenticated_get_served_from_cache :
    mountedRoute sampleEnv sampleVerifiers sampleHandler cacheManager 2000 2005
        (anonymousGet none) =
      (⟨401, none, some "Access token required"⟩, true, cacheManager) ∧
    (mountedRoute sampleEnv sampleVerifiers sampleHandler afterFirstGet 2000 2005
        (anonymousGet none)).1.status = 200 ∧
    (mountedRoute sampleEnv sampleVerifiers sampleHandler afterFirstGet 2000 2005
        (anonymousGet none)).1.body = some "members of b1 as shown to u1" ∧
    (mountedRoute sampleEnv sampleVerifiers sampleHandler afterFirstGet 2000 2005
        (anonymousGet none)).2.1 = false ∧
    (mountedRoute sampleEnv sampleVerifiers sampleHandler afterFirstGet 2000 2005
        (anonymousGet (some "\"members of b1 as shown to u1\""))).1.status = 304 := by
  decide

/-- C29, for a connection of `u9` that sends `join_board` with the text
`user_u1`: the room it enters is `board_user_u1`, and the only user room it is in
is its own. -/
theorem user_room_only_own_witness :
    ((onConnection "s-9" (some "u9") none).run [.join_board "user_u1"]).rooms =
      ["s-9", "user_u9", "board_user_u1"] ∧
    ∀ x, userRoom x ∈ ((onConnection "s-9" (some "u9") none).run
        [.join_board "user_u1"]).rooms → x = render (some "u9") :=
  ⟨by decide,
   (user_room_only_own "s-9" (some "u9") none [.join_board "user_u1"]
      (fun x h => by
        have hd := congrArg String.data h
        simp [userRoom, String.data_append] at hd)).1⟩

/-- C30, for `u9`, who is not a member of `b1`: after `join_board("b1")` the
connection is a recipient of a `member_joined` sent to the room of `b1`. -/
theorem join_board_without_membership_witness :
    (Board.findById sprintStore "b1").map (fun b => b.members) = some ["o1", "m1"] ∧
    outsider.userId = some "u9" ∧
    "board_b1" ∈ (outsider.on (.join_board "b1")).1.rooms ∧
    newEmissions sprintStore
        (emitToBoardRoom sprintStore "b1" "member_joined" (.memberJoined "b1" "u1")) =
      [⟨"board_b1", "member_joined", .memberJoined "b1" "u1"⟩] ∧
    ((outsider.on (.join_board "b1")).1).run [.task_updated "b1"] ∈
      Emission.recipients [((outsider.on (.join_board "b1")).1).run [.task_updated "b1"]]
        ⟨"board_b1", "member_joined", .memberJoined "b1" "u1"⟩ :=
  have h := join_board_without_membership sprintStore
    [((outsider.on (.join_board "b1")).1).run [.task_updated "b1"]] outsider "b1"
    [.task_updated "b1"] rfl ⟨by decide, by decide⟩ (by decide)
  ⟨by decide, by decide, h.1, h.2 "member_joined" (.memberJoined "b1" "u1")⟩

end MiniTrello
